import Mathlib

/-!
# CSBatagi front end: team picker and attendance cycling

A shallow embedding of the parts of `frontend/scripts/teamPicker.js`,
`scripts/teamPicker.js`, `scripts/statsTables.js`, `scripts/attendance.js` and
`components/Attendance/EmojiControls.tsx` that decide the stated properties.

Modelling conventions.
* A JavaScript plain object with string keys is an association list in
  insertion order (`JSObject`); `o[k]` is `JSObject.get`, `o[k] = v` is
  `JSObject.set`, `delete o[k]` is `JSObject.delete`.  The prototype chain and
  the integer-key ordering rule of `Object.keys` are not modelled.
* A JavaScript number is either `NaN` or a rational.  Where the value of an
  arithmetic result is stated (`updateTeamStats`, and the normalisation in the
  namespace `Float64`), every operation is rounded to the nearest double, ties
  to even (`roundDouble`).  The order and zero properties of the normalisation
  are stated over exact rationals (`normalizeStatWithFixedRange`) and hold in
  double arithmetic as well (the lemmas `float_normalize_...`).  Signed zero,
  the infinities and overflow are not modelled.
* DOM look-ups are explicit arguments (the element found, or `none`).
* Timers run in discrete time, in whole milliseconds.  A timeout runs at or
  after its due time; whether the timeouts due before a call have run by then
  is part of the call (`ChartCall`).
* `parseFloat` is an argument (any function from strings to a number or
  `NaN`); `trim` removes white space and line terminators by code point.
-/

namespace CSBatagi

/-! ## JavaScript objects -/

/-- A plain JavaScript object with string keys, in insertion order. -/
abbrev JSObject (α : Type) := List (String × α)

namespace JSObject

variable {α : Type}

/-- Property read `o[k]`; `none` stands for `undefined`. -/
def get (o : JSObject α) (k : String) : Option α :=
  match o with
  | [] => none
  | (k', v) :: rest => if k' = k then some v else get rest k

/-- Property write `o[k] = v`: overwrite in place, or append a new key. -/
def set (o : JSObject α) (k : String) (v : α) : JSObject α :=
  match o with
  | [] => [(k, v)]
  | (k', v') :: rest => if k' = k then (k, v) :: rest else (k', v') :: set rest k v

/-- Property removal `delete o[k]`. -/
def delete (o : JSObject α) (k : String) : JSObject α :=
  o.filter (fun e => decide (e.1 ≠ k))

/-- The list `Object.keys(o)`. -/
def keys (o : JSObject α) : List String := o.map Prod.fst

/-- The list `Object.values(o)`. -/
def values (o : JSObject α) : List α := o.map Prod.snd

end JSObject

/-! ## Values -/

/-- What a stat field of a player can hold: the field is filled from a numeric
JSON column (`mergePlayerWithStats`) or from `parseFloat` / `null`
(`savePlayerEdits`), so it is `undefined`, `null`, `NaN` or a number. -/
inductive StatValue where
  | undefined
  | null
  | nan
  | num (q : ℚ)
  deriving DecidableEq, Repr

/-- A JavaScript value as far as `typeof value` and `isNaN(value)` on numbers
can tell values apart. -/
inductive JSValue where
  | undefined
  | null
  | nan
  | num (q : ℚ)
  | str (s : String)
  | bool (b : Bool)
  deriving DecidableEq, Repr

/-- The test `typeof value === 'number'`. -/
def JSValue.typeofNumber : JSValue → Bool
  | .nan => true
  | .num _ => true
  | _ => false

/-! ## Double-precision arithmetic -/

/-- Rounding of a rational to the nearest integer, ties to the even one. -/
def roundHalfEven (x : ℚ) : ℤ :=
  if x - ⌊x⌋ < 1 / 2 then ⌊x⌋
  else if 1 / 2 < x - ⌊x⌋ then ⌊x⌋ + 1
  else if ⌊x⌋ % 2 = 0 then ⌊x⌋ else ⌊x⌋ + 1

/-- The exponent of the spacing of the doubles around `x`: 52 below the binary
exponent of `x` (a double has 53 significant bits), and never below `-1074`,
the exponent of the smallest subnormal. -/
def ulpExponent (x : ℚ) : ℤ := max (Int.log 2 |x| - 52) (-1074)

/-- The double nearest to a rational, ties to even (IEEE 754 binary64,
round-to-nearest-even).  Overflow to an infinity is not modelled. -/
def roundDouble (x : ℚ) : ℚ := roundHalfEven (x / 2 ^ ulpExponent x) * 2 ^ ulpExponent x

/-- A rational that is a double. -/
def isDouble (x : ℚ) : Prop := roundDouble x = x

instance isDoubleDecidable : DecidablePred isDouble :=
  fun x => inferInstanceAs (Decidable (roundDouble x = x))

/-- The operator `a + b` on numbers. -/
def jsAdd (a b : ℚ) : ℚ := roundDouble (a + b)

/-- The operator `a - b` on numbers. -/
def jsSub (a b : ℚ) : ℚ := roundDouble (a - b)

/-- The operator `a * b` on numbers. -/
def jsMul (a b : ℚ) : ℚ := roundDouble (a * b)

/-- The operator `a / b` on numbers, for a divisor other than zero. -/
def jsDiv (a b : ℚ) : ℚ := roundDouble (a / b)

/-! ## Fixed ranges and normalisation (teamPicker.js, lines 14-33) -/

/-- One entry `{ min, max }` of a fixed-range table. -/
structure Range where
  min : ℚ
  max : ℚ
  deriving DecidableEq, Repr

/-- The table `TEAM_CHART_FIXED_RANGES`. -/
def TEAM_CHART_FIXED_RANGES : JSObject Range :=
  [ ("L10_HLTV2", { min := 70 / 100, max := 140 / 100 }),
    ("L10_ADR", { min := 50, max := 100 }),
    ("L10_KD", { min := 70 / 100, max := 140 / 100 }),
    ("S_HLTV2", { min := 70 / 100, max := 140 / 100 }),
    ("S_ADR", { min := 50, max := 100 }) ]

/-- The function `normalizeStatWithFixedRange(value, statKey, fixedRanges)`,
with the arithmetic of line 31 over exact rationals.
The guard of line 26 is taken disjunct by disjunct: `!range`,
`range.max === range.min`, `typeof value !== 'number'`, and `isNaN(value)`,
which for a value of type number is the case `NaN` of the last match. -/
def normalizeStatWithFixedRange (value : JSValue) (statKey : String)
    (fixedRanges : JSObject Range) : ℚ :=
  match fixedRanges.get statKey with
  | none => 0
  | some range =>
    if range.max = range.min then 0
    else if !value.typeofNumber then 0
    else
      match value with
      | .num v =>
        let clampedValue := max range.min (min range.max v)
        let normalized := ((clampedValue - range.min) / (range.max - range.min)) * 100
        max 0 (min 100 normalized)
      | _ => 0

/-- The table `TEAM_CHART_FIXED_RANGES` as the program holds it: every numeric
literal denotes the double nearest to it. -/
def Float64.TEAM_CHART_FIXED_RANGES : JSObject Range :=
  [ ("L10_HLTV2", { min := roundDouble (70 / 100), max := roundDouble (140 / 100) }),
    ("L10_ADR", { min := roundDouble 50, max := roundDouble 100 }),
    ("L10_KD", { min := roundDouble (70 / 100), max := roundDouble (140 / 100) }),
    ("S_HLTV2", { min := roundDouble (70 / 100), max := roundDouble (140 / 100) }),
    ("S_ADR", { min := roundDouble 50, max := roundDouble 100 }) ]

/-- The function `normalizeStatWithFixedRange(value, statKey, fixedRanges)`
with the arithmetic of line 31 in doubles: the subtraction, the division and
the multiplication are each rounded.  `Math.max` and `Math.min` do not round. -/
def Float64.normalizeStatWithFixedRange (value : JSValue) (statKey : String)
    (fixedRanges : JSObject Range) : ℚ :=
  match fixedRanges.get statKey with
  | none => 0
  | some range =>
    if range.max = range.min then 0
    else if !value.typeofNumber then 0
    else
      match value with
      | .num v =>
        let clampedValue := max range.min (min range.max v)
        let normalized :=
          jsMul (jsDiv (jsSub clampedValue range.min) (jsSub range.max range.min)) 100
        max 0 (min 100 normalized)
      | _ => 0

/-! ## Players, stat tables and the team-picker state -/

/-- The six stat fields of a player (`player.stats`); a field that is absent
reads as `undefined`. -/
structure PlayerStats where
  L10_HLTV2 : StatValue := .undefined
  L10_ADR : StatValue := .undefined
  L10_KD : StatValue := .undefined
  S_HLTV2 : StatValue := .undefined
  S_ADR : StatValue := .undefined
  S_KD : StatValue := .undefined
  deriving DecidableEq, Repr

/-- Property read `stats[stat]`. -/
def PlayerStats.get (stats : PlayerStats) (stat : String) : StatValue :=
  if stat = "L10_HLTV2" then stats.L10_HLTV2
  else if stat = "L10_ADR" then stats.L10_ADR
  else if stat = "L10_KD" then stats.L10_KD
  else if stat = "S_HLTV2" then stats.S_HLTV2
  else if stat = "S_ADR" then stats.S_ADR
  else if stat = "S_KD" then stats.S_KD
  else .undefined

/-- A player object `{ name, steamId, status, stats }`; `none` is a missing
field. -/
structure Player where
  name : Option String
  steamId : Option String
  status : Option String
  stats : Option PlayerStats
  deriving DecidableEq, Repr

/-- The read `player.stats?.[stat]`. -/
def Player.stat (player : Player) (stat : String) : StatValue :=
  match player.stats with
  | none => .undefined
  | some stats => stats.get stat

/-- A processed attendance entry `{ name, status, steamId }`. -/
structure AttendanceEntry where
  name : String
  status : String
  steamId : String
  deriving DecidableEq, Repr

/-- A record of a stats table, restricted to the columns the team picker reads. -/
structure StatRecord where
  steam_id : Option String
  hltv_2 : StatValue
  adr : StatValue
  kd : StatValue
  deriving DecidableEq, Repr

/-- The id-indexed maps held by `StatsTables` (statsTables.js, lines 11-12). -/
structure StatsTables where
  seasonStatsBySteamId : JSObject StatRecord
  last10StatsBySteamId : JSObject StatRecord
  deriving Repr

/-- The getter `getSeasonStatsBySteamId`: `seasonStatsBySteamId[steamId] || null`. -/
def StatsTables.getSeasonStatsBySteamId (t : StatsTables) (steamId : String) :
    Option StatRecord :=
  t.seasonStatsBySteamId.get steamId

/-- The getter `getLast10StatsBySteamId`: `last10StatsBySteamId[steamId] || null`. -/
def StatsTables.getLast10StatsBySteamId (t : StatsTables) (steamId : String) :
    Option StatRecord :=
  t.last10StatsBySteamId.get steamId

/-- One slot `{ mapName, t_team, ct_team }` of the map selections; `none` is a
missing field. -/
structure MapSelection where
  mapName : Option String
  t_team : Option String
  ct_team : Option String
  deriving DecidableEq, Repr

/-- The slot `{ mapName: '', t_team: '', ct_team: '' }` used where a slot is
missing. -/
def MapSelection.empty : MapSelection :=
  { mapName := some "", t_team := some "", ct_team := some "" }

/-- The object `{ map1, map2, map3 }`; `none` is a missing slot. -/
structure MapSelections where
  map1 : Option MapSelection
  map2 : Option MapSelection
  map3 : Option MapSelection
  deriving DecidableEq, Repr

/-- The mutable fields of the `TeamPicker` object used below.  The defaults of
the names and of the map selections are the initial values of lines 48-54. -/
structure TeamPicker where
  availablePlayers : JSObject Player
  currentAttendanceData : JSObject AttendanceEntry
  teamAPlayersData : JSObject Player
  teamBPlayersData : JSObject Player
  teamAAverages : JSObject ℚ
  teamBAverages : JSObject ℚ
  teamAName : String := "Team A"
  teamBName : String := "Team B"
  mapSelections : MapSelections :=
    { map1 := some MapSelection.empty, map2 := some MapSelection.empty,
      map3 := some MapSelection.empty }
  deriving Repr

/-- The constant `TeamPicker.DB_PATH`. -/
def DB_PATH : String := "teamPickerState"

/-- The template string for a roster entry path,
`DB_PATH/teamPath/players/steamId`. -/
def playerPath (teamPath steamId : String) : String :=
  DB_PATH ++ "/" ++ teamPath ++ "/players/" ++ steamId

/-! ## `TeamPicker.mergePlayerWithStats` (teamPicker.js, lines 1194-1222) -/

/-- The function `mergePlayerWithStats(player)`. -/
def mergePlayerWithStats (tables : StatsTables) (player : Player) : Player :=
  match player.steamId with
  | none => { player with stats := some {} }
  | some steamId =>
    if steamId = "" then { player with stats := some {} }
    else
      let stats : PlayerStats := {}
      let stats :=
        match tables.getLast10StatsBySteamId steamId with
        | some last10 =>
          { stats with L10_HLTV2 := last10.hltv_2, L10_ADR := last10.adr, L10_KD := last10.kd }
        | none => stats
      let stats :=
        match tables.getSeasonStatsBySteamId steamId with
        | some season =>
          { stats with S_HLTV2 := season.hltv_2, S_ADR := season.adr, S_KD := season.kd }
        | none => stats
      { player with stats := some stats }

/-! ## `TeamPicker.updateAvailablePlayerDisplay` (teamPicker.js, lines 451-478) -/

/-- The loop of lines 461-474: every attendance entry with status `'coming'`
is merged with its stats and stored under its steam id. -/
def buildAvailablePlayers (tables : StatsTables) (attendance : JSObject AttendanceEntry) :
    JSObject Player :=
  attendance.foldl
    (fun pool entry =>
      let steamId := entry.1
      let playerData := entry.2
      if playerData.status = "coming" then
        pool.set steamId
          (mergePlayerWithStats tables
            { name := some playerData.name, steamId := some steamId,
              status := some playerData.status, stats := none })
      else pool)
    []

/-- The function `updateAvailablePlayerDisplay()`; `container` tells whether
the element `#available-players` exists. -/
def updateAvailablePlayerDisplay (tables : StatsTables) (container : Bool)
    (self : TeamPicker) : TeamPicker :=
  if !container then self
  else if self.currentAttendanceData.keys.length = 0 then self
  else { self with availablePlayers := buildAvailablePlayers tables self.currentAttendanceData }

/-! ## Attendance listener, eviction logic (teamPicker.js, lines 164-196) -/

/-- The test `!processed[steamId] || processed[steamId].status !== 'coming'`. -/
def notComing (processed : JSObject AttendanceEntry) (steamId : String) : Bool :=
  match processed.get steamId with
  | none => true
  | some entry => decide (entry.status ≠ "coming")

/-- The expression `team[steamId]?.name || steamId`. -/
def nameOrId (team : JSObject Player) (steamId : String) : String :=
  match team.get steamId with
  | none => steamId
  | some player =>
    match player.name with
    | none => steamId
    | some name => if name = "" then steamId else name

/-- The `updates` object and the `playersToRemove` log list. -/
abbrev Evictions := JSObject (Option Player) × List String

/-- The loop over `Object.keys(TeamPicker.teamAPlayersData)`, lines 169-174. -/
def evictTeamA (processed : JSObject AttendanceEntry) (teamA : JSObject Player)
    (acc : Evictions) : Evictions :=
  teamA.keys.foldl
    (fun acc steamId =>
      if notComing processed steamId then
        (acc.1.set (playerPath "teamA" steamId) none, acc.2 ++ [nameOrId teamA steamId])
      else acc)
    acc

/-- The loop over `Object.keys(TeamPicker.teamBPlayersData)`, lines 177-185. -/
def evictTeamB (processed : JSObject AttendanceEntry) (teamB : JSObject Player)
    (acc : Evictions) : Evictions :=
  teamB.keys.foldl
    (fun acc steamId =>
      if notComing processed steamId then
        (acc.1.set (playerPath "teamB" steamId) none,
          if acc.2.contains (nameOrId teamB steamId) then acc.2
          else acc.2 ++ [nameOrId teamB steamId])
      else acc)
    acc

/-- Lines 165-185 of the attendance listener: the multi-path update that
removes from both rosters every player who is not coming any more. -/
def attendanceEvictions (processed : JSObject AttendanceEntry) (self : TeamPicker) :
    Evictions :=
  evictTeamB processed self.teamBPlayersData
    (evictTeamA processed self.teamAPlayersData ([], []))

/-- Lines 187-195: the update is sent to the store only when it has a key. -/
def attendanceEvictionWrite (processed : JSObject AttendanceEntry) (self : TeamPicker) :
    Option (JSObject (Option Player)) :=
  let updates := (attendanceEvictions processed self).1
  if updates.keys.length > 0 then some updates else none

/-! ## `TeamPicker.updateTeamStats` (teamPicker.js, lines 723-782) -/

/-- The array `statsToAverage` of line 747. -/
def statsToAverage : List String :=
  ["L10_HLTV2", "L10_ADR", "L10_KD", "S_HLTV2", "S_ADR", "S_KD"]

/-- The `data-stat` attributes of the cells of the averages row, in the order
in which `updatePlayerSlots` writes them (lines 702-711). -/
def averagesRowCells : List String :=
  ["L10_HLTV2", "L10_ADR", "L10_KD", "S_HLTV2", "S_ADR", "S_KD"]

/-- The local objects `sums` and `counts`. -/
abbrev Accumulators := JSObject ℚ × JSObject ℕ

/-- Lines 751-754: every stat starts with sum 0 and count 0. -/
def initAccumulators : Accumulators :=
  statsToAverage.foldl (fun acc stat => (acc.1.set stat 0, acc.2.set stat 0)) ([], [])

/-- The body of the inner loop, lines 760-764.  The guard
`value !== undefined && value !== null && !isNaN(value)` fails on the first
conjunct for `undefined`, on the second for `null`, on the third for `NaN`,
and holds for a number.  The sum `sums[stat] += value` is a double. -/
def accumulateStat (player : Player) (acc : Accumulators) (stat : String) : Accumulators :=
  match player.stat stat with
  | .undefined => acc
  | .null => acc
  | .nan => acc
  | .num value =>
    (acc.1.set stat (jsAdd ((acc.1.get stat).getD 0) value),
      acc.2.set stat ((acc.2.get stat).getD 0 + 1))

/-- The nested loops of lines 757-766. -/
def accumulateTeam (teamPlayerArray : List Player) (acc : Accumulators) : Accumulators :=
  teamPlayerArray.foldl (fun acc player => statsToAverage.foldl (accumulateStat player) acc) acc

/-- The loop over the cells of the averages row, lines 768-781: a cell whose
count is positive stores `sums / counts`, any other cell deletes the key. -/
def storeAverages (cells : List String) (acc : Accumulators) (target : JSObject ℚ) :
    JSObject ℚ :=
  cells.foldl
    (fun target statKey =>
      match acc.2.get statKey with
      | some count =>
        if count > 0 then target.set statKey (jsDiv ((acc.1.get statKey).getD 0) (count : ℚ))
        else target.delete statKey
      | none => target.delete statKey)
    target

/-- The stored averages computed by `updateTeamStats` for one roster;
`averagesRow` is the element `team-?-averages-row` (the `data-stat` attributes
of its cells) or `none` when the row is not in the document.  The object is
cleared first (lines 731-733), and stays empty on the early return of line 735. -/
def teamAverages (teamPlayersMap : JSObject Player) (averagesRow : Option (List String)) :
    JSObject ℚ :=
  let teamPlayerArray := teamPlayersMap.values
  let cleared : JSObject ℚ := []
  match averagesRow with
  | none => cleared
  | some cells =>
    if teamPlayerArray.length = 0 then cleared
    else storeAverages cells (accumulateTeam teamPlayerArray initAccumulators) cleared

/-- The function `updateTeamStats(teamId)`: team `'a'` selects roster and
averages A, any other id selects B.  The text written into the cells is not
part of the state. -/
def updateTeamStats (teamId : String) (averagesRow : Option (List String))
    (self : TeamPicker) : TeamPicker :=
  if teamId = "a" then
    { self with teamAAverages := teamAverages self.teamAPlayersData averagesRow }
  else
    { self with teamBAverages := teamAverages self.teamBPlayersData averagesRow }

/-- The value of `sums[stat]` after the numbers of a list have been added to
0 in order, each addition rounded. -/
def floatSum (values : List ℚ) : ℚ := values.foldl jsAdd 0

/-- The number a stat value holds, if it is neither `undefined`, `null` nor
`NaN`. -/
def StatValue.number? : StatValue → Option ℚ
  | .num value => some value
  | _ => none

/-- The numbers the members of a roster have for a stat key, in roster order:
the values that are neither `undefined`, `null` nor `NaN`. -/
def definedValues (roster : JSObject Player) (stat : String) : List ℚ :=
  roster.values.filterMap (fun player => (player.stat stat).number?)

/-! ## Cyclic state controls -/

/-- The method `Array.prototype.indexOf` on strings: the first index, or `-1`. -/
def indexOf (states : List String) (state : String) : Int :=
  if state ∈ states then (states.indexOf state : Int) else -1

/-- The remainder `a % b` on integers (sign of the dividend); `none` is `NaN`. -/
def jsMod (a b : Int) : Option Int :=
  if b = 0 then none else some (Int.tmod a b)

/-- The read `states[i]`; `none` is `undefined`. -/
def arrayAt (states : List String) (i : Option Int) : Option String :=
  match i with
  | none => none
  | some i => if 0 ≤ i then states[i.toNat]? else none

/-- The parameter type `'left' | 'right'` of `handleInteraction`. -/
inductive Direction where
  | left
  | right
  deriving DecidableEq, Repr

/-- The function `handleInteraction(direction)` of `EmojiControls.tsx`,
lines 27-38.  The result is the emoji passed to `onEmojiChange`: `none` when the
callback is not called, `some none` when it is called with `undefined`. -/
def EmojiControls.handleInteraction (disabled : Bool) (emojiStates : List String)
    (currentEmoji : String) (direction : Direction) : Option (Option String) :=
  if disabled then none
  else
    let currentIndex := indexOf emojiStates currentEmoji
    let currentIndex := if currentIndex = -1 then 0 else currentIndex
    let currentIndex :=
      match direction with
      | .left => jsMod (currentIndex - 1 + emojiStates.length) emojiStates.length
      | .right => jsMod (currentIndex + 1) emojiStates.length
    some (arrayAt emojiStates currentIndex)

/-- The state lists of the `Attendance` object (attendance.js, lines 6-20). -/
structure AttendanceModule where
  ATTENDANCE_STATES : List String
  EMOJI_STATES : List String
  deriving Repr

/-- The `Attendance` object with the lists of the source. -/
def Attendance : AttendanceModule where
  ATTENDANCE_STATES := ["not_coming", "no_response", "coming"]
  EMOJI_STATES :=
    ["normal", "tired", "sick", "feeling_good", "waffle", "cocuk_bende", "evde_degil",
      "sonrakine", "kafa_izni", "hanimpoints", "sikimin_keyfi", "dokuzda_haber"]

/-- What a click on the player list hit: an attendance control or an emoji
control, with the `data-state` attribute of its label and the direction found
(the `data-direction` of an arrow, or the half of the label clicked), or
neither. -/
inductive ClickTarget where
  | attendanceControl (dataState : Option String) (direction : Option String)
  | emojiControl (dataState : Option String) (direction : Option String)
  | other
  deriving DecidableEq, Repr

/-- The write a click leads to: `syncAttendanceUpdate(playerName, newState)`,
`syncEmojiUpdate(playerName, newState)`, or none; `newState = none` is
`undefined`. -/
inductive SyncCall where
  | attendance (newState : Option String)
  | emoji (newState : Option String)
  | nothing
  deriving DecidableEq, Repr

/-- The expression `getAttribute(..) || fallback`. -/
def attributeOr (attr : Option String) (fallback : String) : String :=
  match attr with
  | none => fallback
  | some value => if value = "" then fallback else value

/-- Lines 655-663 and 710-719: the index step shared by both branches
(no default for a state that is not in the list). -/
def cycleIndex (states : List String) (currentState direction : String) : Option String :=
  let currentIndex := indexOf states currentState
  let currentIndex :=
    if direction = "left" then jsMod (currentIndex - 1 + states.length) states.length
    else jsMod (currentIndex + 1) states.length
  arrayAt states currentIndex

/-- The function `handlePlayerListClick(event)` of attendance.js, lines 623-725,
for a control whose player name and label are present. -/
def AttendanceModule.handlePlayerListClick (self : AttendanceModule) (target : ClickTarget) :
    SyncCall :=
  match target with
  | .attendanceControl dataState direction =>
    let currentState := attributeOr dataState "no_response"
    match direction with
    | none => .nothing
    | some direction =>
      if direction = "" then .nothing
      else .attendance (cycleIndex self.ATTENDANCE_STATES currentState direction)
  | .emojiControl dataState direction =>
    let currentState := attributeOr dataState "normal"
    match direction with
    | none => .nothing
    | some direction =>
      if direction = "" then .nothing
      else .emoji (cycleIndex self.EMOJI_STATES currentState direction)
  | .other => .nothing

/-- The value a sync call writes, which the next snapshot shows as the state. -/
def SyncCall.newState : SyncCall → Option String
  | .attendance newState => newState
  | .emoji newState => newState
  | .nothing => none

/-- The emoji shown after one interaction with an enabled control: the value
passed to `onEmojiChange` is the next `currentEmoji`. -/
def EmojiControls.step (emojiStates : List String) (direction : Direction)
    (currentEmoji : Option String) : Option String :=
  currentEmoji.bind
    (fun emoji => (EmojiControls.handleInteraction false emojiStates emoji direction).join)

/-- The attendance state shown after one click on an attendance arrow. -/
def AttendanceModule.attendanceStep (self : AttendanceModule) (direction : String)
    (state : Option String) : Option String :=
  state.bind
    (fun s => (self.handlePlayerListClick (.attendanceControl (some s) (some direction))).newState)

/-- The emoji state shown after one click on an emoji arrow. -/
def AttendanceModule.emojiStep (self : AttendanceModule) (direction : String)
    (state : Option String) : Option String :=
  state.bind
    (fun s => (self.handlePlayerListClick (.emojiControl (some s) (some direction))).newState)

/-! ## Attendance listener, canonicalisation (teamPicker.js, lines 119-162) -/

/-- The `steamId` field of a raw attendance entry: missing, a string, or a
number.  A numeric id is a non-negative integer up to `2 ^ 53`, the range in
which every integer is a double and `String(n)` is the decimal numeral of `n`
(above it `String(n)` is the shortest numeral that reads back as the double,
so `76561197960265728` gives `'76561197960265730'`). -/
inductive RawId where
  | missing
  | str (s : String)
  | num (n : ℕ) (small : n ≤ 2 ^ 53)
  deriving DecidableEq, Repr

/-- Truthiness of a `steamId` field: a non-empty string or a non-zero number. -/
def RawId.truthy : RawId → Bool
  | .missing => false
  | .str s => decide (s ≠ "")
  | .num n _ => decide (n ≠ 0)

/-- The conversion `String(steamId)` of line 151. -/
def RawId.toStr : RawId → String
  | .missing => "undefined"
  | .str s => s
  | .num n _ => toString n

/-- Truthiness of an optional string field: present and non-empty. -/
def truthy : Option String → Bool
  | none => false
  | some s => decide (s ≠ "")

/-- The value of one key of the raw attendance snapshot, when it is an object:
its `steamId`, `name` and `status` fields (`none` is a missing field). -/
structure RawAttendance where
  steamId : RawId
  name : Option String
  status : Option String
  deriving DecidableEq, Repr

/-- The raw snapshot `snapshot.val() || {}`; a value `none` is a `null` entry. -/
abbrev RawSnapshot := JSObject (Option RawAttendance)

/-- The locals `newAttendanceDataProcessed` and `processingError`. -/
structure Canonicalised where
  processed : JSObject AttendanceEntry
  processingError : Bool
  deriving DecidableEq, Repr

/-- Lines 149-156: an entry whose steam id, name and status are all truthy is
stored under `String(steamId)`; otherwise the error flag is raised. -/
def storeEntry (acc : Canonicalised) (steamId : RawId) (playerName status : String) :
    Canonicalised :=
  if steamId.truthy && decide (playerName ≠ "") && decide (status ≠ "") then
    let steamIdStr := steamId.toStr
    { acc with
      processed :=
        acc.processed.set steamIdStr { name := playerName, status := status, steamId := steamIdStr } }
  else { acc with processingError := true }

/-- The body of the loop of lines 128-157 for one key of the raw snapshot. -/
def processAttendanceEntry (acc : Canonicalised) (key : String)
    (playerData : Option RawAttendance) : Canonicalised :=
  match playerData with
  | none => { acc with processingError := true }
  | some data =>
    if data.steamId.truthy && truthy data.status then
      storeEntry acc data.steamId key (data.status.getD "")
    else if truthy data.name && truthy data.status then
      storeEntry acc (.str key) (data.name.getD "") (data.status.getD "")
    else { acc with processingError := true }

/-- Lines 126-157: the canonicalisation of a raw snapshot. -/
def processAttendance (raw : RawSnapshot) : Canonicalised :=
  raw.foldl (fun acc entry => processAttendanceEntry acc entry.1 entry.2)
    { processed := [], processingError := false }

/-- Lines 158-160: the warnings shown for one snapshot. -/
def processingWarnings (c : Canonicalised) : List String :=
  if c.processingError then
    ["Warning: Some attendance data could not be processed. Check format."]
  else []

/-- The canonical key and entry that the loop body stores for one raw entry,
read off the loop body run on an empty map; `none` when nothing is stored. -/
def canonicalEntry (key : String) (playerData : Option RawAttendance) :
    Option (String × AttendanceEntry) :=
  (processAttendanceEntry { processed := [], processingError := false } key playerData).processed.head?

/-- What one run of the attendance listener leaves behind: the new state, the
multi-path update sent to the store (if any) and the warnings shown. -/
structure ListenerResult where
  state : TeamPicker
  updates : Option (JSObject (Option Player))
  warnings : List String

/-- The attendance listener of lines 118-201. -/
def attendanceListener (tables : StatsTables) (container : Bool) (raw : RawSnapshot)
    (self : TeamPicker) : ListenerResult :=
  let c := processAttendance raw
  { state :=
      updateAvailablePlayerDisplay tables container
        { self with currentAttendanceData := c.processed }
    updates := attendanceEvictionWrite c.processed self
    warnings := processingWarnings c }

/-! ## Roster clicks (teamPicker.js, lines 335-426) -/

/-- What a click on the available list hit: the `data-steam-id` of the row,
whether an edit button was hit, and the `data-target-team` of an assign button
or the `data-current-team` of a remove button (`none`: no such button;
`some none`: the button has no such attribute). -/
structure AvailableListClick where
  steamId : Option String
  editButton : Bool
  assignButton : Option (Option String)
  removeButton : Option (Option String)
  deriving DecidableEq, Repr

/-- The function `handleAvailableListClick(event)`: the multi-path update sent
to the store, or `none` when nothing is written; `dbRef` tells whether
`TeamPicker.dbRef` is set. -/
def handleAvailableListClick (dbRef : Bool) (event : AvailableListClick)
    (self : TeamPicker) : Option (JSObject (Option Player)) :=
  if !truthy event.steamId then none
  else
    let steamId := event.steamId.getD ""
    if event.editButton then none
    else
      match self.availablePlayers.get steamId with
      | none => none
      | some playerData =>
        match event.assignButton with
        | some targetTeam =>
          if !truthy targetTeam || !dbRef then none
          else
            let targetTeamPath := if targetTeam = some "a" then "teamA" else "teamB"
            let sourceTeamPath := if targetTeam = some "a" then "teamB" else "teamA"
            let updates : JSObject (Option Player) := []
            let updates := updates.set (playerPath targetTeamPath steamId) (some playerData)
            let updates := updates.set (playerPath sourceTeamPath steamId) none
            some updates
        | none =>
          match event.removeButton with
          | some currentTeam =>
            if !truthy currentTeam || !dbRef then none
            else
              let teamPath := if currentTeam = some "a" then "teamA" else "teamB"
              let updates : JSObject (Option Player) := []
              some (updates.set (playerPath teamPath steamId) none)
          | none => none

/-- What a click on a team list hit: whether a remove button was hit, and the
row with its `data-steam-id` (`none`: no row). -/
structure TeamPlayerClick where
  button : Bool
  playerRow : Option (Option String)
  deriving DecidableEq, Repr

/-- The function `handleTeamPlayerClick(event, teamId)`. -/
def handleTeamPlayerClick (dbRef : Bool) (event : TeamPlayerClick) (teamId : String) :
    Option (JSObject (Option Player)) :=
  match event.playerRow with
  | none => none
  | some steamId =>
    if !event.button then none
    else if !truthy steamId || !dbRef then none
    else
      let teamPath := if teamId = "a" then "teamA" else "teamB"
      let updates : JSObject (Option Player) := []
      some (updates.set (playerPath teamPath (steamId.getD "")) none)

/-! ## The store: applying a multi-path update to the rosters -/

/-- The rest of a character list after a leading part, if it starts with it. -/
def dropLeading : List Char → List Char → Option (List Char)
  | [], rest => some rest
  | _ :: _, [] => none
  | a :: as, b :: bs => if a = b then dropLeading as bs else none

/-- The steam id addressed by a path below `DB_PATH/teamPath/players/`. -/
def rosterKey? (teamPath path : String) : Option String :=
  (dropLeading (playerPath teamPath "").data path.data).map String.mk

/-- One path of a multi-path update applied to the node
`DB_PATH/teamPath/players`: the value is stored under the addressed id, and
`null` removes the id.  Values are stored as written. -/
def applyRosterUpdate (teamPath : String) (roster : JSObject Player)
    (update : String × Option Player) : JSObject Player :=
  match rosterKey? teamPath update.1 with
  | none => roster
  | some steamId =>
    match update.2 with
    | none => roster.delete steamId
    | some player => roster.set steamId player

/-- The roster node after `database.ref().update(updates)`. -/
def applyRosterUpdates (teamPath : String) (updates : JSObject (Option Player))
    (roster : JSObject Player) : JSObject Player :=
  updates.foldl (applyRosterUpdate teamPath) roster

/-- The rosters after the store has applied an update and the team listeners
have stored the new snapshots (`teamAPlayersData = teamAData.players || {}`,
lines 214 and 229); the other fields of the state play no part in it. -/
def applyUpdates (updates : JSObject (Option Player)) (self : TeamPicker) : TeamPicker :=
  { self with
    teamAPlayersData := applyRosterUpdates "teamA" updates self.teamAPlayersData
    teamBPlayersData := applyRosterUpdates "teamB" updates self.teamBPlayersData }

/-! ## `TeamPicker.renderAvailablePlayersTable` (teamPicker.js, lines 484-542) -/

/-- The value `x ?? -Infinity` of lines 501-502 for a stat value `x`. -/
inductive SortValue where
  | negInfinity
  | nan
  | num (q : ℚ)
  deriving DecidableEq, Repr

/-- The expression `player.stats?.L10_HLTV2 ?? -Infinity`. -/
def l10SortValue (player : Player) : SortValue :=
  match player.stat "L10_HLTV2" with
  | .undefined => .negInfinity
  | .null => .negInfinity
  | .nan => .nan
  | .num q => .num q

/-- The sign of a comparator result, or `NaN`. -/
inductive CompareResult where
  | negative
  | zero
  | positive
  | nan
  deriving DecidableEq, Repr

/-- The sign of the difference `x - y`: `-Infinity - -Infinity` is `NaN`, and
so is every difference with a `NaN` operand. -/
def SortValue.subSign : SortValue → SortValue → CompareResult
  | .nan, _ => .nan
  | _, .nan => .nan
  | .negInfinity, .negInfinity => .nan
  | .negInfinity, .num _ => .negative
  | .num _, .negInfinity => .positive
  | .num x, .num y => if x < y then .negative else if x = y then .zero else .positive

/-- The comparator of lines 500-504: `valueB - valueA`. -/
def compareL10 (a b : Player) : CompareResult :=
  (l10SortValue b).subSign (l10SortValue a)

/-- The order test of `Array.prototype.sort`: `a` stays before `b` unless the
comparator returns a positive number (`NaN` counts as `0`). -/
def staysBefore (comparator : Player → Player → CompareResult) (a b : Player) : Prop :=
  comparator a b ≠ .positive

instance staysBeforeDecidable (comparator : Player → Player → CompareResult) :
    DecidableRel (staysBefore comparator) :=
  fun a b => inferInstanceAs (Decidable (comparator a b ≠ .positive))

/-- The method `Array.prototype.sort(comparator)`, a stable sort, as a stable
insertion sort. -/
def arraySort (comparator : Player → Player → CompareResult) (array : List Player) :
    List Player :=
  array.insertionSort (staysBefore comparator)

/-- The rows that `renderAvailablePlayersTable()` appends to the table body,
in order; `container` tells whether the element `#available-players` exists.
An empty pool renders a message and no row. -/
def renderAvailablePlayersTable (container : Bool) (self : TeamPicker) : List Player :=
  if !container then []
  else if self.availablePlayers.keys.length = 0 then []
  else arraySort compareL10 self.availablePlayers.values

/-- The rank of a player in the rendered order: the `L10_HLTV2` number, below
every number when the stat is `undefined` or `null`. -/
def l10Rank (player : Player) : WithBot ℚ :=
  match player.stat "L10_HLTV2" with
  | .num q => (q : WithBot ℚ)
  | _ => ⊥

/-- The click on the assign button of the row of `steamId` whose
`data-target-team` is `targetTeam`. -/
def assignClick (steamId targetTeam : String) : AvailableListClick :=
  { steamId := some steamId, editButton := false, assignButton := some (some targetTeam),
    removeButton := none }

/-- The roster invariant: no player id is a key of both rosters. -/
def rostersDisjoint (self : TeamPicker) : Prop :=
  ∀ steamId, steamId ∈ self.teamAPlayersData.keys → steamId ∉ self.teamBPlayersData.keys

/-! ## Stat tables: loading and look-up (statsTables.js, lines 269-302, 633-647) -/

/-- The data a stats file parses to, when it is truthy: an array of records
(`none` is a `null` element) or something that is not an array. -/
inductive StatsData where
  | notArray
  | array (records : List (Option StatRecord))
  deriving DecidableEq, Repr

/-- The body of the `forEach` of `processStatsIntoMap`: a record with a truthy
`steam_id` is stored under it, anything else is skipped. -/
def processStatsRecord (statsMap : JSObject StatRecord) (player : Option StatRecord) :
    JSObject StatRecord :=
  match player with
  | none => statsMap
  | some record =>
    if truthy record.steam_id then statsMap.set (record.steam_id.getD "") record
    else statsMap

/-- The function `processStatsIntoMap(statsArray, 'steam_id')`. -/
def processStatsIntoMap (statsArray : StatsData) : JSObject StatRecord :=
  match statsArray with
  | .notArray => []
  | .array records => records.foldl processStatsRecord []

/-- The maps of `StatsTables` before any load (lines 11-12). -/
def StatsTables.initial : StatsTables :=
  { seasonStatsBySteamId := [], last10StatsBySteamId := [] }

/-- The function `loadAndRenderSeasonAvgTable()`, as far as the id-indexed map
goes: `tbody` tells whether the table body exists, `fetched` is the result of
`fetchJsonData` (`none` when it is `null`, the failure value), and `filled`
tells whether `fillSeasonAvgTable` returned: it runs before the map is built
and throws on data it cannot iterate. -/
def loadAndRenderSeasonAvgTable (tbody : Bool) (fetched : Option StatsData) (filled : Bool)
    (t : StatsTables) : StatsTables :=
  if !tbody then t
  else
    match fetched with
    | none => t
    | some seasonStats =>
      if !filled then t
      else { t with seasonStatsBySteamId := processStatsIntoMap seasonStats }

/-- The function `loadAndRenderLast10Table()`, as far as the id-indexed map
goes. -/
def loadAndRenderLast10Table (tbody : Bool) (fetched : Option StatsData) (filled : Bool)
    (t : StatsTables) : StatsTables :=
  if !tbody then t
  else
    match fetched with
    | none => t
    | some last10Stats =>
      if !filled then t
      else { t with last10StatsBySteamId := processStatsIntoMap last10Stats }

/-- The records of an array that carry a given steam id, in array order. -/
def recordsWithId (records : List (Option StatRecord)) (steamId : String) : List StatRecord :=
  records.filterMap
    (fun player =>
      match player with
      | none => none
      | some record => if record.steam_id = some steamId then some record else none)

/-! ## `TeamPicker.savePlayerEdits` (teamPicker.js, lines 1405-1491) -/

/-- The edit form: the hidden steam id and the six stat inputs. -/
structure EditForm where
  steamId : String
  L10_HLTV2 : String
  L10_ADR : String
  L10_KD : String
  S_HLTV2 : String
  S_ADR : String
  S_KD : String
  deriving DecidableEq, Repr

/-- The read `form.elements[key].value` for a stat key. -/
def EditForm.get (form : EditForm) (key : String) : String :=
  if key = "L10_HLTV2" then form.L10_HLTV2
  else if key = "L10_ADR" then form.L10_ADR
  else if key = "L10_KD" then form.L10_KD
  else if key = "S_HLTV2" then form.S_HLTV2
  else if key = "S_ADR" then form.S_ADR
  else if key = "S_KD" then form.S_KD
  else ""

/-- Property write `stats[stat] = value` on the six stat keys. -/
def PlayerStats.set (stats : PlayerStats) (stat : String) (value : StatValue) : PlayerStats :=
  if stat = "L10_HLTV2" then { stats with L10_HLTV2 := value }
  else if stat = "L10_ADR" then { stats with L10_ADR := value }
  else if stat = "L10_KD" then { stats with L10_KD := value }
  else if stat = "S_HLTV2" then { stats with S_HLTV2 := value }
  else if stat = "S_ADR" then { stats with S_ADR := value }
  else if stat = "S_KD" then { stats with S_KD := value }
  else stats

/-- The call `Object.assign(stats, updatedStats)`. -/
def objectAssign (stats : PlayerStats) (updatedStats : JSObject StatValue) : PlayerStats :=
  updatedStats.foldl (fun stats entry => stats.set entry.1 entry.2) stats

/-- The locals `updatedStats` and `parseError`. -/
structure ParsedEdits where
  updatedStats : JSObject StatValue
  parseError : Bool
  deriving DecidableEq, Repr

/-- The characters `String.prototype.trim` removes: white space and line
terminators, by code point. -/
def isTrimmed (c : Char) : Bool :=
  decide (c.toNat ∈ [0x09, 0x0A, 0x0B, 0x0C, 0x0D, 0x20, 0xA0, 0x1680, 0x2028, 0x2029, 0x202F,
    0x205F, 0x3000, 0xFEFF]) || (decide (0x2000 ≤ c.toNat) && decide (c.toNat ≤ 0x200A))

/-- The method `String.prototype.trim`. -/
def trim (s : String) : String :=
  String.mk ((s.data.dropWhile isTrimmed).reverse.dropWhile isTrimmed).reverse

/-- The body of the loop of lines 1421-1437 for one key.  `parseFloat` is the
built-in applied to the trimmed input (`none` is `NaN`). -/
def parseEditField (parseFloat : String → Option ℚ) (form : EditForm) (acc : ParsedEdits)
    (key : String) : ParsedEdits :=
  let valueStr := trim (form.get key)
  if valueStr = "" then { acc with updatedStats := acc.updatedStats.set key .null }
  else
    match parseFloat valueStr with
    | none => { acc with parseError := true }
    | some valueNum => { acc with updatedStats := acc.updatedStats.set key (.num valueNum) }

/-- The array of stat keys of line 1421. -/
def statsToEdit : List String :=
  ["L10_HLTV2", "L10_ADR", "L10_KD", "S_HLTV2", "S_ADR", "S_KD"]

/-- The loop of lines 1417-1437 over the six stat keys. -/
def parseEdits (parseFloat : String → Option ℚ) (form : EditForm) : ParsedEdits :=
  statsToEdit.foldl (parseEditField parseFloat form)
    { updatedStats := [], parseError := false }

/-- The function `updatePlayerSlots(containerId, teamPlayersMap, teamId)` called
with the roster of `teamId`, as far as the state goes: with the container in
the document the averages row exists exactly for a non-empty roster, and
`updateTeamStats` runs. -/
def updatePlayerSlots (container : Bool) (teamId : String) (self : TeamPicker) : TeamPicker :=
  if !container then self
  else
    let roster := if teamId = "a" then self.teamAPlayersData else self.teamBPlayersData
    updateTeamStats teamId (if roster.values.length = 0 then none else some averagesRowCells)
      self

/-- How `savePlayerEdits` ends: the player is not in the pool, the edit is
rejected for a parse error, the edit is saved, or `Object.assign` throws on a
roster entry that has no `stats` object. -/
inductive SaveOutcome where
  | notFound
  | rejected
  | saved
  | threw
  deriving DecidableEq, Repr

/-- The state and the outcome of `savePlayerEdits`. -/
structure SaveResult where
  state : TeamPicker
  outcome : SaveOutcome

/-- The function `savePlayerEdits(event)`; `teamContainer` tells whether the
container of the player's team list is in the document. -/
def savePlayerEdits (parseFloat : String → Option ℚ) (form : EditForm)
    (teamContainer : Bool) (self : TeamPicker) : SaveResult :=
  let steamId := form.steamId
  if steamId = "" then { state := self, outcome := .notFound }
  else
    match self.availablePlayers.get steamId with
    | none => { state := self, outcome := .notFound }
    | some poolPlayer =>
      let parsed := parseEdits parseFloat form
      if parsed.parseError then { state := self, outcome := .rejected }
      else
        let updatedStats := parsed.updatedStats
        let pool := self.availablePlayers.set steamId
          { poolPlayer with stats := some (objectAssign (poolPlayer.stats.getD {}) updatedStats) }
        let self := { self with availablePlayers := pool }
        match self.teamAPlayersData.get steamId with
        | some teamPlayer =>
          match teamPlayer.stats with
          | none => { state := self, outcome := .threw }
          | some stats =>
            let self := { self with
              teamAPlayersData := self.teamAPlayersData.set steamId
                { teamPlayer with stats := some (objectAssign stats updatedStats) } }
            { state := updatePlayerSlots teamContainer "a" self, outcome := .saved }
        | none =>
          match self.teamBPlayersData.get steamId with
          | some teamPlayer =>
            match teamPlayer.stats with
            | none => { state := self, outcome := .threw }
            | some stats =>
              let self := { self with
                teamBPlayersData := self.teamBPlayersData.set steamId
                  { teamPlayer with stats := some (objectAssign stats updatedStats) } }
              { state := updatePlayerSlots teamContainer "b" self, outcome := .saved }
          | none => { state := self, outcome := .saved }

/-- The state of both modules: the team picker and the id-indexed stat maps. -/
structure Session where
  picker : TeamPicker
  tables : StatsTables

/-- The function `savePlayerEdits` run in a session: it reads and writes fields
of `TeamPicker` only, so the stat maps are carried along as they are. -/
def Session.savePlayerEdits (parseFloat : String → Option ℚ) (form : EditForm)
    (teamContainer : Bool) (session : Session) : Session :=
  { session with
    picker := (CSBatagi.savePlayerEdits parseFloat form teamContainer session.picker).state }

/-- The frame of a stat edit on a map of players: `after` has the keys of
`before`, agrees with it on every id other than `steamId`, and its entry of
`steamId` keeps name, id and status. -/
def onlyStatsOf (steamId : String) (before after : JSObject Player) : Prop :=
  after.keys = before.keys ∧
    (∀ other, other ≠ steamId → after.get other = before.get other) ∧
    (∀ player, before.get steamId = some player →
      ∃ edited, after.get steamId = some edited ∧ edited.name = player.name ∧
        edited.steamId = player.steamId ∧ edited.status = player.status)

/-! ## Match creation (teamPicker.js, lines 1232-1374) -/

/-- The team object `{ name, players }` of the match payload. -/
structure TeamObject where
  name : String
  players : JSObject String
  deriving DecidableEq, Repr

/-- The conversion `String(player.steamId)` of line 1349: a missing id gives
the string `'undefined'`. -/
def steamIdString (steamId : Option String) : String :=
  match steamId with
  | none => "undefined"
  | some s => s

/-- The locals `playersObj` and `missingSteamIdOrName`. -/
structure TeamPlayers where
  playersObj : JSObject String
  missingSteamIdOrName : Bool
  deriving DecidableEq, Repr

/-- The body of the `forEach` of lines 1348-1356. -/
def addPlayerForAPI (acc : TeamPlayers) (player : Player) : TeamPlayers :=
  let steamIdStr := steamIdString player.steamId
  if decide (steamIdStr ≠ "") && truthy player.name then
    { acc with playersObj := acc.playersObj.set steamIdStr (player.name.getD "") }
  else { acc with missingSteamIdOrName := true }

/-- The function `createTeamObjectForAPI(teamId)`; `none` is `null`. -/
def createTeamObjectForAPI (teamId : String) (self : TeamPicker) : Option TeamObject :=
  let teamPlayersDataMap :=
    if teamId = "a" then self.teamAPlayersData else self.teamBPlayersData
  let teamName :=
    if teamId = "a" then (if self.teamAName = "" then "Team A" else self.teamAName)
    else (if self.teamBName = "" then "Team B" else self.teamBName)
  let teamPlayerArray := teamPlayersDataMap.values
  if teamPlayerArray.length = 0 then none
  else
    let result := teamPlayerArray.foldl addPlayerForAPI
      { playersObj := [], missingSteamIdOrName := false }
    if result.missingSteamIdOrName then none
    else some { name := teamName, players := result.playersObj }

/-- The read `TeamPicker.mapSelections['map' + i]`. -/
def MapSelections.slot (maps : MapSelections) (i : ℕ) : Option MapSelection :=
  if i = 1 then maps.map1 else if i = 2 then maps.map2 else if i = 3 then maps.map3 else none

/-- The array `maps` of lines 1250-1254: the truthy map names of the three
slots, in slot order. -/
def selectedMaps (maps : MapSelections) : List String :=
  ([maps.map1, maps.map2, maps.map3].map (fun slot => slot.bind (fun m => m.mapName))).filterMap
    (fun mapName => if truthy mapName then mapName else none)

/-- The side pushed for slot `i` in the loop of lines 1265-1274. -/
def sideOfSlot (maps : MapSelections) (i : ℕ) : String :=
  match (maps.slot i).bind (fun m => m.ct_team) with
  | some ct =>
    if ct = "A" then "team1_ct" else if ct = "B" then "team2_ct" else "knife"
  | none => "knife"

/-- The array `mapSides` of lines 1261-1280: one side for each `i` from 1 to
`count`, read from slot `i`. -/
def mapSidesFor (maps : MapSelections) (count : ℕ) : List String :=
  (List.range count).map (fun k => sideOfSlot maps (k + 1))

/-- The fields of the match payload that depend on the state. -/
structure MatchObject where
  team1 : TeamObject
  team2 : TeamObject
  num_maps : ℕ
  maplist : List String
  map_sides : List String
  players_per_team : ℕ
  deriving DecidableEq, Repr

/-- The payload built by `createMatchFromUI()`, or the message of the error
thrown before the request is sent. -/
def createMatchFromUI (self : TeamPicker) : Except String MatchObject :=
  match createTeamObjectForAPI "a" self, createTeamObjectForAPI "b" self with
  | some team1Object, some team2Object =>
    let maps := selectedMaps self.mapSelections
    if maps.length = 0 then .error "No maps selected. Please select at least one map."
    else
      .ok
        { team1 := team1Object
          team2 := team2Object
          num_maps := maps.length
          maplist := maps
          map_sides := mapSidesFor self.mapSelections maps.length
          players_per_team := team1Object.players.keys.length }
  | _, _ => .error "Failed to create team data for API."

/-- The side assignment the payload should carry for a slot: `'team1_ct'` when
its `ct_team` is `'A'`, `'team2_ct'` when it is `'B'`, `'knife'` otherwise. -/
def sideOfSelection (slot : MapSelection) : String :=
  if slot.ct_team = some "A" then "team1_ct"
  else if slot.ct_team = some "B" then "team2_ct"
  else "knife"

/-! ## Map sides (teamPicker.js, lines 432-445 and 1031-1055) -/

/-- The template string of a side path below `dbRef`,
`maps/map<mapIndex>/<side>_team`. -/
def sidePath (mapIndex : ℕ) (side : String) : String :=
  "maps/map" ++ toString mapIndex ++ "/" ++ side ++ "_team"

/-- The function `handleSideChange(mapIndex, side)`: the update written below
`dbRef`, or `none` when nothing is written.  `selectElement` is the value of the
select that changed and `otherSelectElement` the value of the select of the
other side (`none`: the element is not in the document). -/
def handleSideChange (dbRef : Bool) (mapIndex : ℕ) (side : String)
    (selectElement otherSelectElement : Option String) : Option (JSObject String) :=
  if !dbRef then none
  else
    match selectElement with
    | none => none
    | some selectedTeam =>
      let otherSide := if side = "t" then "ct" else "t"
      let updates : JSObject String := []
      let updates := updates.set (sidePath mapIndex side) selectedTeam
      match otherSelectElement with
      | none => some updates
      | some otherTeamCurrentValue =>
        if selectedTeam ≠ "" then
          let otherTeamShouldBe := if selectedTeam = "A" then "B" else "A"
          if otherTeamCurrentValue = "" ∨ otherTeamCurrentValue = selectedTeam then
            some (updates.set (sidePath mapIndex otherSide) otherTeamShouldBe)
          else some updates
        else some (updates.set (sidePath mapIndex otherSide) "")

/-- The slot `mapIndex` of the store after `dbRef.update(updates)`: a side whose
path is a key of the update takes the written value. -/
def applySideUpdates (mapIndex : ℕ) (updates : JSObject String) (slot : MapSelection) :
    MapSelection :=
  { slot with
    t_team :=
      match updates.get (sidePath mapIndex "t") with
      | some value => some value
      | none => slot.t_team
    ct_team :=
      match updates.get (sidePath mapIndex "ct") with
      | some value => some value
      | none => slot.ct_team }

/-- The three select elements of one map slot: the value of each, `none` when
the element is not in the document; and the number of `change` listeners added
to the CT select by `updateMapSelectsFromFirebase`. -/
structure SlotSelects where
  mapSelect : Option String
  tSelect : Option String
  ctSelect : Option String
  ctChangeListeners : ℕ := 0
  deriving DecidableEq, Repr

/-- The expression `field || ""`. -/
def orEmpty (field : Option String) : String :=
  match field with
  | none => ""
  | some value => value

/-- The body of the loop of `updateMapSelectsFromFirebase` for one slot
(lines 434-441): the map and T selects take the values of the state, the CT
select gets a `change` listener. -/
def updateSlotSelects (mapData : Option MapSelection) (selects : SlotSelects) : SlotSelects :=
  let mapData := mapData.getD MapSelection.empty
  { mapSelect := selects.mapSelect.map (fun _ => orEmpty mapData.mapName)
    tSelect := selects.tSelect.map (fun _ => orEmpty mapData.t_team)
    ctSelect := selects.ctSelect
    ctChangeListeners :=
      if selects.ctSelect.isSome then selects.ctChangeListeners + 1
      else selects.ctChangeListeners }

/-- The function `updateMapSelectsFromFirebase(mapsState)` on the selects of
the three slots. -/
def updateMapSelectsFromFirebase (mapsState : MapSelections)
    (selects : SlotSelects × SlotSelects × SlotSelects) :
    SlotSelects × SlotSelects × SlotSelects :=
  (updateSlotSelects mapsState.map1 selects.1, updateSlotSelects mapsState.map2 selects.2.1,
    updateSlotSelects mapsState.map3 selects.2.2)

/-- The body of the same loop in the earlier version of the module
(scripts/teamPicker.js, lines 308-315), which sets all three selects. -/
def updateSlotSelectsEarlier (mapData : Option MapSelection) (selects : SlotSelects) :
    SlotSelects :=
  let mapData := mapData.getD MapSelection.empty
  { selects with
    mapSelect := selects.mapSelect.map (fun _ => orEmpty mapData.mapName)
    tSelect := selects.tSelect.map (fun _ => orEmpty mapData.t_team)
    ctSelect := selects.ctSelect.map (fun _ => orEmpty mapData.ct_team) }

/-- One map slot as a page holds it: the slot of the store and the three select
elements of the document. -/
structure SlotView where
  stored : MapSelection
  selects : SlotSelects
  deriving DecidableEq, Repr

/-- The user picks `value` in the select of `side` of slot `mapIndex`.  The
browser sets the value of that select and fires `change`; `handleSideChange`
reads the two selects and writes its update; the store applies it; the maps
listener (lines 240-249) takes the new slot and refreshes the selects with the
loop body of `updateMapSelectsFromFirebase`, passed as `refresh`
(`updateSlotSelects` in `frontend/scripts`, `updateSlotSelectsEarlier` in
`scripts`).  A `change` listener registered more than once runs the handler
again on the same selects, which writes the same update. -/
def userSelectsSide (refresh : Option MapSelection → SlotSelects → SlotSelects)
    (mapIndex : ℕ) (side value : String) (view : SlotView) : SlotView :=
  let selects : SlotSelects :=
    if side = "t" then
      { view.selects with tSelect := view.selects.tSelect.map (fun _ => value) }
    else { view.selects with ctSelect := view.selects.ctSelect.map (fun _ => value) }
  let selectElement := if side = "t" then selects.tSelect else selects.ctSelect
  let otherSelectElement := if side = "t" then selects.ctSelect else selects.tSelect
  match handleSideChange true mapIndex side selectElement otherSelectElement with
  | none => { stored := view.stored, selects := selects }
  | some updates =>
    let stored := applySideUpdates mapIndex updates view.stored
    { stored := stored, selects := refresh (some stored) selects }

/-! ## Debounced chart drawing (teamPicker.js, lines 813-846) -/

/-- The timers of the page and the draw count: the scheduled timeouts as pairs
of handle and due time in milliseconds, the next free handle, the handle kept
in `TeamPicker.chartRenderDebounceTimer` (`none` is `null`), and the number of
calls of `renderTeamComparisonChart` so far. -/
structure ChartTimers where
  pending : List (ℕ × ℕ)
  nextHandle : ℕ
  chartRenderDebounceTimer : Option ℕ
  draws : ℕ
  deriving DecidableEq, Repr

/-- The timers when the page starts: nothing scheduled, nothing drawn. -/
def ChartTimers.initial : ChartTimers :=
  { pending := [], nextHandle := 1, chartRenderDebounceTimer := none, draws := 0 }

/-- The quiet period of line 845, in milliseconds. -/
def CHART_DEBOUNCE_DELAY : ℕ := 100

/-- The built-in `clearTimeout(handle)`. -/
def clearTimeout (handle : Option ℕ) (pending : List (ℕ × ℕ)) : List (ℕ × ℕ) :=
  match handle with
  | none => pending
  | some h => pending.filter (fun timer => decide (timer.1 ≠ h))

/-- The event loop up to time `now`: every timeout that is due runs its
callback, which draws the chart once. -/
def runTimers (now : ℕ) (timers : ChartTimers) : ChartTimers :=
  { timers with
    pending := timers.pending.filter (fun timer => decide (now < timer.2))
    draws := timers.draws + (timers.pending.filter (fun timer => decide (timer.2 ≤ now))).length }

/-- Lines 813-846 of `updateStatsDifferenceDisplay()` called at time `now`:
the pending timeout is cleared and a new one is scheduled; `diffContainer`
tells whether the element `#team-stats-diff` exists (line 789). -/
def updateStatsDifferenceDisplay (diffContainer : Bool) (now : ℕ) (timers : ChartTimers) :
    ChartTimers :=
  if !diffContainer then timers
  else
    { timers with
      pending :=
        clearTimeout timers.chartRenderDebounceTimer timers.pending ++
          [(timers.nextHandle, now + CHART_DEBOUNCE_DELAY)]
      nextHandle := timers.nextHandle + 1
      chartRenderDebounceTimer := some timers.nextHandle }

/-- A call of `updateStatsDifferenceDisplay`: the time of the call, and whether
the event loop has got to run the timeouts that were due before it.  A timeout
runs at or after its due time, never before, so a call can find a timeout that
is due still pending, and clears it. -/
structure ChartCall where
  now : ℕ
  timeoutsRan : Bool
  deriving DecidableEq, Repr

/-- One call of `updateStatsDifferenceDisplay`, with the container in the
document. -/
def callAt (timers : ChartTimers) (call : ChartCall) : ChartTimers :=
  updateStatsDifferenceDisplay true call.now
    (if call.timeoutsRan then runTimers call.now timers else timers)

/-- The given calls, in order, from the given timers. -/
def callsAt (calls : List ChartCall) (timers : ChartTimers) : ChartTimers :=
  calls.foldl callAt timers

/-- The timers once input has gone quiet: every timeout still pending runs. -/
def settle (timers : ChartTimers) : ChartTimers :=
  { timers with pending := [], draws := timers.draws + timers.pending.length }

/-! ## Normalisation without the final clamp -/

/-- The variant of `normalizeStatWithFixedRange` on a number that clamps the
value to the range and maps it linearly, without the final clamp to
`[0, 100]`. -/
def normalizeWithoutFinalClamp (v : ℚ) (range : Range) : ℚ :=
  ((max range.min (min range.max v) - range.min) / (range.max - range.min)) * 100

/-! ## Scenarios of the specification -/

/-- A player with the given id and `L10_HLTV2` value, as stored in a roster. -/
def scenarioPlayer (steamId : String) (value : StatValue) : Player :=
  { name := some steamId, steamId := some steamId, status := some "coming",
    stats := some { L10_HLTV2 := value } }

/-- An attendance entry with the given id and status. -/
def scenarioEntry (steamId status : String) : String × AttendanceEntry :=
  (steamId, { name := steamId, status := status, steamId := steamId })

/-- Scenario 1: attendance `{p1: coming, p2: coming, p3: not_coming}`,
roster A `{p1}`, roster B empty. -/
def scenario1 : TeamPicker where
  availablePlayers := []
  currentAttendanceData :=
    [scenarioEntry "p1" "coming", scenarioEntry "p2" "coming", scenarioEntry "p3" "not_coming"]
  teamAPlayersData := [("p1", scenarioPlayer "p1" .undefined)]
  teamBPlayersData := []
  teamAAverages := []
  teamBAverages := []

/-- Scenario 2: roster A holds p1 (1.10) and p2 (1.30), roster B holds p3 with
no `L10_HLTV2`.  The numbers are the doubles the literals denote. -/
def scenario2 : TeamPicker where
  availablePlayers := []
  currentAttendanceData := []
  teamAPlayersData :=
    [("p1", scenarioPlayer "p1" (.num (roundDouble (110 / 100)))),
      ("p2", scenarioPlayer "p2" (.num (roundDouble (130 / 100))))]
  teamBPlayersData := [("p3", scenarioPlayer "p3" .undefined)]
  teamAAverages := []
  teamBAverages := []

/-- Scenario 4: p1 and p2 are on roster A, p3 on roster B. -/
def scenario4 : TeamPicker where
  availablePlayers := []
  currentAttendanceData := []
  teamAPlayersData :=
    [("p1", scenarioPlayer "p1" .undefined), ("p2", scenarioPlayer "p2" .undefined)]
  teamBPlayersData := [("p3", scenarioPlayer "p3" .undefined)]
  teamAAverages := []
  teamBAverages := []

/-- Scenario 4: the snapshot in which p1 has flipped to `not_coming`. -/
def scenario4Attendance : JSObject AttendanceEntry :=
  [scenarioEntry "p1" "not_coming", scenarioEntry "p2" "coming", scenarioEntry "p3" "coming"]

/-- A state whose attendance map is empty while the pool still holds p9. -/
def stalePool : TeamPicker where
  availablePlayers := [("p9", scenarioPlayer "p9" .undefined)]
  currentAttendanceData := []
  teamAPlayersData := []
  teamBPlayersData := []
  teamAAverages := []
  teamBAverages := []

/-- A last-10 record of p1. -/
def scenarioRecord : StatRecord :=
  { steam_id := some "p1", hltv_2 := .num 1, adr := .num 80, kd := .null }

/-- Stat tables with a last-10 record for p1 and no season record. -/
def scenarioTables : StatsTables :=
  { seasonStatsBySteamId := [], last10StatsBySteamId := [("p1", scenarioRecord)] }

/-- A raw snapshot with an id-keyed entry, a `null` entry and a name-keyed
entry with a numeric steam id. -/
def scenarioSnapshot : RawSnapshot :=
  [ ("p1", some { steamId := .missing, name := some "Ali", status := some "coming" }),
    ("bad", none),
    ("Veli", some { steamId := .num 42 (by norm_num), name := none, status := some "not_coming" }) ]

/-- A state in which p1 is on roster A with an edited `L10_HLTV2` of 2 while the
pool holds p1 without that stat. -/
def reassignState : TeamPicker where
  availablePlayers := [("p1", scenarioPlayer "p1" .undefined)]
  currentAttendanceData := [scenarioEntry "p1" "coming"]
  teamAPlayersData := [("p1", scenarioPlayer "p1" (.num 2))]
  teamBPlayersData := []
  teamAAverages := []
  teamBAverages := []

/-- A pool with p1 (no `L10_HLTV2`), p2 (0.9), p3 (`null`) and p4 (1.2). -/
def scenarioPool : TeamPicker where
  availablePlayers :=
    [("p1", scenarioPlayer "p1" .undefined), ("p2", scenarioPlayer "p2" (.num (9 / 10))),
      ("p3", scenarioPlayer "p3" .null), ("p4", scenarioPlayer "p4" (.num (12 / 10)))]
  currentAttendanceData := []
  teamAPlayersData := []
  teamBPlayersData := []
  teamAAverages := []
  teamBAverages := []

/-- A state with p1 on roster A and p2 on roster B in which the first map slot
is empty and the second holds `de_dust2` with team A on the CT side. -/
def secondSlotState : TeamPicker where
  availablePlayers := []
  currentAttendanceData := []
  teamAPlayersData := [("p1", scenarioPlayer "p1" .undefined)]
  teamBPlayersData := [("p2", scenarioPlayer "p2" .undefined)]
  teamAAverages := []
  teamBAverages := []
  mapSelections :=
    { map1 := some MapSelection.empty
      map2 := some { mapName := some "de_dust2", t_team := some "B", ct_team := some "A" }
      map3 := some MapSelection.empty }

/-- A state whose roster A holds one player with a name and no `steamId`
field. -/
def missingIdState : TeamPicker where
  availablePlayers := []
  currentAttendanceData := []
  teamAPlayersData :=
    [("x1", { name := some "Ali", steamId := none, status := some "coming", stats := none })]
  teamBPlayersData := []
  teamAAverages := []
  teamBAverages := []

/-- A maps state whose first slot holds `de_dust2` with A on the T side and B on
the CT side. -/
def firstSlotMaps : MapSelections :=
  { map1 := some { mapName := some "de_dust2", t_team := some "A", ct_team := some "B" }
    map2 := none
    map3 := none }

/-- Select elements that are all in the document and show the empty option. -/
def emptySelects : SlotSelects :=
  { mapSelect := some "", tSelect := some "", ctSelect := some "" }

/-- The values of `parseFloat` on the inputs of the edit scenarios: `'1.5'`
parses to 1.5, `'abc'` and the other strings used there give `NaN`. -/
def scenarioParseFloat (input : String) : Option ℚ :=
  if input = "1.5" then some (3 / 2) else none

/-- An edit form for p2 whose `L10_ADR` input is not a number. -/
def invalidForm : EditForm :=
  { steamId := "p2", L10_HLTV2 := " 1.5 ", L10_ADR := "abc", L10_KD := "", S_HLTV2 := "",
    S_ADR := "", S_KD := "" }

/-- An edit form for p2 with one number and five blank inputs. -/
def validForm : EditForm :=
  { steamId := "p2", L10_HLTV2 := " 1.5 ", L10_ADR := "", L10_KD := "", S_HLTV2 := "",
    S_ADR := "", S_KD := "" }

/-- Three calls at 0, 101 and 202 ms, each finding the timeout of the previous
call due but not yet run. -/
def lateTimeoutCalls : List ChartCall :=
  [{ now := 0, timeoutsRan := false }, { now := 101, timeoutsRan := false },
    { now := 202, timeoutsRan := false }]

/-- Three calls at 0, 101 and 202 ms, each after the timeout of the previous
call has run. -/
def promptTimeoutCalls : List ChartCall :=
  [{ now := 0, timeoutsRan := true }, { now := 101, timeoutsRan := true },
    { now := 202, timeoutsRan := true }]

/-- Three calls at 0, 50 and 120 ms. -/
def rapidCalls : List ChartCall :=
  [{ now := 0, timeoutsRan := true }, { now := 50, timeoutsRan := true },
    { now := 120, timeoutsRan := false }]

/-- An empty map slot with its three selects in the document, each showing the
empty option. -/
def emptySlotView : SlotView :=
  { stored := MapSelection.empty, selects := emptySelects }

/-- Three picks on slot 1 of an empty page: CT side A, then T side A, then T
side B. -/
def sidePicks (refresh : Option MapSelection → SlotSelects → SlotSelects) : SlotView :=
  userSelectsSide refresh 1 "t" "B"
    (userSelectsSide refresh 1 "t" "A" (userSelectsSide refresh 1 "ct" "A" emptySlotView))

/-! # Properties -/

/-! ## Double-precision arithmetic -/

theorem roundHalfEven_intCast (n : ℤ) : roundHalfEven (n : ℚ) = n := by
  simp [roundHalfEven]

theorem floor_le_roundHalfEven (x : ℚ) : ⌊x⌋ ≤ roundHalfEven x := by
  unfold roundHalfEven
  split_ifs <;> omega

theorem roundHalfEven_le_floor_add_one (x : ℚ) : roundHalfEven x ≤ ⌊x⌋ + 1 := by
  unfold roundHalfEven
  split_ifs <;> omega

theorem roundHalfEven_mono {x y : ℚ} (h : x ≤ y) : roundHalfEven x ≤ roundHalfEven y := by
  have hfl : ⌊x⌋ ≤ ⌊y⌋ := Int.floor_mono h
  rcases hfl.lt_or_eq with hlt | heq
  · calc roundHalfEven x ≤ ⌊x⌋ + 1 := roundHalfEven_le_floor_add_one x
      _ ≤ ⌊y⌋ := hlt
      _ ≤ roundHalfEven y := floor_le_roundHalfEven y
  · unfold roundHalfEven
    rw [heq]
    have hxy : x - ⌊y⌋ ≤ y - ⌊y⌋ := by linarith
    split_ifs <;> first | omega | linarith

theorem roundHalfEven_eq_of_abs_lt {x : ℚ} {m : ℤ} (h : |x - m| < 1 / 2) :
    roundHalfEven x = m := by
  rw [abs_lt] at h
  obtain ⟨h1, h2⟩ := h
  unfold roundHalfEven
  by_cases hm : (m : ℚ) ≤ x
  · have hf : ⌊x⌋ = m := Int.floor_eq_iff.mpr ⟨hm, by linarith⟩
    rw [hf, if_pos (by linarith)]
  · have hf : ⌊x⌋ = m - 1 := Int.floor_eq_iff.mpr ⟨by push_cast; linarith, by push_cast; linarith⟩
    rw [hf]
    push_cast
    rw [if_neg (by linarith), if_pos (by linarith)]
    ring

theorem roundHalfEven_eq_of_tie_below {x : ℚ} {m : ℤ} (h : x = m - 1 / 2) (heven : m % 2 = 0) :
    roundHalfEven x = m := by
  have hf : ⌊x⌋ = m - 1 := Int.floor_eq_iff.mpr ⟨by push_cast; linarith, by push_cast; linarith⟩
  unfold roundHalfEven
  rw [hf]
  push_cast
  rw [if_neg (by linarith), if_neg (by linarith), if_neg (by omega)]
  ring

theorem roundHalfEven_eq_of_tie_above {x : ℚ} {m : ℤ} (h : x = m + 1 / 2) (heven : m % 2 = 0) :
    roundHalfEven x = m := by
  have hf : ⌊x⌋ = m := Int.floor_eq_iff.mpr ⟨by linarith, by linarith⟩
  unfold roundHalfEven
  rw [hf, if_neg (by linarith), if_neg (by linarith), if_pos heven]

theorem ulpExponent_eq {x : ℚ} {e : ℤ} (he : -1074 ≤ e) (hlo : (2 : ℚ) ^ (e + 52) ≤ |x|)
    (hhi : |x| < 2 ^ (e + 53)) : ulpExponent x = e := by
  have hpos : 0 < |x| := lt_of_lt_of_le (by positivity) hlo
  have h1 : e + 52 ≤ Int.log 2 |x| := (Int.zpow_le_iff_le_log (by norm_num) hpos).mp (by exact_mod_cast hlo)
  have h2 : Int.log 2 |x| < e + 53 := (Int.lt_zpow_iff_log_lt (by norm_num) hpos).mp (by exact_mod_cast hhi)
  unfold ulpExponent
  omega

theorem roundDouble_eq {x : ℚ} (e m : ℤ) (he : -1074 ≤ e) (hlo : (2 : ℚ) ^ (e + 52) ≤ |x|)
    (hhi : |x| < 2 ^ (e + 53)) (hm : |x / 2 ^ e - m| < 1 / 2) : roundDouble x = m * 2 ^ e := by
  unfold roundDouble
  rw [ulpExponent_eq he hlo hhi, roundHalfEven_eq_of_abs_lt hm]

theorem roundDouble_eq_of_tie_below {x : ℚ} (e m : ℤ) (he : -1074 ≤ e)
    (hlo : (2 : ℚ) ^ (e + 52) ≤ |x|) (hhi : |x| < 2 ^ (e + 53))
    (hm : x / 2 ^ e = m - 1 / 2) (heven : m % 2 = 0) : roundDouble x = m * 2 ^ e := by
  unfold roundDouble
  rw [ulpExponent_eq he hlo hhi, roundHalfEven_eq_of_tie_below hm heven]

theorem roundDouble_zero : roundDouble 0 = 0 := by
  simp [roundDouble, roundHalfEven]

theorem roundHalfEven_nonneg {x : ℚ} (h : 0 ≤ x) : 0 ≤ roundHalfEven x := by
  have := roundHalfEven_mono h
  rwa [show ((0 : ℚ)) = ((0 : ℤ) : ℚ) by norm_num, roundHalfEven_intCast] at this

theorem roundDouble_nonneg {x : ℚ} (h : 0 ≤ x) : 0 ≤ roundDouble x := by
  unfold roundDouble
  have hu : (0 : ℚ) < 2 ^ ulpExponent x := by positivity
  have : 0 ≤ roundHalfEven (x / 2 ^ ulpExponent x) := roundHalfEven_nonneg (div_nonneg h hu.le)
  exact mul_nonneg (by exact_mod_cast this) hu.le

theorem two_zpow_eq_intCast {k : ℤ} (hk : 0 ≤ k) : ((2 : ℚ) ^ k) = (((2 : ℤ) ^ k.toNat : ℤ) : ℚ) := by
  obtain ⟨n, rfl⟩ := Int.eq_ofNat_of_zero_le hk
  simp

theorem roundDouble_mono_of_pos {x y : ℚ} (hx : 0 < x) (hxy : x ≤ y) :
    roundDouble x ≤ roundDouble y := by
  have hy : 0 < y := lt_of_lt_of_le hx hxy
  have hlog : Int.log 2 x ≤ Int.log 2 y := Int.log_mono_right hx hxy
  have hEx : ulpExponent x = max (Int.log 2 x - 52) (-1074) := by
    unfold ulpExponent; rw [abs_of_pos hx]
  have hEy : ulpExponent y = max (Int.log 2 y - 52) (-1074) := by
    unfold ulpExponent; rw [abs_of_pos hy]
  have hE : ulpExponent x ≤ ulpExponent y := by rw [hEx, hEy]; omega
  rcases hE.lt_or_eq with hlt | heq
  · have hEy' : ulpExponent y = Int.log 2 y - 52 := by omega
    have hxlt : x < 2 ^ (Int.log 2 x + 1) := Int.lt_zpow_succ_log_self (by norm_num) x
    have hyge : (2 : ℚ) ^ Int.log 2 y ≤ y := Int.zpow_log_le_self (by norm_num) hy
    have hpow : (2 : ℚ) ^ (Int.log 2 x + 1) ≤ 2 ^ Int.log 2 y :=
      zpow_le_zpow_right₀ (by norm_num) (by omega)
    have hux : (0 : ℚ) < 2 ^ ulpExponent x := by positivity
    have huy : (0 : ℚ) < 2 ^ ulpExponent y := by positivity
    have hleft : roundDouble x ≤ 2 ^ Int.log 2 y := by
      unfold roundDouble
      have hk : 0 ≤ Int.log 2 y - ulpExponent x := by omega
      have hdiv : x / 2 ^ ulpExponent x ≤ (((2 : ℤ) ^ (Int.log 2 y - ulpExponent x).toNat : ℤ) : ℚ) := by
        rw [← two_zpow_eq_intCast hk, zpow_sub₀ (by norm_num)]
        exact div_le_div_of_nonneg_right (hxlt.le.trans hpow) hux.le
      have hr := roundHalfEven_mono hdiv
      rw [roundHalfEven_intCast] at hr
      have hr' : ((roundHalfEven (x / 2 ^ ulpExponent x) : ℤ) : ℚ) ≤
          (((2 : ℤ) ^ (Int.log 2 y - ulpExponent x).toNat : ℤ) : ℚ) := by exact_mod_cast hr
      calc (roundHalfEven (x / 2 ^ ulpExponent x) : ℚ) * 2 ^ ulpExponent x
          ≤ (((2 : ℤ) ^ (Int.log 2 y - ulpExponent x).toNat : ℤ) : ℚ) * 2 ^ ulpExponent x :=
            mul_le_mul_of_nonneg_right hr' hux.le
        _ = 2 ^ Int.log 2 y := by
            rw [← two_zpow_eq_intCast hk, ← zpow_add₀ (by norm_num)]
            congr 1
            ring
    have hright : (2 : ℚ) ^ Int.log 2 y ≤ roundDouble y := by
      unfold roundDouble
      have hdiv : (((2 : ℤ) ^ (52 : ℤ).toNat : ℤ) : ℚ) ≤ y / 2 ^ ulpExponent y := by
        rw [← two_zpow_eq_intCast (by norm_num), le_div_iff₀ huy, ← zpow_add₀ (by norm_num), hEy']
        have : (52 : ℤ) + (Int.log 2 y - 52) = Int.log 2 y := by ring
        rw [this]
        exact hyge
      have hr := roundHalfEven_mono hdiv
      rw [roundHalfEven_intCast] at hr
      have hr' : (((2 : ℤ) ^ (52 : ℤ).toNat : ℤ) : ℚ) ≤
          ((roundHalfEven (y / 2 ^ ulpExponent y) : ℤ) : ℚ) := by exact_mod_cast hr
      calc (2 : ℚ) ^ Int.log 2 y
          = (((2 : ℤ) ^ (52 : ℤ).toNat : ℤ) : ℚ) * 2 ^ ulpExponent y := by
            rw [← two_zpow_eq_intCast (by norm_num), ← zpow_add₀ (by norm_num), hEy']
            congr 1
            ring
        _ ≤ (roundHalfEven (y / 2 ^ ulpExponent y) : ℚ) * 2 ^ ulpExponent y :=
            mul_le_mul_of_nonneg_right hr' huy.le
    exact hleft.trans hright
  · unfold roundDouble
    rw [heq]
    have hu : (0 : ℚ) < 2 ^ ulpExponent y := by positivity
    have hr := roundHalfEven_mono (div_le_div_of_nonneg_right hxy hu.le)
    exact mul_le_mul_of_nonneg_right (by exact_mod_cast hr) hu.le

theorem roundDouble_mono_of_nonneg {x y : ℚ} (hx : 0 ≤ x) (hxy : x ≤ y) :
    roundDouble x ≤ roundDouble y := by
  rcases hx.lt_or_eq with h | h
  · exact roundDouble_mono_of_pos h hxy
  · rw [← h, roundDouble_zero]
    exact roundDouble_nonneg (hx.trans hxy)

theorem roundDouble_one : roundDouble 1 = 1 := by
  rw [roundDouble_eq (-52) (2 ^ 52) (by norm_num) (by norm_num) (by norm_num) (by norm_num)]
  norm_num

theorem roundDouble_hundred : roundDouble 100 = 100 := by
  rw [roundDouble_eq (-46) (100 * 2 ^ 46) (by norm_num) (by norm_num) (by norm_num) (by norm_num)]
  norm_num

theorem ulpExponent_ge (x : ℚ) : -1074 ≤ ulpExponent x := le_max_right _ _

theorem isDouble_multiple {x : ℚ} (h : isDouble x) : ∃ k : ℤ, x = k * 2 ^ (-1074 : ℤ) := by
  have hk : 0 ≤ ulpExponent x + 1074 := by have := ulpExponent_ge x; omega
  refine ⟨roundHalfEven (x / 2 ^ ulpExponent x) * 2 ^ (ulpExponent x + 1074).toNat, ?_⟩
  have h' : x = roundHalfEven (x / 2 ^ ulpExponent x) * 2 ^ ulpExponent x := h.symm
  push_cast
  rw [show ((2 : ℚ) ^ (ulpExponent x + 1074).toNat) = (((2 : ℤ) ^ (ulpExponent x + 1074).toNat : ℤ) : ℚ) by
    push_cast; rfl, ← two_zpow_eq_intCast hk, mul_assoc, ← zpow_add₀ (by norm_num)]
  rw [show ulpExponent x + 1074 + -1074 = ulpExponent x by ring]
  exact h'

theorem roundDouble_pos_of_ge {x : ℚ} (h : (2 : ℚ) ^ (-1074 : ℤ) ≤ x) : 0 < roundDouble x := by
  have hx : 0 < x := lt_of_lt_of_le (by positivity) h
  have hu : (0 : ℚ) < 2 ^ ulpExponent x := by positivity
  have hule : (2 : ℚ) ^ ulpExponent x ≤ x := by
    unfold ulpExponent
    rw [abs_of_pos hx]
    rcases max_cases (Int.log 2 x - 52) (-1074) with ⟨h1, -⟩ | ⟨h1, -⟩
    · rw [h1]
      calc (2 : ℚ) ^ (Int.log 2 x - 52) ≤ 2 ^ Int.log 2 x :=
            zpow_le_zpow_right₀ (by norm_num) (by omega)
        _ ≤ x := Int.zpow_log_le_self (by norm_num) hx
    · rw [h1]; exact h
  have hdiv : (((1 : ℤ)) : ℚ) ≤ x / 2 ^ ulpExponent x := by
    rw [le_div_iff₀ hu]; simpa using hule
  have hr := roundHalfEven_mono hdiv
  rw [roundHalfEven_intCast] at hr
  unfold roundDouble
  have : (0 : ℚ) < (roundHalfEven (x / 2 ^ ulpExponent x) : ℚ) := by exact_mod_cast hr
  exact mul_pos this hu

theorem roundDouble_sub_pos {a b : ℚ} (ha : isDouble a) (hb : isDouble b) (hlt : a < b) :
    0 < roundDouble (b - a) := by
  obtain ⟨ka, hka⟩ := isDouble_multiple ha
  obtain ⟨kb, hkb⟩ := isDouble_multiple hb
  have hu : (0 : ℚ) < 2 ^ (-1074 : ℤ) := by positivity
  have hk : ka < kb := by
    have : (ka : ℚ) * 2 ^ (-1074 : ℤ) < kb * 2 ^ (-1074 : ℤ) := by rw [← hka, ← hkb]; exact hlt
    exact_mod_cast (mul_lt_mul_right hu).mp this
  apply roundDouble_pos_of_ge
  have h1 : (1 : ℚ) ≤ (kb : ℚ) - ka := by exact_mod_cast (by omega : (1 : ℤ) ≤ kb - ka)
  calc (2 : ℚ) ^ (-1074 : ℤ) = 1 * 2 ^ (-1074 : ℤ) := (one_mul _).symm
    _ ≤ ((kb : ℚ) - ka) * 2 ^ (-1074 : ℤ) := mul_le_mul_of_nonneg_right h1 hu.le
    _ = b - a := by rw [hka, hkb]; ring

theorem roundDouble_70 : roundDouble (70 / 100) = 3152519739159347 / 4503599627370496 := by
  rw [roundDouble_eq (-53) 6305039478318694 (by norm_num) (by norm_num [abs_of_pos])
    (by norm_num [abs_of_pos]) (by norm_num [abs_lt])]
  norm_num

theorem roundDouble_140 : roundDouble (140 / 100) = 3152519739159347 / 2251799813685248 := by
  rw [roundDouble_eq (-52) 6305039478318694 (by norm_num) (by norm_num [abs_of_pos])
    (by norm_num [abs_of_pos]) (by norm_num [abs_lt])]
  norm_num

theorem roundDouble_105 : roundDouble (105 / 100) = 4728779608739021 / 4503599627370496 := by
  rw [roundDouble_eq (-52) 4728779608739021 (by norm_num) (by norm_num [abs_of_pos])
    (by norm_num [abs_of_pos]) (by norm_num [abs_lt])]
  norm_num

theorem roundDouble_110 : roundDouble (110 / 100) = 2476979795053773 / 2251799813685248 := by
  rw [roundDouble_eq (-52) 4953959590107546 (by norm_num) (by norm_num [abs_of_pos])
    (by norm_num [abs_of_pos]) (by norm_num [abs_lt])]
  norm_num

theorem roundDouble_130 : roundDouble (130 / 100) = 5854679515581645 / 4503599627370496 := by
  rw [roundDouble_eq (-52) 5854679515581645 (by norm_num) (by norm_num [abs_of_pos])
    (by norm_num [abs_of_pos]) (by norm_num [abs_lt])]
  norm_num

theorem roundDouble_120 : roundDouble (120 / 100) = 5404319552844595 / 4503599627370496 := by
  rw [roundDouble_eq (-52) 5404319552844595 (by norm_num) (by norm_num [abs_of_pos])
    (by norm_num [abs_of_pos]) (by norm_num [abs_lt])]
  norm_num

theorem roundDouble_50 : roundDouble 50 = 50 := by
  rw [roundDouble_eq (-47) (50 * 2 ^ 47) (by norm_num) (by norm_num) (by norm_num)
    (by norm_num)]
  norm_num


/-! ## JavaScript objects -/

namespace JSObject

variable {α : Type}

theorem get_set_self (o : JSObject α) (k : String) (v : α) : (o.set k v).get k = some v := by
  induction o with
  | nil => simp [set, get]
  | cons e rest ih =>
    obtain ⟨k', v'⟩ := e
    by_cases h : k' = k
    · simp [set, get, h]
    · simp [set, get, h, ih]

theorem get_set_of_ne (o : JSObject α) {k k' : String} (v : α) (h : k' ≠ k) :
    (o.set k v).get k' = o.get k' := by
  induction o with
  | nil => simp [set, get, Ne.symm h]
  | cons e rest ih =>
    obtain ⟨k0, v0⟩ := e
    by_cases h0 : k0 = k
    · subst h0
      simp [set, get, Ne.symm h]
    · by_cases h1 : k0 = k'
      · subst h1
        simp [set, get, h0]
      · simp [set, get, h0, h1, ih]

theorem get_delete_self (o : JSObject α) (k : String) : (o.delete k).get k = none := by
  induction o with
  | nil => simp [JSObject.delete, get]
  | cons e rest ih =>
    obtain ⟨k0, v0⟩ := e
    by_cases h0 : k0 = k
    · simpa [JSObject.delete, List.filter_cons, h0] using ih
    · simpa [JSObject.delete, List.filter_cons, h0, get] using ih

theorem get_delete_of_ne (o : JSObject α) {k k' : String} (h : k' ≠ k) :
    (o.delete k).get k' = o.get k' := by
  induction o with
  | nil => simp [JSObject.delete, get]
  | cons e rest ih =>
    obtain ⟨k0, v0⟩ := e
    by_cases h0 : k0 = k
    · subst h0
      simpa [JSObject.delete, List.filter_cons, get, Ne.symm h] using ih
    · by_cases h1 : k0 = k'
      · subst h1
        simp [JSObject.delete, List.filter_cons, h0, get]
      · simpa [JSObject.delete, List.filter_cons, h0, get, h1] using ih

theorem mem_keys_set (o : JSObject α) (k k' : String) (v : α) :
    k' ∈ (o.set k v).keys ↔ k' = k ∨ k' ∈ o.keys := by
  induction o with
  | nil => simp [set, keys]
  | cons e rest ih =>
    obtain ⟨k0, v0⟩ := e
    by_cases h0 : k0 = k
    · subst h0
      simp [set, keys]
    · simp only [set, h0, if_false, keys, List.map_cons, List.mem_cons] at ih ⊢
      rw [ih]
      tauto

end JSObject

/-! ## Team averages -/

theorem accumulateStat_get (player : Player) (acc : Accumulators) (stat k : String) {x : ℚ}
    {c : ℕ} (hx : acc.1.get k = some x) (hc : acc.2.get k = some c) :
    (accumulateStat player acc stat).1.get k =
        some (if k = stat then (player.stat k).number?.toList.foldl jsAdd x else x) ∧
      (accumulateStat player acc stat).2.get k =
        some (c + if k = stat then (player.stat k).number?.toList.length else 0) := by
  by_cases h : k = stat
  · subst h
    cases hv : player.stat k <;>
      simp [accumulateStat, hv, StatValue.number?, hx, hc, JSObject.get_set_self]
  · cases hv : player.stat stat <;>
      simp [accumulateStat, hv, hx, hc, h, JSObject.get_set_of_ne]

theorem foldl_accumulateStat_get (player : Player) (k : String) :
    ∀ (stats : List String), stats.Nodup → ∀ (acc : Accumulators) (x : ℚ) (c : ℕ),
      acc.1.get k = some x → acc.2.get k = some c →
      (stats.foldl (accumulateStat player) acc).1.get k =
          some (if k ∈ stats then (player.stat k).number?.toList.foldl jsAdd x else x) ∧
        (stats.foldl (accumulateStat player) acc).2.get k =
          some (c + if k ∈ stats then (player.stat k).number?.toList.length else 0) := by
  intro stats
  induction stats with
  | nil => intro _ acc x c hx hc; simp [hx, hc]
  | cons a rest ih =>
    intro hnd acc x c hx hc
    obtain ⟨ha, hrest⟩ := List.nodup_cons.mp hnd
    obtain ⟨h1, h2⟩ := accumulateStat_get player acc a k hx hc
    obtain ⟨h3, h4⟩ := ih hrest _ _ _ h1 h2
    rw [List.foldl_cons, h3, h4]
    by_cases hk : k = a
    · subst hk
      simp [ha]
    · simp [hk]

theorem statsToAverage_nodup : statsToAverage.Nodup := by
  simp [statsToAverage]

theorem accumulateTeam_get (k : String) (hk : k ∈ statsToAverage) :
    ∀ (players : List Player) (acc : Accumulators) (x : ℚ) (c : ℕ),
      acc.1.get k = some x → acc.2.get k = some c →
      (accumulateTeam players acc).1.get k =
          some ((players.filterMap (fun p => (p.stat k).number?)).foldl jsAdd x) ∧
        (accumulateTeam players acc).2.get k =
          some (c + (players.filterMap (fun p => (p.stat k).number?)).length) := by
  intro players
  induction players with
  | nil => intro acc x c hx hc; simp [accumulateTeam, hx, hc]
  | cons p rest ih =>
    intro acc x c hx hc
    obtain ⟨h1, h2⟩ := foldl_accumulateStat_get p k statsToAverage statsToAverage_nodup acc x c hx hc
    rw [if_pos hk] at h1 h2
    obtain ⟨h3, h4⟩ := ih _ _ _ h1 h2
    unfold accumulateTeam at h3 h4 ⊢
    rw [List.foldl_cons, h3, h4]
    cases hv : (p.stat k).number? <;> simp [List.filterMap_cons, hv, add_assoc, add_comm]

theorem initAccumulators_get (k : String) (hk : k ∈ statsToAverage) :
    initAccumulators.1.get k = some 0 ∧ initAccumulators.2.get k = some 0 := by
  simp only [statsToAverage, List.mem_cons, List.mem_singleton, List.not_mem_nil, or_false] at hk
  rcases hk with rfl | rfl | rfl | rfl | rfl | rfl <;>
    simp [initAccumulators, statsToAverage, JSObject.set, JSObject.get]

theorem storeAverages_get_of_not_mem (acc : Accumulators) (k : String) :
    ∀ (cells : List String) (target : JSObject ℚ), k ∉ cells →
      (storeAverages cells acc target).get k = target.get k := by
  intro cells
  induction cells with
  | nil => intro target _; rfl
  | cons a rest ih =>
    intro target hk
    have hne : k ≠ a := fun h => hk (h ▸ List.mem_cons_self _ _)
    have hrest : k ∉ rest := fun h => hk (List.mem_cons_of_mem _ h)
    unfold storeAverages at ih ⊢
    rw [List.foldl_cons, ih _ hrest]
    cases acc.2.get a with
    | none => simp [JSObject.get_delete_of_ne _ hne]
    | some count =>
      by_cases hc : count > 0
      · simp [hc, JSObject.get_set_of_ne _ _ hne]
      · simp [hc, JSObject.get_delete_of_ne _ hne]

theorem storeAverages_get_of_mem (acc : Accumulators) (k : String) {x : ℚ} {c : ℕ}
    (hx : acc.1.get k = some x) (hc : acc.2.get k = some c) :
    ∀ (cells : List String) (target : JSObject ℚ), k ∈ cells →
      (storeAverages cells acc target).get k =
        if c > 0 then some (jsDiv x (c : ℚ)) else none := by
  intro cells
  induction cells with
  | nil => intro target hk; simp at hk
  | cons a rest ih =>
    intro target hk
    by_cases hrest : k ∈ rest
    · unfold storeAverages at ih ⊢
      rw [List.foldl_cons, ih _ hrest]
    · have hka : k = a := by
        rcases List.mem_cons.mp hk with h | h
        · exact h
        · exact absurd h hrest
      subst hka
      have h := storeAverages_get_of_not_mem acc k rest
      unfold storeAverages at h ⊢
      rw [List.foldl_cons, h _ hrest, hc]
      by_cases hpos : c > 0
      · simp [hpos, hx, JSObject.get_set_self]
      · simp [hpos, JSObject.get_delete_self]

theorem teamAverages_get (roster : JSObject Player) (k : String) (hk : k ∈ statsToAverage) :
    (teamAverages roster (some averagesRowCells)).get k =
      if (definedValues roster k).length > 0 then
        some (jsDiv (floatSum (definedValues roster k)) ((definedValues roster k).length : ℚ))
      else none := by
  unfold teamAverages
  by_cases hlen : roster.values.length = 0
  · have hnil : roster.values = [] := List.length_eq_zero.mp hlen
    simp [hnil, definedValues, JSObject.get]
  · obtain ⟨h0, h0'⟩ := initAccumulators_get k hk
    obtain ⟨h1, h2⟩ := accumulateTeam_get k hk roster.values initAccumulators 0 0 h0 h0'
    rw [zero_add] at h2
    simp only [hlen, if_false]
    rw [storeAverages_get_of_mem _ k h1 h2 averagesRowCells [] hk]
    rfl

theorem definedValues_eq_nil_iff (roster : JSObject Player) (k : String) :
    definedValues roster k = [] ↔
      ∀ p ∈ roster.values,
        p.stat k = .undefined ∨ p.stat k = .null ∨ p.stat k = .nan := by
  unfold definedValues
  rw [List.filterMap_eq_nil_iff]
  constructor
  · intro h p hp
    have := h p hp
    cases hv : p.stat k <;> simp_all [StatValue.number?]
  · intro h p hp
    rcases h p hp with hv | hv | hv <;> simp [hv, StatValue.number?]

theorem scenario2_definedValues :
    definedValues scenario2.teamAPlayersData "L10_HLTV2" =
      [2476979795053773 / 2251799813685248, 5854679515581645 / 4503599627370496] := by
  simp [definedValues, scenario2, scenarioPlayer, JSObject.values, Player.stat,
    PlayerStats.get, StatValue.number?, roundDouble_110, roundDouble_130]

/-- The double arithmetic of scenario 2: the two numbers are added to 0 and the
sum is halved; the second addition is a tie and rounds to the even neighbour. -/
theorem scenario2_mean :
    jsDiv (floatSum [2476979795053773 / 2251799813685248, 5854679515581645 / 4503599627370496])
        ((2 : ℕ) : ℚ) = 1351079888211149 / 1125899906842624 := by
  have h0 : jsAdd 0 (2476979795053773 / 2251799813685248) =
      2476979795053773 / 2251799813685248 := by
    unfold jsAdd
    rw [roundDouble_eq (-52) 4953959590107546 (by norm_num) (by norm_num [abs_of_pos])
      (by norm_num [abs_of_pos]) (by norm_num [abs_lt])]
    norm_num
  have h1 : jsAdd (2476979795053773 / 2251799813685248)
      (5854679515581645 / 4503599627370496) = 1351079888211149 / 562949953421312 := by
    unfold jsAdd
    rw [roundDouble_eq_of_tie_below (-51) 5404319552844596 (by norm_num)
      (by norm_num [abs_of_pos]) (by norm_num [abs_of_pos]) (by norm_num) (by norm_num)]
    norm_num
  have h2 : jsDiv (1351079888211149 / 562949953421312) ((2 : ℕ) : ℚ) =
      1351079888211149 / 1125899906842624 := by
    unfold jsDiv
    rw [roundDouble_eq (-52) 5404319552844596 (by norm_num) (by norm_num [abs_of_pos])
      (by norm_num [abs_of_pos]) (by norm_num [abs_lt])]
    norm_num
  unfold floatSum
  rw [List.foldl_cons, List.foldl_cons, List.foldl_nil, h0, h1, h2]

/-- C1, counterexample: in scenario 2 (members with 1.10 and 1.30)
`updateTeamStats` stores 1.2000000000000002, which is neither the sum of the
two values divided by their count nor the double 1.20. -/
theorem updateTeamStats_mean_counterexample :
    (updateTeamStats "a" (some averagesRowCells) scenario2).teamAAverages.get "L10_HLTV2" =
        some (1351079888211149 / 1125899906842624) ∧
      (1351079888211149 / 1125899906842624 : ℚ) ≠
        (definedValues scenario2.teamAPlayersData "L10_HLTV2").sum /
          ((definedValues scenario2.teamAPlayersData "L10_HLTV2").length : ℚ) ∧
      (1351079888211149 / 1125899906842624 : ℚ) ≠ roundDouble (120 / 100) := by
  refine ⟨?_, ?_, ?_⟩
  · have h := teamAverages_get scenario2.teamAPlayersData "L10_HLTV2" (by simp [statsToAverage])
    rw [scenario2_definedValues] at h
    simp only [List.length_cons, List.length_nil, Nat.zero_add, Nat.reduceAdd, gt_iff_lt,
      Nat.ofNat_pos, ↓reduceIte] at h
    rw [scenario2_mean] at h
    simpa [updateTeamStats] using h
  · rw [scenario2_definedValues]
    norm_num
  · rw [roundDouble_120]
    norm_num

/-- C1, amended: for a roster whose averages row is rendered and a stat key `k`
among the six averaged keys, `updateTeamStats` leaves the stored average for
`k` absent if and only if every member's value for `k` is `undefined`, `null`
or `NaN`; otherwise the stored average is the sum of the members' numbers for
`k`, added in roster order, divided by their count, each operation rounded to
the nearest double.  This holds for team A and for team B. -/
theorem updateTeamStats_average (self : TeamPicker) (k : String) (hk : k ∈ statsToAverage) :
    (((updateTeamStats "a" (some averagesRowCells) self).teamAAverages.get k = none ↔
          ∀ p ∈ self.teamAPlayersData.values,
            p.stat k = .undefined ∨ p.stat k = .null ∨ p.stat k = .nan) ∧
        (definedValues self.teamAPlayersData k ≠ [] →
          (updateTeamStats "a" (some averagesRowCells) self).teamAAverages.get k =
            some (jsDiv (floatSum (definedValues self.teamAPlayersData k))
              ((definedValues self.teamAPlayersData k).length : ℚ)))) ∧
      (((updateTeamStats "b" (some averagesRowCells) self).teamBAverages.get k = none ↔
          ∀ p ∈ self.teamBPlayersData.values,
            p.stat k = .undefined ∨ p.stat k = .null ∨ p.stat k = .nan) ∧
        (definedValues self.teamBPlayersData k ≠ [] →
          (updateTeamStats "b" (some averagesRowCells) self).teamBAverages.get k =
            some (jsDiv (floatSum (definedValues self.teamBPlayersData k))
              ((definedValues self.teamBPlayersData k).length : ℚ)))) := by
  have hb : ¬ ("b" = "a") := by decide
  have key : ∀ roster : JSObject Player,
      ((teamAverages roster (some averagesRowCells)).get k = none ↔
          ∀ p ∈ roster.values, p.stat k = .undefined ∨ p.stat k = .null ∨ p.stat k = .nan) ∧
        (definedValues roster k ≠ [] →
          (teamAverages roster (some averagesRowCells)).get k =
            some (jsDiv (floatSum (definedValues roster k))
              ((definedValues roster k).length : ℚ))) := by
    intro roster
    rw [teamAverages_get roster k hk, ← definedValues_eq_nil_iff]
    constructor
    · constructor
      · intro h
        by_contra hne
        rw [if_pos (List.length_pos.mpr hne)] at h
        exact Option.noConfusion h
      · intro h
        simp [h]
    · intro hne
      rw [if_pos (List.length_pos.mpr hne)]
  refine ⟨?_, ?_⟩
  · simpa [updateTeamStats] using key self.teamAPlayersData
  · simpa [updateTeamStats, hb] using key self.teamBPlayersData

theorem updateTeamStats_average_witness :
    (updateTeamStats "a" (some averagesRowCells) scenario2).teamAAverages.get "L10_HLTV2" =
        some (jsDiv (floatSum (definedValues scenario2.teamAPlayersData "L10_HLTV2"))
          ((definedValues scenario2.teamAPlayersData "L10_HLTV2").length : ℚ)) ∧
      (updateTeamStats "b" (some averagesRowCells) scenario2).teamBAverages.get "L10_HLTV2" =
        none := by
  have h := updateTeamStats_average scenario2 "L10_HLTV2" (by simp [statsToAverage])
  refine ⟨h.1.2 (by rw [scenario2_definedValues]; simp), h.2.1.mpr ?_⟩
  simp [scenario2, scenarioPlayer, JSObject.values, Player.stat, PlayerStats.get]

/-! ## Attendance-driven evictions -/

theorem playerPath_inj (team a b : String) (h : playerPath team a = playerPath team b) :
    a = b := by
  unfold playerPath at h
  have := congrArg String.data h
  simp only [String.data_append] at this
  exact String.ext (List.append_cancel_left this)

theorem playerPath_teamA_ne_teamB (a b : String) :
    playerPath "teamA" a ≠ playerPath "teamB" b := by
  intro h
  have := congrArg String.data h
  simp [playerPath, DB_PATH, String.data_append] at this

theorem notComing_iff (processed : JSObject AttendanceEntry) (steamId : String) :
    notComing processed steamId = true ↔
      processed.get steamId = none ∨
        ∃ entry, processed.get steamId = some entry ∧ entry.status ≠ "coming" := by
  unfold notComing
  cases processed.get steamId <;> simp

theorem foldl_updates_keys (processed : JSObject AttendanceEntry) (team : String)
    (f : Evictions → String → Evictions)
    (hf : ∀ acc id, (f acc id).1 =
      if notComing processed id then acc.1.set (playerPath team id) none else acc.1) :
    ∀ (ids : List String) (acc : Evictions) (path : String),
      path ∈ (ids.foldl f acc).1.keys ↔
        path ∈ acc.1.keys ∨
          ∃ id ∈ ids, notComing processed id = true ∧ path = playerPath team id := by
  intro ids
  induction ids with
  | nil => intro acc path; simp
  | cons a rest ih =>
    intro acc path
    rw [List.foldl_cons, ih, hf]
    by_cases ha : notComing processed a = true
    · simp only [ha, if_true, JSObject.mem_keys_set, List.mem_cons, exists_eq_or_imp, true_and]
      tauto
    · simp only [ha, if_false, List.mem_cons, exists_eq_or_imp, false_and, false_or]
      simp

theorem foldl_updates_unchanged (processed : JSObject AttendanceEntry) (team : String)
    (f : Evictions → String → Evictions)
    (hf : ∀ acc id, (f acc id).1 =
      if notComing processed id then acc.1.set (playerPath team id) none else acc.1) :
    ∀ (ids : List String) (acc : Evictions),
      (∀ id ∈ ids, notComing processed id = false) → (ids.foldl f acc).1 = acc.1 := by
  intro ids
  induction ids with
  | nil => intro acc _; rfl
  | cons a rest ih =>
    intro acc h
    rw [List.foldl_cons, ih _ (fun id hid => h id (List.mem_cons_of_mem _ hid)), hf,
      h a (List.mem_cons_self _ _)]
    simp

theorem foldl_updates_single_keep (processed : JSObject AttendanceEntry) (team p1 : String)
    (f : Evictions → String → Evictions)
    (hf : ∀ acc id, (f acc id).1 =
      if notComing processed id then acc.1.set (playerPath team id) none else acc.1) :
    ∀ (ids : List String) (acc : Evictions),
      (∀ id ∈ ids, notComing processed id = true → id = p1) →
      acc.1 = [(playerPath team p1, none)] →
      (ids.foldl f acc).1 = [(playerPath team p1, none)] := by
  intro ids
  induction ids with
  | nil => intro acc _ hacc; exact hacc
  | cons a rest ih =>
    intro acc h hacc
    rw [List.foldl_cons]
    apply ih _ (fun id hid => h id (List.mem_cons_of_mem _ hid))
    rw [hf]
    by_cases ha : notComing processed a = true
    · have := h a (List.mem_cons_self _ _) ha
      subst this
      simp [ha, hacc, JSObject.set]
    · simp [ha, hacc]

theorem foldl_updates_single (processed : JSObject AttendanceEntry) (team p1 : String)
    (f : Evictions → String → Evictions)
    (hf : ∀ acc id, (f acc id).1 =
      if notComing processed id then acc.1.set (playerPath team id) none else acc.1)
    (hp : notComing processed p1 = true) :
    ∀ (ids : List String) (acc : Evictions),
      (∀ id ∈ ids, notComing processed id = true → id = p1) → p1 ∈ ids →
      acc.1 = [] → (ids.foldl f acc).1 = [(playerPath team p1, none)] := by
  intro ids
  induction ids with
  | nil => intro acc _ hmem _; simp at hmem
  | cons a rest ih =>
    intro acc h hmem hacc
    have hrest : ∀ id ∈ rest, notComing processed id = true → id = p1 :=
      fun id hid => h id (List.mem_cons_of_mem _ hid)
    rw [List.foldl_cons]
    by_cases ha : notComing processed a = true
    · have := h a (List.mem_cons_self _ _) ha
      subst this
      apply foldl_updates_single_keep processed team a f hf rest _ hrest
      rw [hf]
      simp [ha, hacc, JSObject.set]
    · have hne : p1 ≠ a := fun heq => ha (heq ▸ hp)
      have hmem' : p1 ∈ rest := by
        rcases List.mem_cons.mp hmem with h' | h'
        · exact absurd h' hne
        · exact h'
      apply ih _ hrest hmem'
      rw [hf]
      simp [ha, hacc]

theorem evictTeamA_step (processed : JSObject AttendanceEntry) (teamA : JSObject Player)
    (acc : Evictions) (id : String) :
    ((fun (acc : Evictions) steamId =>
        if notComing processed steamId then
          (acc.1.set (playerPath "teamA" steamId) none, acc.2 ++ [nameOrId teamA steamId])
        else acc) acc id).1 =
      if notComing processed id then acc.1.set (playerPath "teamA" id) none else acc.1 := by
  by_cases h : notComing processed id = true <;> simp [h]

theorem evictTeamB_step (processed : JSObject AttendanceEntry) (teamB : JSObject Player)
    (acc : Evictions) (id : String) :
    ((fun (acc : Evictions) steamId =>
        if notComing processed steamId then
          (acc.1.set (playerPath "teamB" steamId) none,
            if acc.2.contains (nameOrId teamB steamId) then acc.2
            else acc.2 ++ [nameOrId teamB steamId])
        else acc) acc id).1 =
      if notComing processed id then acc.1.set (playerPath "teamB" id) none else acc.1 := by
  by_cases h : notComing processed id = true <;> simp [h]

theorem attendanceEvictions_keys (processed : JSObject AttendanceEntry) (self : TeamPicker)
    (path : String) :
    path ∈ (attendanceEvictions processed self).1.keys ↔
      (∃ id ∈ self.teamAPlayersData.keys,
          notComing processed id = true ∧ path = playerPath "teamA" id) ∨
        ∃ id ∈ self.teamBPlayersData.keys,
          notComing processed id = true ∧ path = playerPath "teamB" id := by
  unfold attendanceEvictions evictTeamB evictTeamA
  rw [foldl_updates_keys processed "teamB" _ (evictTeamB_step processed self.teamBPlayersData),
    foldl_updates_keys processed "teamA" _ (evictTeamA_step processed self.teamAPlayersData)]
  simp [JSObject.keys]

/-- C2: the eviction update of the attendance listener contains the path of
(team, id) if and only if id is a key of that team's roster and id is absent
from the processed attendance map or has a status other than `'coming'`.  When
a player of roster A (not on roster B) is reported `'not_coming'` and every
other rostered player is coming, the update written is exactly the single
eviction of that player from team A. -/
theorem eviction_update_iff (processed : JSObject AttendanceEntry) (self : TeamPicker)
    (steamId : String) :
    (playerPath "teamA" steamId ∈ (attendanceEvictions processed self).1.keys ↔
        steamId ∈ self.teamAPlayersData.keys ∧
          (processed.get steamId = none ∨
            ∃ entry, processed.get steamId = some entry ∧ entry.status ≠ "coming")) ∧
      (playerPath "teamB" steamId ∈ (attendanceEvictions processed self).1.keys ↔
        steamId ∈ self.teamBPlayersData.keys ∧
          (processed.get steamId = none ∨
            ∃ entry, processed.get steamId = some entry ∧ entry.status ≠ "coming")) ∧
      (steamId ∈ self.teamAPlayersData.keys → steamId ∉ self.teamBPlayersData.keys →
        (∃ entry, processed.get steamId = some entry ∧ entry.status = "not_coming") →
        (∀ id, id ∈ self.teamAPlayersData.keys ∨ id ∈ self.teamBPlayersData.keys →
          id ≠ steamId → ∃ entry, processed.get id = some entry ∧ entry.status = "coming") →
        (attendanceEvictions processed self).1 = [(playerPath "teamA" steamId, none)] ∧
          attendanceEvictionWrite processed self =
            some [(playerPath "teamA" steamId, none)]) := by
  refine ⟨?_, ?_, ?_⟩
  · rw [attendanceEvictions_keys, ← notComing_iff]
    constructor
    · rintro (⟨id, hid, hnc, hpath⟩ | ⟨id, _, _, hpath⟩)
      · have := playerPath_inj _ _ _ hpath
        subst this
        exact ⟨hid, hnc⟩
      · exact absurd hpath (playerPath_teamA_ne_teamB _ _)
    · rintro ⟨hid, hnc⟩
      exact Or.inl ⟨steamId, hid, hnc, rfl⟩
  · rw [attendanceEvictions_keys, ← notComing_iff]
    constructor
    · rintro (⟨id, _, _, hpath⟩ | ⟨id, hid, hnc, hpath⟩)
      · exact absurd hpath.symm (playerPath_teamA_ne_teamB _ _)
      · have := playerPath_inj _ _ _ hpath
        subst this
        exact ⟨hid, hnc⟩
    · rintro ⟨hid, hnc⟩
      exact Or.inr ⟨steamId, hid, hnc, rfl⟩
  · rintro hA hB ⟨entry, hget, hstatus⟩ hothers
    have hd : ("not_coming" : String) ≠ "coming" := by decide
    have hp : notComing processed steamId = true :=
      (notComing_iff _ _).mpr (Or.inr ⟨entry, hget, by rw [hstatus]; exact hd⟩)
    have hcoming : ∀ id, id ∈ self.teamAPlayersData.keys ∨ id ∈ self.teamBPlayersData.keys →
        id ≠ steamId → notComing processed id = false := by
      intro id hid hne
      obtain ⟨e, he, hs⟩ := hothers id hid hne
      simp [notComing, he, hs]
    have hA' : ∀ id ∈ self.teamAPlayersData.keys, notComing processed id = true →
        id = steamId := by
      intro id hid hnc
      by_contra hne
      rw [hcoming id (Or.inl hid) hne] at hnc
      exact Bool.noConfusion hnc
    have hB' : ∀ id ∈ self.teamBPlayersData.keys, notComing processed id = false := by
      intro id hid
      exact hcoming id (Or.inr hid) (fun heq => hB (heq ▸ hid))
    have hupd : (attendanceEvictions processed self).1 =
        [(playerPath "teamA" steamId, none)] := by
      unfold attendanceEvictions evictTeamB evictTeamA
      rw [foldl_updates_unchanged processed "teamB" _
          (evictTeamB_step processed self.teamBPlayersData) _ _ hB',
        foldl_updates_single processed "teamA" steamId _
          (evictTeamA_step processed self.teamAPlayersData) hp _ _ hA' hA rfl]
    refine ⟨hupd, ?_⟩
    simp [attendanceEvictionWrite, hupd, JSObject.keys]

theorem eviction_update_iff_witness :
    (attendanceEvictions scenario4Attendance scenario4).1 =
        [(playerPath "teamA" "p1", none)] ∧
      attendanceEvictionWrite scenario4Attendance scenario4 =
        some [(playerPath "teamA" "p1", none)] :=
  (eviction_update_iff scenario4Attendance scenario4 "p1").2.2
    (by simp [scenario4, JSObject.keys])
    (by simp [scenario4, JSObject.keys])
    ⟨(scenarioEntry "p1" "not_coming").2, by simp [scenario4Attendance, scenarioEntry, JSObject.get],
      rfl⟩
    (by
      intro id hid hne
      simp only [scenario4, JSObject.keys, List.map_cons, List.map_nil, List.mem_cons,
        List.mem_singleton, List.not_mem_nil, or_false] at hid
      rcases hid with (rfl | rfl) | rfl
      · exact absurd rfl hne
      · exact ⟨(scenarioEntry "p2" "coming").2,
          by simp [scenario4Attendance, scenarioEntry, JSObject.get], rfl⟩
      · exact ⟨(scenarioEntry "p3" "coming").2,
          by simp [scenario4Attendance, scenarioEntry, JSObject.get], rfl⟩)

/-! ## Available pool -/

theorem foldl_pool_keys (tables : StatsTables) :
    ∀ (entries : JSObject AttendanceEntry) (pool : JSObject Player) (steamId : String),
      steamId ∈ (entries.foldl
          (fun pool entry =>
            if entry.2.status = "coming" then
              pool.set entry.1
                (mergePlayerWithStats tables
                  { name := some entry.2.name, steamId := some entry.1,
                    status := some entry.2.status, stats := none })
            else pool) pool).keys ↔
        steamId ∈ pool.keys ∨ ∃ entry ∈ entries, entry.1 = steamId ∧ entry.2.status = "coming" := by
  intro entries
  induction entries with
  | nil => intro pool steamId; simp
  | cons e rest ih =>
    intro pool steamId
    rw [List.foldl_cons, ih]
    by_cases hc : e.2.status = "coming"
    · simp only [hc, if_true, JSObject.mem_keys_set, List.mem_cons, exists_eq_or_imp, and_true]
      constructor
      · rintro ((h | h) | h)
        · exact Or.inr (Or.inl h.symm)
        · exact Or.inl h
        · exact Or.inr (Or.inr h)
      · rintro (h | h | h)
        · exact Or.inl (Or.inr h)
        · exact Or.inl (Or.inl h.symm)
        · exact Or.inr h
    · simp [hc]

theorem foldl_pool_get_of_not_mem (tables : StatsTables) (steamId : String) :
    ∀ (entries : JSObject AttendanceEntry) (pool : JSObject Player),
      steamId ∉ entries.keys →
      (entries.foldl
          (fun pool entry =>
            if entry.2.status = "coming" then
              pool.set entry.1
                (mergePlayerWithStats tables
                  { name := some entry.2.name, steamId := some entry.1,
                    status := some entry.2.status, stats := none })
            else pool) pool).get steamId = pool.get steamId := by
  intro entries
  induction entries with
  | nil => intro pool _; rfl
  | cons e rest ih =>
    intro pool hk
    have hne : steamId ≠ e.1 := fun h => hk (by simp [JSObject.keys, h])
    have hrest : steamId ∉ JSObject.keys rest := fun h => hk (by
      simp only [JSObject.keys, List.map_cons, List.mem_cons]
      exact Or.inr h)
    rw [List.foldl_cons, ih _ hrest]
    by_cases hc : e.2.status = "coming"
    · simp [hc, JSObject.get_set_of_ne _ _ hne]
    · simp [hc]

theorem foldl_pool_get (tables : StatsTables) (steamId : String) (entry : AttendanceEntry)
    (hc : entry.status = "coming") :
    ∀ (entries : JSObject AttendanceEntry) (pool : JSObject Player),
      entries.keys.Nodup → entries.get steamId = some entry →
      (entries.foldl
          (fun pool entry =>
            if entry.2.status = "coming" then
              pool.set entry.1
                (mergePlayerWithStats tables
                  { name := some entry.2.name, steamId := some entry.1,
                    status := some entry.2.status, stats := none })
            else pool) pool).get steamId =
        some (mergePlayerWithStats tables
          { name := some entry.name, steamId := some steamId,
            status := some entry.status, stats := none }) := by
  intro entries
  induction entries with
  | nil => intro pool _ hget; simp [JSObject.get] at hget
  | cons e rest ih =>
    intro pool hnd hget
    obtain ⟨k, e0⟩ := e
    simp only [JSObject.keys, List.map_cons, List.nodup_cons] at hnd
    obtain ⟨hk, hrest⟩ := hnd
    rw [List.foldl_cons]
    by_cases hkey : k = steamId
    · subst hkey
      simp only [JSObject.get, if_true, Option.some.injEq] at hget
      subst hget
      rw [foldl_pool_get_of_not_mem tables k rest _ hk]
      simp [hc, JSObject.get_set_self]
    · simp only [JSObject.get, hkey, if_false] at hget
      exact ih _ hrest hget

theorem get_eq_some_iff_mem {α : Type} (o : JSObject α) (hnd : o.keys.Nodup) (k : String)
    (v : α) : o.get k = some v ↔ (k, v) ∈ o := by
  induction o with
  | nil => simp [JSObject.get]
  | cons e rest ih =>
    obtain ⟨k0, v0⟩ := e
    simp only [JSObject.keys, List.map_cons, List.nodup_cons] at hnd
    obtain ⟨hk, hrest⟩ := hnd
    by_cases hkey : k0 = k
    · subst hkey
      have hnot : (k0, v) ∉ rest := fun h => hk (List.mem_map.mpr ⟨(k0, v), h, rfl⟩)
      simp only [JSObject.get, if_true, Option.some.injEq, List.mem_cons, Prod.mk.injEq,
        true_and, hnot, or_false]
      exact eq_comm
    · have hne : ¬ k = k0 := fun h => hkey h.symm
      simp only [JSObject.get, hkey, if_false, List.mem_cons, Prod.mk.injEq, hne, false_and,
        false_or]
      exact ih hrest

/-- C3, counterexample: in scenario 1 the pool built by
`updateAvailablePlayerDisplay` is `[p1, p2]`, not `[p2]`, although p1 is a key
of roster A; and with an empty attendance map the pool keeps p9, who is not
coming. -/
theorem availablePool_excludes_rostered_counterexample :
    (updateAvailablePlayerDisplay ⟨[], []⟩ true scenario1).availablePlayers.keys = ["p1", "p2"] ∧
      (updateAvailablePlayerDisplay ⟨[], []⟩ true scenario1).availablePlayers.keys ≠ ["p2"] ∧
      "p1" ∈ scenario1.teamAPlayersData.keys ∧
      stalePool.currentAttendanceData = [] ∧
      (updateAvailablePlayerDisplay ⟨[], []⟩ true stalePool).availablePlayers.keys = ["p9"] := by
  have h : (updateAvailablePlayerDisplay ⟨[], []⟩ true scenario1).availablePlayers.keys =
      ["p1", "p2"] := by
    simp [updateAvailablePlayerDisplay, buildAvailablePlayers, scenario1, scenarioEntry,
      JSObject.keys, JSObject.set]
  refine ⟨h, ?_, ?_, rfl, ?_⟩
  · rw [h]; simp
  · simp [scenario1, JSObject.keys]
  · simp [updateAvailablePlayerDisplay, stalePool, JSObject.keys]

/-- C3, amended: for a non-empty attendance map (and with the container
`#available-players` in the document) the pool built by
`updateAvailablePlayerDisplay` consists of exactly the players whose status is
`'coming'`, each merged with its stats, whether or not the id is a key of a
roster; in scenario 1 the pool is `[p1, p2]`. -/
theorem availablePool_coming (tables : StatsTables) (self : TeamPicker) (steamId : String)
    (hne : self.currentAttendanceData ≠ []) (hnd : self.currentAttendanceData.keys.Nodup) :
    (steamId ∈ (updateAvailablePlayerDisplay tables true self).availablePlayers.keys ↔
        ∃ entry, self.currentAttendanceData.get steamId = some entry ∧
          entry.status = "coming") ∧
      (∀ entry, self.currentAttendanceData.get steamId = some entry →
        entry.status = "coming" →
        (updateAvailablePlayerDisplay tables true self).availablePlayers.get steamId =
          some (mergePlayerWithStats tables
            { name := some entry.name, steamId := some steamId,
              status := some entry.status, stats := none })) ∧
      (updateAvailablePlayerDisplay tables true scenario1).availablePlayers.keys =
        ["p1", "p2"] := by
  have hlen : ¬ (JSObject.keys self.currentAttendanceData).length = 0 := by
    simpa [JSObject.keys] using hne
  have hpool : (updateAvailablePlayerDisplay tables true self).availablePlayers =
      buildAvailablePlayers tables self.currentAttendanceData := by
    simp [updateAvailablePlayerDisplay, hlen]
  refine ⟨?_, ?_, ?_⟩
  · rw [hpool]
    unfold buildAvailablePlayers
    rw [foldl_pool_keys]
    constructor
    · rintro (h | ⟨e, he, hk, hc⟩)
      · simp [JSObject.keys] at h
      · obtain ⟨k, entry⟩ := e
        simp only at hk hc
        subst hk
        exact ⟨entry, (get_eq_some_iff_mem _ hnd _ _).mpr he, hc⟩
    · rintro ⟨entry, hget, hc⟩
      exact Or.inr ⟨(steamId, entry), (get_eq_some_iff_mem _ hnd _ _).mp hget, rfl, hc⟩
  · intro entry hget hc
    rw [hpool]
    exact foldl_pool_get tables steamId entry hc _ _ hnd hget
  · simp [updateAvailablePlayerDisplay, buildAvailablePlayers, scenario1, scenarioEntry,
      JSObject.keys, JSObject.set]

theorem availablePool_coming_witness :
    "p1" ∈ (updateAvailablePlayerDisplay ⟨[], []⟩ true scenario1).availablePlayers.keys ∧
      "p3" ∉ (updateAvailablePlayerDisplay ⟨[], []⟩ true scenario1).availablePlayers.keys := by
  have hne : scenario1.currentAttendanceData ≠ [] := by simp [scenario1]
  have hnd : scenario1.currentAttendanceData.keys.Nodup := by
    simp [scenario1, scenarioEntry, JSObject.keys]
  refine ⟨(availablePool_coming ⟨[], []⟩ scenario1 "p1" hne hnd).1.mpr
      ⟨(scenarioEntry "p1" "coming").2, by simp [scenario1, scenarioEntry, JSObject.get], rfl⟩,
    fun h => ?_⟩
  obtain ⟨entry, hget, hc⟩ := (availablePool_coming ⟨[], []⟩ scenario1 "p3" hne hnd).1.mp h
  simp [scenario1, scenarioEntry, JSObject.get] at hget
  subst hget
  simp at hc

/-! ## Normalisation -/

theorem normalize_num_eq {statKey : String} {fixedRanges : JSObject Range} {range : Range}
    (hr : fixedRanges.get statKey = some range) (hne : range.max ≠ range.min) (v : ℚ) :
    normalizeStatWithFixedRange (.num v) statKey fixedRanges =
      max 0 (min 100 ((max range.min (min range.max v) - range.min) /
        (range.max - range.min) * 100)) := by
  simp [normalizeStatWithFixedRange, hr, hne, JSValue.typeofNumber]

theorem normalize_inside {statKey : String} {fixedRanges : JSObject Range} {range : Range}
    (hr : fixedRanges.get statKey = some range) (hlt : range.min < range.max) {v : ℚ}
    (hlo : range.min ≤ v) (hhi : v ≤ range.max) :
    normalizeStatWithFixedRange (.num v) statKey fixedRanges =
      ((v - range.min) / (range.max - range.min)) * 100 := by
  have hpos : 0 < range.max - range.min := sub_pos.mpr hlt
  rw [normalize_num_eq hr (ne_of_gt hlt), min_eq_right hhi, max_eq_right hlo]
  have h0 : 0 ≤ (v - range.min) / (range.max - range.min) :=
    div_nonneg (sub_nonneg.mpr hlo) hpos.le
  have h1 : (v - range.min) / (range.max - range.min) ≤ 1 :=
    (div_le_one hpos).mpr (by linarith)
  rw [min_eq_right (by linarith), max_eq_right (by positivity)]

/-- C4: for every value (a number in particular) and every range with
`min < max`, the result of `normalizeStatWithFixedRange` lies in the closed
interval from 0 to 100. -/
theorem normalize_mem_unit_range (value : JSValue) (statKey : String)
    (fixedRanges : JSObject Range) (range : Range)
    (hr : fixedRanges.get statKey = some range) (hlt : range.min < range.max) :
    0 ≤ normalizeStatWithFixedRange value statKey fixedRanges ∧
      normalizeStatWithFixedRange value statKey fixedRanges ≤ 100 := by
  cases value with
  | num v =>
    rw [normalize_num_eq hr (ne_of_gt hlt)]
    exact ⟨le_max_left _ _, max_le (by norm_num) (min_le_left _ _)⟩
  | _ => simp [normalizeStatWithFixedRange, hr, JSValue.typeofNumber]

theorem normalize_mem_unit_range_witness :
    0 ≤ normalizeStatWithFixedRange (.num 2) "L10_HLTV2" TEAM_CHART_FIXED_RANGES ∧
      normalizeStatWithFixedRange (.num 2) "L10_HLTV2" TEAM_CHART_FIXED_RANGES ≤ 100 :=
  normalize_mem_unit_range (.num 2) "L10_HLTV2" TEAM_CHART_FIXED_RANGES
    { min := 70 / 100, max := 140 / 100 } (by simp [TEAM_CHART_FIXED_RANGES, JSObject.get])
    (by norm_num)

theorem float_normalize_num_eq {statKey : String} {fixedRanges : JSObject Range}
    {range : Range} (hr : fixedRanges.get statKey = some range)
    (hne : range.max ≠ range.min) (v : ℚ) :
    Float64.normalizeStatWithFixedRange (.num v) statKey fixedRanges =
      max 0 (min 100 (jsMul (jsDiv (jsSub (max range.min (min range.max v)) range.min)
        (jsSub range.max range.min)) 100)) := by
  simp [Float64.normalizeStatWithFixedRange, hr, hne, JSValue.typeofNumber]

/-- Inside a range of doubles the rounded linear map stays between 0 and 100,
so both clamps are the identity. -/
theorem float_normalize_inside {statKey : String} {fixedRanges : JSObject Range}
    {range : Range} (hr : fixedRanges.get statKey = some range)
    (hmin : isDouble range.min) (hmax : isDouble range.max)
    (hlt : range.min < range.max) {v : ℚ} (hlo : range.min ≤ v) (hhi : v ≤ range.max) :
    Float64.normalizeStatWithFixedRange (.num v) statKey fixedRanges =
      jsMul (jsDiv (jsSub v range.min) (jsSub range.max range.min)) 100 := by
  rw [float_normalize_num_eq hr (ne_of_gt hlt), min_eq_right hhi, max_eq_right hlo]
  have hw : 0 < jsSub range.max range.min := roundDouble_sub_pos hmin hmax hlt
  have hx0 : 0 ≤ jsSub v range.min := roundDouble_nonneg (sub_nonneg.mpr hlo)
  have hxw : jsSub v range.min ≤ jsSub range.max range.min :=
    roundDouble_mono_of_nonneg (sub_nonneg.mpr hlo) (by linarith)
  have hq0 : 0 ≤ jsDiv (jsSub v range.min) (jsSub range.max range.min) :=
    roundDouble_nonneg (div_nonneg hx0 hw.le)
  have hq1 : jsDiv (jsSub v range.min) (jsSub range.max range.min) ≤ 1 := by
    have := roundDouble_mono_of_nonneg (div_nonneg hx0 hw.le) ((div_le_one hw).mpr hxw)
    rwa [roundDouble_one] at this
  have hp0 : 0 ≤ jsMul (jsDiv (jsSub v range.min) (jsSub range.max range.min)) 100 :=
    roundDouble_nonneg (mul_nonneg hq0 (by norm_num))
  have hp1 : jsMul (jsDiv (jsSub v range.min) (jsSub range.max range.min)) 100 ≤ 100 := by
    have := roundDouble_mono_of_nonneg (mul_nonneg hq0 (by norm_num))
      (show jsDiv (jsSub v range.min) (jsSub range.max range.min) * 100 ≤ 100 by linarith)
    rwa [roundDouble_hundred] at this
  rw [min_eq_right hp1, max_eq_right hp0]

/-- In double arithmetic too, the result lies between 0 and 100. -/
theorem float_normalize_mem_unit_range (value : JSValue) (statKey : String)
    (fixedRanges : JSObject Range) :
    0 ≤ Float64.normalizeStatWithFixedRange value statKey fixedRanges ∧
      Float64.normalizeStatWithFixedRange value statKey fixedRanges ≤ 100 := by
  unfold Float64.normalizeStatWithFixedRange
  cases fixedRanges.get statKey with
  | none => simp
  | some range =>
    dsimp only
    split_ifs
    · simp
    · simp
    · cases value with
      | num v => exact ⟨le_max_left _ _, max_le (by norm_num) (min_le_left _ _)⟩
      | _ => simp

/-- In double arithmetic too, the normalisation is non-decreasing in the value:
every rounded operation of line 31 is monotone on the non-negative numbers it
meets. -/
theorem float_normalize_monotone (v1 v2 : ℚ) (statKey : String)
    (fixedRanges : JSObject Range) (range : Range)
    (hr : fixedRanges.get statKey = some range) (hlt : range.min < range.max)
    (hle : v1 ≤ v2) :
    Float64.normalizeStatWithFixedRange (.num v1) statKey fixedRanges ≤
      Float64.normalizeStatWithFixedRange (.num v2) statKey fixedRanges := by
  rw [float_normalize_num_eq hr (ne_of_gt hlt), float_normalize_num_eq hr (ne_of_gt hlt)]
  have hw : 0 ≤ jsSub range.max range.min := roundDouble_nonneg (sub_nonneg.mpr hlt.le)
  have hc1 : 0 ≤ max range.min (min range.max v1) - range.min :=
    sub_nonneg.mpr (le_max_left _ _)
  have hx1 : 0 ≤ jsSub (max range.min (min range.max v1)) range.min := roundDouble_nonneg hc1
  have hx : jsSub (max range.min (min range.max v1)) range.min ≤
      jsSub (max range.min (min range.max v2)) range.min :=
    roundDouble_mono_of_nonneg hc1
      (sub_le_sub_right (max_le_max le_rfl (min_le_min le_rfl hle)) _)
  have hq1 : 0 ≤ jsDiv (jsSub (max range.min (min range.max v1)) range.min)
      (jsSub range.max range.min) := roundDouble_nonneg (div_nonneg hx1 hw)
  have hq : jsDiv (jsSub (max range.min (min range.max v1)) range.min)
      (jsSub range.max range.min) ≤
      jsDiv (jsSub (max range.min (min range.max v2)) range.min)
        (jsSub range.max range.min) :=
    roundDouble_mono_of_nonneg (div_nonneg hx1 hw) (div_le_div_of_nonneg_right hx hw)
  apply max_le_max le_rfl
  apply min_le_min le_rfl
  exact roundDouble_mono_of_nonneg (mul_nonneg hq1 (by norm_num))
    (mul_le_mul_of_nonneg_right hq (by norm_num))

/-- In double arithmetic too, normalising a number equals normalising it
clamped to the range. -/
theorem float_normalize_clamp (v : ℚ) (statKey : String) (fixedRanges : JSObject Range)
    (range : Range) (hr : fixedRanges.get statKey = some range)
    (hlt : range.min < range.max) :
    Float64.normalizeStatWithFixedRange (.num v) statKey fixedRanges =
      Float64.normalizeStatWithFixedRange (.num (max range.min (min range.max v))) statKey
        fixedRanges := by
  have hne := ne_of_gt hlt
  rw [float_normalize_num_eq hr hne, float_normalize_num_eq hr hne]
  have hclamp : max range.min (min range.max (max range.min (min range.max v))) =
      max range.min (min range.max v) := by
    rw [min_eq_right (max_le hlt.le (min_le_left _ _)), max_eq_right (le_max_left _ _)]
  rw [hclamp]

/-- In double arithmetic too, a value that is not a number, a degenerate range
and a missing range give 0. -/
theorem float_normalize_zero_of_invalid (value : JSValue) (statKey : String)
    (fixedRanges : JSObject Range)
    (h : (∀ q : ℚ, value ≠ .num q) ∨
      (∃ range, fixedRanges.get statKey = some range ∧ range.max = range.min) ∨
      fixedRanges.get statKey = none) :
    Float64.normalizeStatWithFixedRange value statKey fixedRanges = 0 := by
  unfold Float64.normalizeStatWithFixedRange
  rcases h with h | ⟨range, hr, heq⟩ | h
  · cases hget : fixedRanges.get statKey with
    | none => rfl
    | some range =>
      cases value with
      | num q => exact absurd rfl (h q)
      | _ => simp [JSValue.typeofNumber]
  · simp [hr, heq]
  · simp [h]

theorem float_ranges_L10_HLTV2 :
    Float64.TEAM_CHART_FIXED_RANGES.get "L10_HLTV2" =
      some { min := 3152519739159347 / 4503599627370496,
             max := 3152519739159347 / 2251799813685248 } := by
  simp [Float64.TEAM_CHART_FIXED_RANGES, JSObject.get, roundDouble_70, roundDouble_140]

theorem float_ranges_S_ADR :
    Float64.TEAM_CHART_FIXED_RANGES.get "S_ADR" = some { min := 50, max := 100 } := by
  simp [Float64.TEAM_CHART_FIXED_RANGES, JSObject.get, roundDouble_50, roundDouble_hundred]

/-- C5, counterexample: with the fixed range of `L10_HLTV2` (0.70 to 1.40) the
average 1.05 normalises to 50.000000000000014, which is neither 50 nor
`((v - min) / (max - min)) * 100` of the three doubles. -/
theorem normalize_linear_inside_counterexample :
    Float64.normalizeStatWithFixedRange (.num (roundDouble (105 / 100))) "L10_HLTV2"
        Float64.TEAM_CHART_FIXED_RANGES = 3518437208883201 / 70368744177664 ∧
      (3518437208883201 / 70368744177664 : ℚ) ≠ 50 ∧
      (3518437208883201 / 70368744177664 : ℚ) ≠
        ((roundDouble (105 / 100) - roundDouble (70 / 100)) /
          (roundDouble (140 / 100) - roundDouble (70 / 100))) * 100 := by
  have hmin : isDouble (3152519739159347 / 4503599627370496) := by
    unfold isDouble
    rw [roundDouble_eq (-53) 6305039478318694 (by norm_num) (by norm_num [abs_of_pos])
      (by norm_num [abs_of_pos]) (by norm_num [abs_lt])]
    norm_num
  have hmax : isDouble (3152519739159347 / 2251799813685248) := by
    unfold isDouble
    rw [roundDouble_eq (-52) 6305039478318694 (by norm_num) (by norm_num [abs_of_pos])
      (by norm_num [abs_of_pos]) (by norm_num [abs_lt])]
    norm_num
  have hsub : jsSub (4728779608739021 / 4503599627370496)
      (3152519739159347 / 4503599627370496) = 788129934789837 / 2251799813685248 := by
    unfold jsSub
    rw [roundDouble_eq (-54) 6305039478318696 (by norm_num) (by norm_num [abs_of_pos])
      (by norm_num [abs_of_pos]) (by norm_num [abs_lt])]
    norm_num
  have hwidth : jsSub (3152519739159347 / 2251799813685248)
      (3152519739159347 / 4503599627370496) = 3152519739159347 / 4503599627370496 := by
    unfold jsSub
    rw [roundDouble_eq (-53) 6305039478318694 (by norm_num) (by norm_num [abs_of_pos])
      (by norm_num [abs_of_pos]) (by norm_num [abs_lt])]
    norm_num
  have hdiv : jsDiv (788129934789837 / 2251799813685248)
      (3152519739159347 / 4503599627370496) = 4503599627370497 / 9007199254740992 := by
    unfold jsDiv
    rw [roundDouble_eq (-53) 4503599627370497 (by norm_num) (by norm_num [abs_of_pos])
      (by norm_num [abs_of_pos]) (by norm_num [abs_lt])]
    norm_num
  have hmul : jsMul (4503599627370497 / 9007199254740992) 100 =
      3518437208883201 / 70368744177664 := by
    unfold jsMul
    rw [roundDouble_eq (-47) 7036874417766402 (by norm_num) (by norm_num [abs_of_pos])
      (by norm_num [abs_of_pos]) (by norm_num [abs_lt])]
    norm_num
  refine ⟨?_, by norm_num, ?_⟩
  · rw [roundDouble_105,
      float_normalize_inside float_ranges_L10_HLTV2 hmin hmax (by norm_num) (by norm_num)
        (by norm_num)]
    dsimp only
    rw [hsub, hwidth, hdiv, hmul]
  · rw [roundDouble_105, roundDouble_70, roundDouble_140]
    norm_num

/-- C5, amended: for a range of doubles with `min < max` and a number `v` with
`min ≤ v ≤ max`, `normalizeStatWithFixedRange` returns
`((v - min) / (max - min)) * 100` with each of the three operations rounded to
the nearest double; it maps `min` to 0 and `max` to 100. -/
theorem normalize_linear_inside (v : ℚ) (statKey : String) (fixedRanges : JSObject Range)
    (range : Range) (hr : fixedRanges.get statKey = some range)
    (hmin : isDouble range.min) (hmax : isDouble range.max)
    (hlt : range.min < range.max) (hlo : range.min ≤ v) (hhi : v ≤ range.max) :
    Float64.normalizeStatWithFixedRange (.num v) statKey fixedRanges =
        jsMul (jsDiv (jsSub v range.min) (jsSub range.max range.min)) 100 ∧
      Float64.normalizeStatWithFixedRange (.num range.min) statKey fixedRanges = 0 ∧
      Float64.normalizeStatWithFixedRange (.num range.max) statKey fixedRanges = 100 := by
  have hw : jsSub range.max range.min ≠ 0 := (roundDouble_sub_pos hmin hmax hlt).ne'
  refine ⟨float_normalize_inside hr hmin hmax hlt hlo hhi, ?_, ?_⟩
  · rw [float_normalize_inside hr hmin hmax hlt le_rfl hlt.le]
    simp [jsSub, jsDiv, jsMul, roundDouble_zero]
  · rw [float_normalize_inside hr hmin hmax hlt hlt.le le_rfl]
    unfold jsDiv jsMul
    rw [div_self hw, roundDouble_one, one_mul, roundDouble_hundred]

theorem normalize_linear_inside_witness :
    Float64.normalizeStatWithFixedRange (.num 75) "S_ADR" Float64.TEAM_CHART_FIXED_RANGES =
        jsMul (jsDiv (jsSub 75 50) (jsSub 100 50)) 100 ∧
      Float64.normalizeStatWithFixedRange (.num 50) "S_ADR" Float64.TEAM_CHART_FIXED_RANGES =
        0 ∧
      Float64.normalizeStatWithFixedRange (.num 100) "S_ADR" Float64.TEAM_CHART_FIXED_RANGES =
        100 :=
  normalize_linear_inside 75 "S_ADR" Float64.TEAM_CHART_FIXED_RANGES { min := 50, max := 100 }
    float_ranges_S_ADR roundDouble_50 roundDouble_hundred (by norm_num) (by norm_num)
    (by norm_num)

/-- C6: for a range with `min < max`, `normalizeStatWithFixedRange` is
non-decreasing in its value argument. -/
theorem normalize_monotone (v1 v2 : ℚ) (statKey : String) (fixedRanges : JSObject Range)
    (range : Range) (hr : fixedRanges.get statKey = some range)
    (hlt : range.min < range.max) (hle : v1 ≤ v2) :
    normalizeStatWithFixedRange (.num v1) statKey fixedRanges ≤
      normalizeStatWithFixedRange (.num v2) statKey fixedRanges := by
  have hpos : 0 < range.max - range.min := sub_pos.mpr hlt
  rw [normalize_num_eq hr (ne_of_gt hlt), normalize_num_eq hr (ne_of_gt hlt)]
  apply max_le_max le_rfl
  apply min_le_min le_rfl
  apply mul_le_mul_of_nonneg_right _ (by norm_num)
  apply div_le_div_of_nonneg_right _ hpos.le
  apply sub_le_sub_right
  exact max_le_max le_rfl (min_le_min le_rfl hle)

theorem normalize_monotone_witness :
    normalizeStatWithFixedRange (.num 60) "L10_ADR" TEAM_CHART_FIXED_RANGES ≤
      normalizeStatWithFixedRange (.num 120) "L10_ADR" TEAM_CHART_FIXED_RANGES :=
  normalize_monotone 60 120 "L10_ADR" TEAM_CHART_FIXED_RANGES { min := 50, max := 100 }
    (by simp [TEAM_CHART_FIXED_RANGES, JSObject.get]) (by norm_num) (by norm_num)

/-- C7: for a range with `min < max`, normalising a number below `min` gives
the result at `min`, normalising a number above `max` gives the result at
`max`, and normalising any number equals normalising it clamped to the range. -/
theorem normalize_clamp (v : ℚ) (statKey : String) (fixedRanges : JSObject Range)
    (range : Range) (hr : fixedRanges.get statKey = some range)
    (hlt : range.min < range.max) :
    (v < range.min → normalizeStatWithFixedRange (.num v) statKey fixedRanges =
        normalizeStatWithFixedRange (.num range.min) statKey fixedRanges) ∧
      (range.max < v → normalizeStatWithFixedRange (.num v) statKey fixedRanges =
        normalizeStatWithFixedRange (.num range.max) statKey fixedRanges) ∧
      normalizeStatWithFixedRange (.num v) statKey fixedRanges =
        normalizeStatWithFixedRange (.num (max range.min (min range.max v))) statKey
          fixedRanges := by
  have hne := ne_of_gt hlt
  refine ⟨fun h => ?_, fun h => ?_, ?_⟩
  · rw [normalize_num_eq hr hne, normalize_num_eq hr hne,
      min_eq_right (h.le.trans hlt.le), max_eq_left h.le, min_eq_right hlt.le, max_eq_left le_rfl]
  · rw [normalize_num_eq hr hne, normalize_num_eq hr hne,
      min_eq_left h.le, max_eq_right hlt.le, min_eq_left le_rfl, max_eq_right hlt.le]
  · rw [normalize_num_eq hr hne, normalize_num_eq hr hne]
    congr 5
    rcases le_total v range.max with h | h
    · rw [min_eq_right h]
      rcases le_total v range.min with h' | h'
      · rw [max_eq_left h', min_eq_right hlt.le, max_eq_left le_rfl]
      · rw [max_eq_right h', min_eq_right h, max_eq_right h']
    · rw [min_eq_left h, max_eq_right hlt.le, min_eq_left le_rfl, max_eq_right hlt.le]

theorem normalize_clamp_witness :
    ((30 : ℚ) < 50 → normalizeStatWithFixedRange (.num 30) "S_ADR" TEAM_CHART_FIXED_RANGES =
        normalizeStatWithFixedRange (.num 50) "S_ADR" TEAM_CHART_FIXED_RANGES) ∧
      ((100 : ℚ) < 30 → normalizeStatWithFixedRange (.num 30) "S_ADR" TEAM_CHART_FIXED_RANGES =
        normalizeStatWithFixedRange (.num 100) "S_ADR" TEAM_CHART_FIXED_RANGES) ∧
      normalizeStatWithFixedRange (.num 30) "S_ADR" TEAM_CHART_FIXED_RANGES =
        normalizeStatWithFixedRange (.num (max 50 (min 100 30))) "S_ADR"
          TEAM_CHART_FIXED_RANGES :=
  normalize_clamp 30 "S_ADR" TEAM_CHART_FIXED_RANGES { min := 50, max := 100 }
    (by simp [TEAM_CHART_FIXED_RANGES, JSObject.get]) (by norm_num)

/-- C8: `normalizeStatWithFixedRange` returns 0 whenever the value is not a
number (`undefined`, `null`, `NaN`, a string, a boolean), whenever the range of
the key has `max` equal to `min`, and whenever the key has no range in the
table. -/
theorem normalize_zero_of_invalid (value : JSValue) (statKey : String)
    (fixedRanges : JSObject Range)
    (h : (∀ q : ℚ, value ≠ .num q) ∨
      (∃ range, fixedRanges.get statKey = some range ∧ range.max = range.min) ∨
      fixedRanges.get statKey = none) :
    normalizeStatWithFixedRange value statKey fixedRanges = 0 := by
  unfold normalizeStatWithFixedRange
  rcases h with h | ⟨range, hr, heq⟩ | h
  · cases hget : fixedRanges.get statKey with
    | none => rfl
    | some range =>
      cases value with
      | num q => exact absurd rfl (h q)
      | _ => simp [JSValue.typeofNumber]
  · simp [hr, heq]
  · simp [h]

theorem normalize_zero_of_invalid_witness :
    normalizeStatWithFixedRange .undefined "L10_HLTV2" TEAM_CHART_FIXED_RANGES = 0 ∧
      normalizeStatWithFixedRange (.num 1) "K" [("K", { min := 3, max := 3 })] = 0 ∧
      normalizeStatWithFixedRange (.num 1) "S_KD" TEAM_CHART_FIXED_RANGES = 0 :=
  ⟨normalize_zero_of_invalid .undefined "L10_HLTV2" TEAM_CHART_FIXED_RANGES
      (Or.inl (fun _ h => JSValue.noConfusion h)),
    normalize_zero_of_invalid (.num 1) "K" [("K", { min := 3, max := 3 })]
      (Or.inr (Or.inl ⟨{ min := 3, max := 3 }, by simp [JSObject.get], rfl⟩)),
    normalize_zero_of_invalid (.num 1) "S_KD" TEAM_CHART_FIXED_RANGES
      (Or.inr (Or.inr (by simp [TEAM_CHART_FIXED_RANGES, JSObject.get])))⟩

/-! ## Cyclic state controls -/

theorem indexOf_getElem_eq {states : List String} (hnd : states.Nodup) {i : ℕ}
    (hi : i < states.length) : indexOf states states[i] = (i : Int) := by
  unfold indexOf
  rw [if_pos (List.getElem_mem _), List.indexOf_getElem hnd i hi]

theorem arrayAt_jsMod_natCast (states : List String) (hne : states ≠ []) (m : ℕ) :
    arrayAt states (jsMod (m : Int) (states.length : Int)) = states[m % states.length]? := by
  have hlen : (states.length : Int) ≠ 0 := by
    simpa using hne
  have h : Int.tmod (m : Int) (states.length : Int) = ((m % states.length : ℕ) : Int) :=
    (Int.ofNat_tmod m states.length).symm
  simp only [jsMod, if_neg hlen, arrayAt, h]
  rw [if_pos (Int.ofNat_zero_le _), Int.toNat_ofNat]

theorem arrayAt_right {states : List String} (hnd : states.Nodup) {i : ℕ}
    (hi : i < states.length) :
    arrayAt states (jsMod (indexOf states states[i] + 1) (states.length : Int)) =
      states[(i + 1) % states.length]? := by
  have hne : states ≠ [] := by rintro rfl; simp at hi
  rw [indexOf_getElem_eq hnd hi, ← arrayAt_jsMod_natCast states hne (i + 1)]
  norm_cast

theorem arrayAt_left {states : List String} (hnd : states.Nodup) {i : ℕ}
    (hi : i < states.length) :
    arrayAt states (jsMod (indexOf states states[i] - 1 + (states.length : Int))
        (states.length : Int)) =
      states[(i + states.length - 1) % states.length]? := by
  have hne : states ≠ [] := by rintro rfl; simp at hi
  rw [indexOf_getElem_eq hnd hi, ← arrayAt_jsMod_natCast states hne (i + states.length - 1)]
  congr 2
  omega

theorem iterate_cycle (f : Option String → Option String) (states : List String)
    (hstep : ∀ i, i < states.length → f states[i]? = states[(i + 1) % states.length]?) :
    ∀ k i, i < states.length → f^[k] states[i]? = states[(i + k) % states.length]? := by
  intro k
  induction k with
  | zero => intro i hi; simp [Nat.mod_eq_of_lt hi]
  | succ k ih =>
    intro i hi
    rw [Function.iterate_succ_apply, hstep i hi, ih _ (Nat.mod_lt _ (by omega)),
      Nat.mod_add_mod, Nat.add_assoc, Nat.add_comm 1 k]

theorem iterate_length_cycle (f : Option String → Option String) (states : List String)
    (hstep : ∀ i, i < states.length → f states[i]? = states[(i + 1) % states.length]?)
    {s : String} (hs : s ∈ states) : f^[states.length] (some s) = some s := by
  obtain ⟨i, hi, rfl⟩ := List.getElem_of_mem hs
  have h := iterate_cycle f states hstep states.length i hi
  rw [Nat.add_mod_right, Nat.mod_eq_of_lt hi, List.getElem?_eq_getElem hi] at h
  exact h

theorem left_right_index {n i : ℕ} (hi : i < n) :
    ((i + n - 1) % n + 1) % n = i ∧ ((i + 1) % n + n - 1) % n = i := by
  constructor
  · rw [Nat.mod_add_mod, show i + n - 1 + 1 = i + n by omega, Nat.add_mod_right,
      Nat.mod_eq_of_lt hi]
  · have h1 : (i + 1) % n + n - 1 = (i + 1) % n + (n - 1) := by omega
    rw [h1, Nat.mod_add_mod, show i + 1 + (n - 1) = i + n by omega, Nat.add_mod_right,
      Nat.mod_eq_of_lt hi]

theorem emojiControls_step_right {states : List String} (hnd : states.Nodup) {i : ℕ}
    (hi : i < states.length) :
    EmojiControls.step states .right states[i]? = states[(i + 1) % states.length]? := by
  have hidx : ¬ ((i : Int) = -1) := by omega
  rw [List.getElem?_eq_getElem hi, ← arrayAt_right hnd hi]
  simp [EmojiControls.step, EmojiControls.handleInteraction, indexOf_getElem_eq hnd hi, hidx]

theorem emojiControls_step_left {states : List String} (hnd : states.Nodup) {i : ℕ}
    (hi : i < states.length) :
    EmojiControls.step states .left states[i]? =
      states[(i + states.length - 1) % states.length]? := by
  have hidx : ¬ ((i : Int) = -1) := by omega
  rw [List.getElem?_eq_getElem hi, ← arrayAt_left hnd hi]
  simp [EmojiControls.step, EmojiControls.handleInteraction, indexOf_getElem_eq hnd hi, hidx]

theorem cycleIndex_right {states : List String} (hnd : states.Nodup) {i : ℕ}
    (hi : i < states.length) :
    cycleIndex states states[i] "right" = states[(i + 1) % states.length]? := by
  have hd : ¬ ("right" = "left") := by decide
  rw [← arrayAt_right hnd hi]
  simp [cycleIndex, hd]

theorem cycleIndex_left {states : List String} (hnd : states.Nodup) {i : ℕ}
    (hi : i < states.length) :
    cycleIndex states states[i] "left" =
      states[(i + states.length - 1) % states.length]? := by
  rw [← arrayAt_left hnd hi]
  simp [cycleIndex]

theorem attributeOr_some_of_ne {s fallback : String} (h : s ≠ "") :
    attributeOr (some s) fallback = s := by
  simp [attributeOr, h]

theorem attendanceStep_eq (self : AttendanceModule) (direction : String)
    (hd : direction ≠ "") {i : ℕ} (hi : i < self.ATTENDANCE_STATES.length)
    (hempty : "" ∉ self.ATTENDANCE_STATES) :
    self.attendanceStep direction self.ATTENDANCE_STATES[i]? =
      cycleIndex self.ATTENDANCE_STATES self.ATTENDANCE_STATES[i] direction := by
  have hs : self.ATTENDANCE_STATES[i] ≠ "" := fun h => hempty (h ▸ List.getElem_mem _)
  rw [List.getElem?_eq_getElem hi]
  simp [AttendanceModule.attendanceStep, AttendanceModule.handlePlayerListClick,
    attributeOr_some_of_ne hs, hd, SyncCall.newState]

theorem emojiStep_eq (self : AttendanceModule) (direction : String)
    (hd : direction ≠ "") {i : ℕ} (hi : i < self.EMOJI_STATES.length)
    (hempty : "" ∉ self.EMOJI_STATES) :
    self.emojiStep direction self.EMOJI_STATES[i]? =
      cycleIndex self.EMOJI_STATES self.EMOJI_STATES[i] direction := by
  have hs : self.EMOJI_STATES[i] ≠ "" := fun h => hempty (h ▸ List.getElem_mem _)
  rw [List.getElem?_eq_getElem hi]
  simp [AttendanceModule.emojiStep, AttendanceModule.handlePlayerListClick,
    attributeOr_some_of_ne hs, hd, SyncCall.newState]

theorem attendance_lists_wellformed :
    Attendance.ATTENDANCE_STATES.Nodup ∧ "" ∉ Attendance.ATTENDANCE_STATES ∧
      Attendance.EMOJI_STATES.Nodup ∧ "" ∉ Attendance.EMOJI_STATES ∧
      Attendance.ATTENDANCE_STATES.length = 3 ∧ Attendance.EMOJI_STATES.length = 12 := by
  refine ⟨?_, ?_, ?_, ?_, rfl, rfl⟩ <;> simp [Attendance]

/-- C9: for a non-empty order list with distinct entries and a state that
occurs in it, `states.length` steps to the right return to the starting state.
This holds for `EmojiControls.handleInteraction` with any such list, and for the
attendance cycle (3 states) and the emoji cycle (12 states) of
`Attendance.handlePlayerListClick`. -/
theorem cycle_right_length_times (states : List String) (s : String) (_hne : states ≠ [])
    (hnd : states.Nodup) (hs : s ∈ states) :
    (EmojiControls.step states .right)^[states.length] (some s) = some s ∧
      (∀ a ∈ Attendance.ATTENDANCE_STATES,
        (Attendance.attendanceStep "right")^[3] (some a) = some a) ∧
      (∀ e ∈ Attendance.EMOJI_STATES, (Attendance.emojiStep "right")^[12] (some e) = some e) := by
  obtain ⟨hndA, heA, hndE, heE, hlenA, hlenE⟩ := attendance_lists_wellformed
  have hr : ("right" : String) ≠ "" := by decide
  refine ⟨?_, ?_, ?_⟩
  · exact iterate_length_cycle _ states (fun i hi => emojiControls_step_right hnd hi) hs
  · intro a ha
    have h := iterate_length_cycle (Attendance.attendanceStep "right")
      Attendance.ATTENDANCE_STATES
      (fun i hi => by rw [attendanceStep_eq _ _ hr hi heA, cycleIndex_right hndA hi]) ha
    rwa [hlenA] at h
  · intro e he
    have h := iterate_length_cycle (Attendance.emojiStep "right") Attendance.EMOJI_STATES
      (fun i hi => by rw [emojiStep_eq _ _ hr hi heE, cycleIndex_right hndE hi]) he
    rwa [hlenE] at h

theorem cycle_right_length_times_witness :
    (EmojiControls.step ["normal", "tired", "sick"] .right)^[3] (some "tired") = some "tired" ∧
      (∀ a ∈ Attendance.ATTENDANCE_STATES,
        (Attendance.attendanceStep "right")^[3] (some a) = some a) ∧
      (∀ e ∈ Attendance.EMOJI_STATES, (Attendance.emojiStep "right")^[12] (some e) = some e) :=
  cycle_right_length_times ["normal", "tired", "sick"] "tired" (by decide) (by decide)
    (by decide)

/-- C10: for a non-empty order list with distinct entries and a state that
occurs in it, a step to the right followed by a step to the left yields the
starting state, and so does a step to the left followed by a step to the
right; this holds for `EmojiControls.handleInteraction` with any such list and
for both cycles of `Attendance.handlePlayerListClick`. -/
theorem cycle_right_left_inverse (states : List String) (s : String) (_hne : states ≠ [])
    (hnd : states.Nodup) (hs : s ∈ states) :
    EmojiControls.step states .left (EmojiControls.step states .right (some s)) = some s ∧
      EmojiControls.step states .right (EmojiControls.step states .left (some s)) = some s ∧
      (∀ a ∈ Attendance.ATTENDANCE_STATES,
        Attendance.attendanceStep "left" (Attendance.attendanceStep "right" (some a)) = some a ∧
        Attendance.attendanceStep "right" (Attendance.attendanceStep "left" (some a)) = some a) ∧
      (∀ e ∈ Attendance.EMOJI_STATES,
        Attendance.emojiStep "left" (Attendance.emojiStep "right" (some e)) = some e ∧
        Attendance.emojiStep "right" (Attendance.emojiStep "left" (some e)) = some e) := by
  obtain ⟨hndA, heA, hndE, heE, -, -⟩ := attendance_lists_wellformed
  have hr : ("right" : String) ≠ "" := by decide
  have hl : ("left" : String) ≠ "" := by decide
  have hpos : ∀ {l : List String} {i : ℕ}, i < l.length → 0 < l.length := fun h => by omega
  refine ⟨?_, ?_, ?_, ?_⟩
  · obtain ⟨i, hi, rfl⟩ := List.getElem_of_mem hs
    have hi' := Nat.mod_lt (i + 1) (hpos hi)
    rw [← List.getElem?_eq_getElem hi, emojiControls_step_right hnd hi,
      emojiControls_step_left hnd hi', (left_right_index hi).2]
  · obtain ⟨i, hi, rfl⟩ := List.getElem_of_mem hs
    have hi' := Nat.mod_lt (i + states.length - 1) (hpos hi)
    rw [← List.getElem?_eq_getElem hi, emojiControls_step_left hnd hi,
      emojiControls_step_right hnd hi', (left_right_index hi).1]
  · intro a ha
    obtain ⟨i, hi, rfl⟩ := List.getElem_of_mem ha
    have h1 := Nat.mod_lt (i + 1) (hpos hi)
    have h2 := Nat.mod_lt (i + Attendance.ATTENDANCE_STATES.length - 1) (hpos hi)
    rw [← List.getElem?_eq_getElem hi]
    constructor
    · rw [attendanceStep_eq _ _ hr hi heA, cycleIndex_right hndA hi,
        attendanceStep_eq _ _ hl h1 heA, cycleIndex_left hndA h1, (left_right_index hi).2]
    · rw [attendanceStep_eq _ _ hl hi heA, cycleIndex_left hndA hi,
        attendanceStep_eq _ _ hr h2 heA, cycleIndex_right hndA h2, (left_right_index hi).1]
  · intro e he
    obtain ⟨i, hi, rfl⟩ := List.getElem_of_mem he
    have h1 := Nat.mod_lt (i + 1) (hpos hi)
    have h2 := Nat.mod_lt (i + Attendance.EMOJI_STATES.length - 1) (hpos hi)
    rw [← List.getElem?_eq_getElem hi]
    constructor
    · rw [emojiStep_eq _ _ hr hi heE, cycleIndex_right hndE hi,
        emojiStep_eq _ _ hl h1 heE, cycleIndex_left hndE h1, (left_right_index hi).2]
    · rw [emojiStep_eq _ _ hl hi heE, cycleIndex_left hndE hi,
        emojiStep_eq _ _ hr h2 heE, cycleIndex_right hndE h2, (left_right_index hi).1]

theorem cycle_right_left_inverse_witness :
    EmojiControls.step ["normal", "tired", "sick"] .left
        (EmojiControls.step ["normal", "tired", "sick"] .right (some "sick")) = some "sick" ∧
      EmojiControls.step ["normal", "tired", "sick"] .right
        (EmojiControls.step ["normal", "tired", "sick"] .left (some "sick")) = some "sick" ∧
      (∀ a ∈ Attendance.ATTENDANCE_STATES,
        Attendance.attendanceStep "left" (Attendance.attendanceStep "right" (some a)) = some a ∧
        Attendance.attendanceStep "right" (Attendance.attendanceStep "left" (some a)) = some a) ∧
      (∀ e ∈ Attendance.EMOJI_STATES,
        Attendance.emojiStep "left" (Attendance.emojiStep "right" (some e)) = some e ∧
        Attendance.emojiStep "right" (Attendance.emojiStep "left" (some e)) = some e) :=
  cycle_right_left_inverse ["normal", "tired", "sick"] "sick" (by decide) (by decide)
    (by decide)

theorem indexOf_of_not_mem {states : List String} {state : String} (h : state ∉ states) :
    indexOf states state = -1 := by
  simp [indexOf, h]

/-- C11: in `EmojiControls.handleInteraction`, for an order list of length at
least 2 and a current state that does not occur in it, the state is treated as
index 0: direction left selects the last entry of the list and direction right
selects the entry at index 1. -/
theorem handleInteraction_unknown_state (emojiStates : List String) (currentEmoji : String)
    (hlen : 2 ≤ emojiStates.length) (hnot : currentEmoji ∉ emojiStates) :
    (∃ last, emojiStates.getLast? = some last ∧
        EmojiControls.handleInteraction false emojiStates currentEmoji .left =
          some (some last)) ∧
      (∃ second, emojiStates[1]? = some second ∧
        EmojiControls.handleInteraction false emojiStates currentEmoji .right =
          some (some second)) := by
  have hne : emojiStates ≠ [] := by rintro rfl; simp at hlen
  have hleft : ((0 : Int) - 1 + (emojiStates.length : Int)) =
      ((emojiStates.length - 1 : ℕ) : Int) := by omega
  have hright : ((0 : Int) + 1) = ((1 : ℕ) : Int) := by norm_num
  have h1 : 1 < emojiStates.length := by omega
  have hlast : emojiStates.length - 1 < emojiStates.length := by omega
  refine ⟨⟨emojiStates[emojiStates.length - 1], ?_, ?_⟩, ⟨emojiStates[1], ?_, ?_⟩⟩
  · rw [List.getLast?_eq_getElem?, List.getElem?_eq_getElem hlast]
  · simp only [EmojiControls.handleInteraction, indexOf_of_not_mem hnot, Bool.false_eq_true,
      ↓reduceIte, hleft]
    rw [arrayAt_jsMod_natCast emojiStates hne, Nat.mod_eq_of_lt hlast,
      List.getElem?_eq_getElem hlast]
  · exact List.getElem?_eq_getElem h1
  · simp only [EmojiControls.handleInteraction, indexOf_of_not_mem hnot, Bool.false_eq_true,
      ↓reduceIte, hright]
    rw [arrayAt_jsMod_natCast emojiStates hne, Nat.mod_eq_of_lt h1,
      List.getElem?_eq_getElem h1]

theorem handleInteraction_unknown_state_witness :
    (∃ last, ["normal", "tired", "sick"].getLast? = some last ∧
        EmojiControls.handleInteraction false ["normal", "tired", "sick"] "happy" .left =
          some (some last)) ∧
      (∃ second, ["normal", "tired", "sick"][1]? = some second ∧
        EmojiControls.handleInteraction false ["normal", "tired", "sick"] "happy" .right =
          some (some second)) :=
  handleInteraction_unknown_state ["normal", "tired", "sick"] "happy" (by decide) (by decide)

/-- C12, the code at the failing input: in `Attendance.handlePlayerListClick`
a state that is not in the list keeps the index `-1`, so direction left
selects the entry before the last and direction right selects the first
entry, in the emoji cycle and in the attendance cycle. -/
theorem handlePlayerListClick_unknown_state :
    Attendance.handlePlayerListClick (.emojiControl (some "happy") (some "left")) =
        .emoji (some "sikimin_keyfi") ∧
      Attendance.handlePlayerListClick (.emojiControl (some "happy") (some "right")) =
        .emoji (some "normal") ∧
      Attendance.handlePlayerListClick (.attendanceControl (some "maybe") (some "left")) =
        .attendance (some "no_response") ∧
      Attendance.handlePlayerListClick (.attendanceControl (some "maybe") (some "right")) =
        .attendance (some "not_coming") ∧
      Attendance.EMOJI_STATES.getLast? = some "dokuzda_haber" ∧
      Attendance.EMOJI_STATES[1]? = some "tired" ∧
      Attendance.ATTENDANCE_STATES.getLast? = some "coming" ∧
      Attendance.ATTENDANCE_STATES[1]? = some "no_response" := by
  decide

/-! ## Merging a player with the stat tables -/

/-- C20: for a player with a steam id, `mergePlayerWithStats` sets `L10_HLTV2`,
`L10_ADR`, `L10_KD` to the `hltv_2`, `adr`, `kd` of the last-10 record of the id
and `S_HLTV2`, `S_ADR`, `S_KD` to those of the season record; when a table has
no record for the id its three fields stay `undefined`; the other fields of the
player are kept; and a player without a steam id gets an empty stats object. -/
theorem mergePlayerWithStats_fields (tables : StatsTables) (player : Player)
    (steamId : String) (hid : player.steamId = some steamId) (hne : steamId ≠ "") :
    (∃ stats, (mergePlayerWithStats tables player).stats = some stats ∧
        (∀ last10, tables.getLast10StatsBySteamId steamId = some last10 →
          stats.L10_HLTV2 = last10.hltv_2 ∧ stats.L10_ADR = last10.adr ∧
            stats.L10_KD = last10.kd) ∧
        (tables.getLast10StatsBySteamId steamId = none →
          stats.L10_HLTV2 = .undefined ∧ stats.L10_ADR = .undefined ∧
            stats.L10_KD = .undefined) ∧
        (∀ season, tables.getSeasonStatsBySteamId steamId = some season →
          stats.S_HLTV2 = season.hltv_2 ∧ stats.S_ADR = season.adr ∧ stats.S_KD = season.kd) ∧
        (tables.getSeasonStatsBySteamId steamId = none →
          stats.S_HLTV2 = .undefined ∧ stats.S_ADR = .undefined ∧ stats.S_KD = .undefined)) ∧
      (mergePlayerWithStats tables player).name = player.name ∧
      (mergePlayerWithStats tables player).steamId = player.steamId ∧
      (mergePlayerWithStats tables player).status = player.status ∧
      (∀ other : Player, other.steamId = none ∨ other.steamId = some "" →
        (mergePlayerWithStats tables other).stats = some {}) := by
  refine ⟨?_, ?_, ?_, ?_, ?_⟩
  · cases h10 : tables.getLast10StatsBySteamId steamId <;>
      cases hs : tables.getSeasonStatsBySteamId steamId <;>
      simp [mergePlayerWithStats, hid, hne, h10, hs]
  · simp [mergePlayerWithStats, hid, hne]
  · simp [mergePlayerWithStats, hid, hne]
  · simp [mergePlayerWithStats, hid, hne]
  · rintro other (h | h) <;> simp [mergePlayerWithStats, h]

theorem mergePlayerWithStats_fields_witness :
    (mergePlayerWithStats scenarioTables (scenarioPlayer "p1" .undefined)).stats =
      some { L10_HLTV2 := .num 1, L10_ADR := .num 80, L10_KD := .null } := by
  obtain ⟨⟨stats, hstats, h10, -, -, hs⟩, -⟩ :=
    mergePlayerWithStats_fields scenarioTables (scenarioPlayer "p1" .undefined) "p1" rfl
      (by decide)
  obtain ⟨a, b, c⟩ := h10 scenarioRecord
    (by simp [StatsTables.getLast10StatsBySteamId, scenarioTables, JSObject.get])
  obtain ⟨d, e, f⟩ := hs
    (by simp [StatsTables.getSeasonStatsBySteamId, scenarioTables, JSObject.get])
  rw [hstats]
  obtain ⟨s1, s2, s3, s4, s5, s6⟩ := stats
  dsimp only [scenarioRecord] at a b c d e f
  subst a b c d e f
  rfl

/-! ## Canonicalisation of the attendance snapshot -/

theorem canonicalEntry_none (key : String) : canonicalEntry key none = none := rfl

theorem canonicalEntry_nameKeyed (key : String) (data : RawAttendance) (status : String)
    (hid : data.steamId.truthy = true) (hstatus : data.status = some status)
    (hs : status ≠ "") (hkey : key ≠ "") :
    canonicalEntry key (some data) =
      some (data.steamId.toStr,
        { name := key, status := status, steamId := data.steamId.toStr }) := by
  simp [canonicalEntry, processAttendanceEntry, storeEntry, hid, hstatus, hs, hkey, truthy,
    JSObject.set]

theorem RawId.truthy_str (s : String) : (RawId.str s).truthy = decide (s ≠ "") := rfl

theorem RawId.toStr_str (s : String) : (RawId.str s).toStr = s := rfl

theorem canonicalEntry_idKeyed (key : String) (data : RawAttendance) (name status : String)
    (hid : data.steamId.truthy = false) (hname : data.name = some name) (hn : name ≠ "")
    (hstatus : data.status = some status) (hs : status ≠ "") (hkey : key ≠ "") :
    canonicalEntry key (some data) =
      some (key, { name := name, status := status, steamId := key }) := by
  simp [canonicalEntry, processAttendanceEntry, storeEntry, hid, hname, hn, hstatus, hs, hkey,
    truthy, JSObject.set, RawId.truthy_str, RawId.toStr_str]

theorem canonicalEntry_eq_none_iff (key : String) (playerData : Option RawAttendance) :
    canonicalEntry key playerData = none ↔
      key = "" ∨ playerData = none ∨
        ∃ data, playerData = some data ∧
          (truthy data.status = false ∨
            (data.steamId.truthy = false ∧ truthy data.name = false)) := by
  cases playerData with
  | none => simp [canonicalEntry_none]
  | some data =>
    obtain ⟨steamId, name, status⟩ := data
    by_cases hkey : key = ""
    · subst hkey
      by_cases h1 : steamId.truthy = true <;> by_cases h2 : truthy status = true <;>
        by_cases h3 : truthy name = true <;>
        simp [canonicalEntry, processAttendanceEntry, storeEntry, h1, h2, h3, RawId.truthy_str]
    · by_cases h1 : steamId.truthy = true <;> by_cases h2 : truthy status = true <;>
        by_cases h3 : truthy name = true
      all_goals
        cases status with
        | none => simp [truthy] at h2 ⊢ <;> simp [canonicalEntry, processAttendanceEntry, truthy]
        | some st =>
          cases name with
          | none =>
            simp [truthy] at h2 h3 ⊢ <;>
              simp [canonicalEntry, processAttendanceEntry, storeEntry, h1, h2, hkey, truthy,
                JSObject.set, RawId.truthy_str]
          | some nm =>
            simp [truthy] at h2 h3 ⊢
            simp [canonicalEntry, processAttendanceEntry, storeEntry, h1, h2, h3, hkey, truthy,
              JSObject.set, RawId.truthy_str]

theorem storeEntry_eq (acc : Canonicalised) (steamId : RawId) (playerName status : String) :
    storeEntry acc steamId playerName status =
      match (storeEntry { processed := [], processingError := false } steamId playerName
          status).processed.head? with
      | some stored => { acc with processed := acc.processed.set stored.1 stored.2 }
      | none => { acc with processingError := true } := by
  unfold storeEntry
  split_ifs <;> simp [JSObject.set]

theorem processAttendanceEntry_eq (acc : Canonicalised) (key : String)
    (playerData : Option RawAttendance) :
    processAttendanceEntry acc key playerData =
      match canonicalEntry key playerData with
      | some stored => { acc with processed := acc.processed.set stored.1 stored.2 }
      | none => { acc with processingError := true } := by
  cases playerData with
  | none => rfl
  | some data =>
    unfold canonicalEntry processAttendanceEntry
    dsimp only
    split_ifs
    · exact storeEntry_eq _ _ _ _
    · exact storeEntry_eq _ _ _ _
    · rfl

theorem foldl_processAttendanceEntry (raw : RawSnapshot) :
    ∀ acc : Canonicalised,
      (raw.foldl (fun acc entry => processAttendanceEntry acc entry.1 entry.2) acc).processed =
          (raw.filterMap (fun e => canonicalEntry e.1 e.2)).foldl
            (fun o stored => o.set stored.1 stored.2) acc.processed ∧
        ((raw.foldl (fun acc entry => processAttendanceEntry acc entry.1 entry.2)
            acc).processingError = true ↔
          acc.processingError = true ∨ ∃ e ∈ raw, canonicalEntry e.1 e.2 = none) := by
  induction raw with
  | nil => intro acc; simp
  | cons e rest ih =>
    intro acc
    rw [List.foldl_cons, processAttendanceEntry_eq]
    cases h : canonicalEntry e.1 e.2 with
    | none =>
      obtain ⟨h1, h2⟩ := ih { acc with processingError := true }
      refine ⟨?_, ?_⟩
      · rw [h1, List.filterMap_cons, h]
      · rw [h2]
        simp [h]
    | some stored =>
      obtain ⟨h1, h2⟩ := ih { acc with processed := acc.processed.set stored.1 stored.2 }
      refine ⟨?_, ?_⟩
      · rw [h1, List.filterMap_cons, h, List.foldl_cons]
      · rw [h2]
        simp [h]

theorem foldl_set_get_of_not_mem {α : Type} (k : String) :
    ∀ (stored : List (String × α)) (o : JSObject α), k ∉ stored.map Prod.fst →
      (stored.foldl (fun o x => o.set x.1 x.2) o).get k = o.get k := by
  intro stored
  induction stored with
  | nil => intro o _; rfl
  | cons x rest ih =>
    intro o hk
    simp only [List.map_cons, List.mem_cons, not_or] at hk
    rw [List.foldl_cons, ih _ hk.2, JSObject.get_set_of_ne _ _ hk.1]

theorem foldl_set_get_of_mem {α : Type} (k : String) (v : α) :
    ∀ (stored : List (String × α)) (o : JSObject α), (stored.map Prod.fst).Nodup →
      (k, v) ∈ stored → (stored.foldl (fun o x => o.set x.1 x.2) o).get k = some v := by
  intro stored
  induction stored with
  | nil => intro o _ h; simp at h
  | cons x rest ih =>
    intro o hnd hmem
    simp only [List.map_cons, List.nodup_cons] at hnd
    rw [List.foldl_cons]
    rcases List.mem_cons.mp hmem with h | h
    · subst h
      rw [foldl_set_get_of_not_mem _ _ _ hnd.1, JSObject.get_set_self]
    · exact ih _ hnd.2 h

/-- C13: for a raw snapshot in which no two entries resolve to the same id,
the canonicalisation maps an id-keyed entry (key `k`, non-empty name and status,
no steam id) to the entry under `k` with that name and status, and a name-keyed
entry (key `n`, non-empty steam id and status) to the entry under
`String(steamId)` with name `n` and that status.  Keys are non-empty, as the
keys of a store snapshot are. -/
theorem canonicalise_shapes (raw : RawSnapshot) (key : String) (data : RawAttendance)
    (status : String)
    (hdistinct : ((raw.filterMap (fun e => canonicalEntry e.1 e.2)).map Prod.fst).Nodup)
    (hmem : (key, some data) ∈ raw) (hkey : key ≠ "") (hstatus : data.status = some status)
    (hs : status ≠ "") :
    (data.steamId.truthy = false → ∀ name, data.name = some name → name ≠ "" →
        (processAttendance raw).processed.get key =
          some { name := name, status := status, steamId := key }) ∧
      (data.steamId.truthy = true →
        (processAttendance raw).processed.get data.steamId.toStr =
          some { name := key, status := status, steamId := data.steamId.toStr }) := by
  have hfold := (foldl_processAttendanceEntry raw { processed := [], processingError := false }).1
  refine ⟨fun hid name hname hn => ?_, fun hid => ?_⟩
  · unfold processAttendance
    rw [hfold]
    apply foldl_set_get_of_mem _ _ _ _ hdistinct
    exact List.mem_filterMap.mpr ⟨(key, some data), hmem,
      canonicalEntry_idKeyed key data name status hid hname hn hstatus hs hkey⟩
  · unfold processAttendance
    rw [hfold]
    apply foldl_set_get_of_mem _ _ _ _ hdistinct
    exact List.mem_filterMap.mpr ⟨(key, some data), hmem,
      canonicalEntry_nameKeyed key data status hid hstatus hs hkey⟩

theorem canonicalise_shapes_witness :
    (processAttendance scenarioSnapshot).processed.get "p1" =
        some { name := "Ali", status := "coming", steamId := "p1" } ∧
      (processAttendance scenarioSnapshot).processed.get "42" =
        some { name := "Veli", status := "not_coming", steamId := "42" } := by
  have hd : ((scenarioSnapshot.filterMap (fun e => canonicalEntry e.1 e.2)).map
      Prod.fst).Nodup := by decide
  exact ⟨(canonicalise_shapes scenarioSnapshot "p1"
      { steamId := .missing, name := some "Ali", status := some "coming" } "coming" hd
      (by simp [scenarioSnapshot]) (by decide) rfl (by decide)).1 rfl "Ali" rfl (by decide),
    (canonicalise_shapes scenarioSnapshot "Veli"
      { steamId := .num 42 (by norm_num), name := none, status := some "not_coming" }
      "not_coming" hd (by simp [scenarioSnapshot]) (by decide) rfl (by decide)).2 rfl⟩

theorem processAttendance_filter (raw : RawSnapshot) :
    (processAttendance raw).processed =
      (processAttendance (raw.filter (fun e => (canonicalEntry e.1 e.2).isSome))).processed := by
  unfold processAttendance
  rw [(foldl_processAttendanceEntry raw _).1, (foldl_processAttendanceEntry _ _).1]
  congr 1
  induction raw with
  | nil => rfl
  | cons e rest ih =>
    cases h : canonicalEntry e.1 e.2 with
    | none => simp [List.filter_cons, List.filterMap_cons, h, ih]
    | some stored => simp [List.filter_cons, List.filterMap_cons, h, ih]

/-- C14: an entry matching neither recognised shape (a `null` entry, an entry
without a non-empty status, or one with neither a steam id nor a name) adds no
key to the canonical map and raises the error flag; the canonical map equals
the one computed from the snapshot without the dropped entries; the flag is
raised if and only if some entry was dropped; a snapshot produces one warning
when the flag is raised and none otherwise; and an entry is dropped exactly
when it matches neither shape or its key is empty. -/
theorem canonicalise_drops_malformed (raw : RawSnapshot) :
    (∀ (acc : Canonicalised) (key : String) (playerData : Option RawAttendance),
        (playerData = none ∨
          ∃ data, playerData = some data ∧
            (truthy data.status = false ∨
              (data.steamId.truthy = false ∧ truthy data.name = false))) →
        (processAttendanceEntry acc key playerData).processed = acc.processed ∧
          (processAttendanceEntry acc key playerData).processingError = true) ∧
      (processAttendance raw).processed =
        (processAttendance
          (raw.filter (fun e => (canonicalEntry e.1 e.2).isSome))).processed ∧
      ((processAttendance raw).processingError = true ↔
        ∃ e ∈ raw, canonicalEntry e.1 e.2 = none) ∧
      ((∃ e ∈ raw, canonicalEntry e.1 e.2 = none) →
        (processingWarnings (processAttendance raw)).length = 1) ∧
      ((¬ ∃ e ∈ raw, canonicalEntry e.1 e.2 = none) →
        processingWarnings (processAttendance raw) = []) ∧
      (∀ (key : String) (playerData : Option RawAttendance),
        canonicalEntry key playerData = none ↔
          key = "" ∨ playerData = none ∨
            ∃ data, playerData = some data ∧
              (truthy data.status = false ∨
                (data.steamId.truthy = false ∧ truthy data.name = false))) := by
  have hflag : (processAttendance raw).processingError = true ↔
      ∃ e ∈ raw, canonicalEntry e.1 e.2 = none := by
    unfold processAttendance
    rw [(foldl_processAttendanceEntry raw _).2]
    simp
  refine ⟨?_, processAttendance_filter raw, hflag, ?_, ?_, canonicalEntry_eq_none_iff⟩
  · intro acc key playerData h
    have hnone : canonicalEntry key playerData = none :=
      (canonicalEntry_eq_none_iff key playerData).mpr (Or.inr h)
    rw [processAttendanceEntry_eq, hnone]
    exact ⟨rfl, rfl⟩
  · intro h
    simp [processingWarnings, hflag.mpr h]
  · intro h
    have : (processAttendance raw).processingError = false := by
      cases hb : (processAttendance raw).processingError with
      | false => rfl
      | true => exact absurd (hflag.mp hb) h
    simp [processingWarnings, this]

theorem canonicalise_drops_malformed_witness :
    (processAttendance scenarioSnapshot).processingError = true ∧
      (processingWarnings (processAttendance scenarioSnapshot)).length = 1 ∧
      (processAttendance scenarioSnapshot).processed.keys = ["p1", "42"] := by
  have h := canonicalise_drops_malformed scenarioSnapshot
  have hbad : ∃ e ∈ scenarioSnapshot, canonicalEntry e.1 e.2 = none :=
    ⟨("bad", none), by simp [scenarioSnapshot], rfl⟩
  refine ⟨h.2.2.1.mpr hbad, h.2.2.2.1 hbad, ?_⟩
  rw [h.2.1]
  decide

/-! ## The store applied to the rosters -/

namespace JSObject

variable {α : Type}

theorem mem_keys_delete (o : JSObject α) (k k' : String) :
    k' ∈ (o.delete k).keys ↔ k' ≠ k ∧ k' ∈ o.keys := by
  induction o with
  | nil => simp [JSObject.delete, keys]
  | cons e rest ih =>
    obtain ⟨k0, v0⟩ := e
    simp only [JSObject.delete, keys] at ih
    by_cases h0 : k0 = k
    · subst h0
      simp only [JSObject.delete, keys, List.filter_cons, ne_eq, not_true_eq_false,
        decide_False, Bool.false_eq_true, if_false, ih, List.map_cons, List.mem_cons]
      constructor
      · rintro ⟨h1, h2⟩
        exact ⟨h1, Or.inr h2⟩
      · rintro ⟨h1, h2 | h2⟩
        · exact absurd h2 h1
        · exact ⟨h1, h2⟩
    · simp only [JSObject.delete, keys, List.filter_cons, ne_eq, h0, not_false_eq_true,
        decide_True, if_true, List.map_cons, List.mem_cons, ih]
      constructor
      · rintro (h1 | ⟨h1, h2⟩)
        · exact ⟨fun h => h0 (h1 ▸ h), Or.inl h1⟩
        · exact ⟨h1, Or.inr h2⟩
      · rintro ⟨h1, h2 | h2⟩
        · exact Or.inl h2
        · exact Or.inr ⟨h1, h2⟩

theorem delete_of_not_mem (o : JSObject α) (k : String) (h : k ∉ o.keys) : o.delete k = o := by
  induction o with
  | nil => rfl
  | cons e rest ih =>
    obtain ⟨k0, v0⟩ := e
    simp only [keys, List.map_cons, List.mem_cons, not_or] at h
    have h0 : ¬ k0 = k := fun heq => h.1 heq.symm
    have := ih h.2
    simp only [JSObject.delete] at this ⊢
    rw [List.filter_cons_of_pos (by simp [h0]), this]

theorem set_of_get (o : JSObject α) (k : String) (v : α) (h : o.get k = some v) :
    o.set k v = o := by
  induction o with
  | nil => simp [get] at h
  | cons e rest ih =>
    obtain ⟨k0, v0⟩ := e
    by_cases h0 : k0 = k
    · subst h0
      simp only [get, if_true, Option.some.injEq] at h
      simp [set, h]
    · simp only [get, h0, if_false] at h
      simp [set, h0, ih h]

theorem keys_set_of_mem (o : JSObject α) (k : String) (v : α) (h : k ∈ o.keys) :
    (o.set k v).keys = o.keys := by
  induction o with
  | nil => simp [keys] at h
  | cons e rest ih =>
    obtain ⟨k0, v0⟩ := e
    by_cases h0 : k0 = k
    · subst h0
      simp [set, keys]
    · simp only [keys, List.map_cons, List.mem_cons] at h
      have hrest : k ∈ keys rest := by
        rcases h with h | h
        · exact absurd h.symm h0
        · exact h
      have := ih hrest
      simp only [keys] at this
      simp [set, h0, keys, this]

end JSObject

theorem dropLeading_append (lead rest : List Char) : dropLeading lead (lead ++ rest) = some rest := by
  induction lead with
  | nil => cases rest <;> rfl
  | cons a lead ih => simp [dropLeading, ih]

theorem dropLeading_eq_some {lead chars rest : List Char}
    (h : dropLeading lead chars = some rest) : chars = lead ++ rest := by
  induction lead generalizing chars with
  | nil =>
    cases chars <;> simp [dropLeading] at h <;> simp [h]
  | cons a lead ih =>
    cases chars with
    | nil => simp [dropLeading] at h
    | cons b chars =>
      by_cases hab : a = b
      · subst hab
        simp only [dropLeading, if_true] at h
        simp [ih h]
      · simp [dropLeading, hab] at h

theorem playerPath_data (teamPath steamId : String) :
    (playerPath teamPath steamId).data = (playerPath teamPath "").data ++ steamId.data := by
  simp [playerPath, String.data_append]

theorem rosterKey?_eq_some_iff (teamPath path steamId : String) :
    rosterKey? teamPath path = some steamId ↔ path = playerPath teamPath steamId := by
  unfold rosterKey?
  constructor
  · intro h
    cases hd : dropLeading (playerPath teamPath "").data path.data with
    | none => simp [hd] at h
    | some rest =>
      simp only [hd, Option.map_some', Option.some.injEq] at h
      subst h
      apply String.ext
      rw [playerPath_data teamPath (String.mk rest), dropLeading_eq_some hd]
  · rintro rfl
    rw [playerPath_data teamPath steamId, dropLeading_append]
    rfl

theorem rosterKey?_teamA_teamB (steamId : String) :
    rosterKey? "teamA" (playerPath "teamB" steamId) = none ∧
      rosterKey? "teamB" (playerPath "teamA" steamId) = none := by
  constructor
  · cases h : rosterKey? "teamA" (playerPath "teamB" steamId) with
    | none => rfl
    | some k =>
      exact absurd ((rosterKey?_eq_some_iff _ _ _).mp h).symm (playerPath_teamA_ne_teamB _ _)
  · cases h : rosterKey? "teamB" (playerPath "teamA" steamId) with
    | none => rfl
    | some k =>
      exact absurd ((rosterKey?_eq_some_iff _ _ _).mp h) (playerPath_teamA_ne_teamB _ _)

theorem mem_set_imp {α : Type} (o : JSObject α) (k : String) (v : α) (e : String × α)
    (h : e ∈ o.set k v) : e = (k, v) ∨ e ∈ o := by
  induction o with
  | nil => simpa [JSObject.set] using h
  | cons x rest ih =>
    obtain ⟨k0, v0⟩ := x
    by_cases h0 : k0 = k
    · simp only [JSObject.set, h0, if_true, List.mem_cons] at h
      rcases h with h | h
      · exact Or.inl h
      · exact Or.inr (List.mem_cons_of_mem _ h)
    · simp only [JSObject.set, h0, if_false, List.mem_cons] at h
      rcases h with h | h
      · exact Or.inr (h ▸ List.mem_cons_self _ _)
      · rcases ih h with h' | h'
        · exact Or.inl h'
        · exact Or.inr (List.mem_cons_of_mem _ h')

theorem foldl_updates_values_none (processed : JSObject AttendanceEntry) (team : String)
    (f : Evictions → String → Evictions)
    (hf : ∀ acc id, (f acc id).1 =
      if notComing processed id then acc.1.set (playerPath team id) none else acc.1) :
    ∀ (ids : List String) (acc : Evictions), (∀ e ∈ acc.1, e.2 = none) →
      ∀ e ∈ (ids.foldl f acc).1, e.2 = none := by
  intro ids
  induction ids with
  | nil => intro acc h; exact h
  | cons a rest ih =>
    intro acc h
    rw [List.foldl_cons]
    apply ih
    intro e he
    rw [hf] at he
    by_cases ha : notComing processed a = true
    · rw [if_pos ha] at he
      rcases mem_set_imp _ _ _ _ he with h' | h'
      · rw [h']
      · exact h e h'
    · rw [if_neg ha] at he
      exact h e he

theorem attendanceEvictions_values_none (processed : JSObject AttendanceEntry)
    (self : TeamPicker) : ∀ e ∈ (attendanceEvictions processed self).1, e.2 = none := by
  unfold attendanceEvictions evictTeamB evictTeamA
  apply foldl_updates_values_none processed "teamB" _
    (evictTeamB_step processed self.teamBPlayersData)
  apply foldl_updates_values_none processed "teamA" _
    (evictTeamA_step processed self.teamAPlayersData)
  intro e he
  simp at he

theorem applyRosterUpdates_keys_of_removals (teamPath steamId : String) :
    ∀ (updates : JSObject (Option Player)) (roster : JSObject Player),
      (∀ e ∈ updates, e.2 = none) →
      (steamId ∈ (applyRosterUpdates teamPath updates roster).keys ↔
        steamId ∈ roster.keys ∧ playerPath teamPath steamId ∉ updates.keys) := by
  intro updates
  induction updates with
  | nil => intro roster _; simp [applyRosterUpdates, JSObject.keys]
  | cons u rest ih =>
    intro roster hnone
    obtain ⟨path, value⟩ := u
    have hv : value = none := hnone (path, value) (List.mem_cons_self _ _)
    subst hv
    have hrest : ∀ e ∈ rest, e.2 = none := fun e he => hnone e (List.mem_cons_of_mem _ he)
    unfold applyRosterUpdates at ih ⊢
    rw [List.foldl_cons, ih _ hrest]
    simp only [JSObject.keys, List.map_cons, List.mem_cons, not_or]
    cases hk : rosterKey? teamPath path with
    | none =>
      have hne : ¬ playerPath teamPath steamId = path := by
        intro heq
        rw [(rosterKey?_eq_some_iff teamPath path steamId).mpr heq.symm] at hk
        exact Option.noConfusion hk
      simp [applyRosterUpdate, hk, hne, JSObject.keys]
    | some k =>
      have hpath := (rosterKey?_eq_some_iff teamPath path k).mp hk
      subst hpath
      have hiff : playerPath teamPath steamId = playerPath teamPath k ↔ steamId = k :=
        ⟨playerPath_inj _ _ _, fun h => h ▸ rfl⟩
      have hdel := JSObject.mem_keys_delete roster k steamId
      simp only [JSObject.keys] at hdel
      simp only [applyRosterUpdate, hk, hdel, hiff]
      tauto

theorem evictions_after_apply (processed : JSObject AttendanceEntry) (self : TeamPicker) :
    attendanceEvictions processed
        (applyUpdates (attendanceEvictions processed self).1 self) = ([], []) := by
  have hnone := attendanceEvictions_values_none processed self
  have hA : ∀ id ∈ (applyUpdates (attendanceEvictions processed self).1
      self).teamAPlayersData.keys, notComing processed id = false := by
    intro id hid
    obtain ⟨hin, hout⟩ := (applyRosterUpdates_keys_of_removals "teamA" id _ _ hnone).mp hid
    cases hc : notComing processed id with
    | false => rfl
    | true =>
      exact absurd ((attendanceEvictions_keys processed self _).mpr
        (Or.inl ⟨id, hin, hc, rfl⟩)) hout
  have hB : ∀ id ∈ (applyUpdates (attendanceEvictions processed self).1
      self).teamBPlayersData.keys, notComing processed id = false := by
    intro id hid
    obtain ⟨hin, hout⟩ := (applyRosterUpdates_keys_of_removals "teamB" id _ _ hnone).mp hid
    cases hc : notComing processed id with
    | false => rfl
    | true =>
      exact absurd ((attendanceEvictions_keys processed self _).mpr
        (Or.inr ⟨id, hin, hc, rfl⟩)) hout
  have hstep : ∀ (f : Evictions → String → Evictions) (ids : List String) (acc : Evictions),
      (∀ acc id, notComing processed id = false → f acc id = acc) →
      (∀ id ∈ ids, notComing processed id = false) → ids.foldl f acc = acc := by
    intro f ids
    induction ids with
    | nil => intro acc _ _; rfl
    | cons a rest ih =>
      intro acc hf h
      rw [List.foldl_cons, hf _ _ (h a (List.mem_cons_self _ _))]
      exact ih acc hf (fun id hid => h id (List.mem_cons_of_mem _ hid))
  generalize applyUpdates (attendanceEvictions processed self).1 self = t at hA hB ⊢
  unfold attendanceEvictions evictTeamB evictTeamA
  rw [hstep _ _ _ (fun acc id h => by simp [h]) hB, hstep _ _ _ (fun acc id h => by simp [h]) hA]

theorem updateAvailablePlayerDisplay_rosters (tables : StatsTables) (container : Bool)
    (self : TeamPicker) :
    (updateAvailablePlayerDisplay tables container self).teamAPlayersData =
        self.teamAPlayersData ∧
      (updateAvailablePlayerDisplay tables container self).teamBPlayersData =
        self.teamBPlayersData := by
  unfold updateAvailablePlayerDisplay
  split_ifs <;> exact ⟨rfl, rfl⟩

theorem attendanceEvictions_congr (processed : JSObject AttendanceEntry) (s t : TeamPicker)
    (hA : s.teamAPlayersData = t.teamAPlayersData)
    (hB : s.teamBPlayersData = t.teamBPlayersData) :
    attendanceEvictions processed s = attendanceEvictions processed t := by
  unfold attendanceEvictions
  rw [hA, hB]

theorem attendanceEvictionWrite_congr (processed : JSObject AttendanceEntry)
    (s t : TeamPicker) (hA : s.teamAPlayersData = t.teamAPlayersData)
    (hB : s.teamBPlayersData = t.teamBPlayersData) :
    attendanceEvictionWrite processed s = attendanceEvictionWrite processed t := by
  unfold attendanceEvictionWrite
  rw [attendanceEvictions_congr processed s t hA hB]

theorem attendanceEvictionWrite_getD (processed : JSObject AttendanceEntry)
    (self : TeamPicker) :
    (attendanceEvictionWrite processed self).getD [] = (attendanceEvictions processed self).1 := by
  unfold attendanceEvictionWrite
  cases hl : (attendanceEvictions processed self).1 with
  | nil => simp [JSObject.keys]
  | cons x xs => simp [JSObject.keys]

theorem attendanceListener_rosters (tables : StatsTables) (container : Bool)
    (raw : RawSnapshot) (self : TeamPicker) :
    (attendanceListener tables container raw self).state.teamAPlayersData =
        self.teamAPlayersData ∧
      (attendanceListener tables container raw self).state.teamBPlayersData =
        self.teamBPlayersData :=
  updateAvailablePlayerDisplay_rosters tables container
    { self with currentAttendanceData := (processAttendance raw).processed }

theorem attendanceListener_updates (tables : StatsTables) (container : Bool)
    (raw : RawSnapshot) (self : TeamPicker) :
    (attendanceListener tables container raw self).updates =
      attendanceEvictionWrite (processAttendance raw).processed self := rfl

/-- C15: reconciliation is idempotent.  Running the attendance listener again
on the same snapshot, with the rosters not yet updated, sends the same
eviction update; and once the update has been applied to the rosters, running
it again on the same snapshot sends no update: for every processed attendance
map, the evictions computed from the updated rosters are empty. -/
theorem reconcile_idempotent (tables : StatsTables) (container : Bool) (raw : RawSnapshot)
    (self : TeamPicker) :
    (attendanceListener tables container raw
        (attendanceListener tables container raw self).state).updates =
        (attendanceListener tables container raw self).updates ∧
      (attendanceListener tables container raw
        (applyUpdates ((attendanceListener tables container raw self).updates.getD [])
          (attendanceListener tables container raw self).state)).updates = none ∧
      (∀ processed : JSObject AttendanceEntry,
        attendanceEvictions processed
          (applyUpdates (attendanceEvictions processed self).1 self) = ([], []) ∧
        attendanceEvictionWrite processed
          (applyUpdates (attendanceEvictions processed self).1 self) = none) := by
  obtain ⟨hA, hB⟩ := attendanceListener_rosters tables container raw self
  have hwrite : ∀ processed, attendanceEvictionWrite processed
      (applyUpdates (attendanceEvictions processed self).1 self) = none := by
    intro processed
    simp [attendanceEvictionWrite, evictions_after_apply, JSObject.keys]
  refine ⟨?_, ?_, fun processed => ⟨evictions_after_apply processed self, hwrite processed⟩⟩
  · rw [attendanceListener_updates, attendanceListener_updates]
    exact attendanceEvictionWrite_congr _ _ _ hA hB
  · rw [attendanceListener_updates, attendanceListener_updates, attendanceEvictionWrite_getD,
      ← hwrite (processAttendance raw).processed]
    apply attendanceEvictionWrite_congr
    · simp only [applyUpdates, hA]
    · simp only [applyUpdates, hB]

/-! ## Assignment and removal -/

theorem applyUpdates_assignA (self : TeamPicker) (steamId : String) (playerData : Player) :
    (applyUpdates [(playerPath "teamA" steamId, some playerData),
        (playerPath "teamB" steamId, none)] self).teamAPlayersData =
        self.teamAPlayersData.set steamId playerData ∧
      (applyUpdates [(playerPath "teamA" steamId, some playerData),
        (playerPath "teamB" steamId, none)] self).teamBPlayersData =
        self.teamBPlayersData.delete steamId := by
  have h1 := (rosterKey?_eq_some_iff "teamA" _ steamId).mpr rfl
  have h2 := (rosterKey?_eq_some_iff "teamB" _ steamId).mpr rfl
  obtain ⟨h3, h4⟩ := rosterKey?_teamA_teamB steamId
  simp [applyUpdates, applyRosterUpdates, applyRosterUpdate, h1, h2, h3, h4]

theorem applyUpdates_assignB (self : TeamPicker) (steamId : String) (playerData : Player) :
    (applyUpdates [(playerPath "teamB" steamId, some playerData),
        (playerPath "teamA" steamId, none)] self).teamAPlayersData =
        self.teamAPlayersData.delete steamId ∧
      (applyUpdates [(playerPath "teamB" steamId, some playerData),
        (playerPath "teamA" steamId, none)] self).teamBPlayersData =
        self.teamBPlayersData.set steamId playerData := by
  have h1 := (rosterKey?_eq_some_iff "teamA" _ steamId).mpr rfl
  have h2 := (rosterKey?_eq_some_iff "teamB" _ steamId).mpr rfl
  obtain ⟨h3, h4⟩ := rosterKey?_teamA_teamB steamId
  simp [applyUpdates, applyRosterUpdates, applyRosterUpdate, h1, h2, h3, h4]

theorem applyUpdates_removeA (self : TeamPicker) (steamId : String) :
    (applyUpdates [(playerPath "teamA" steamId, none)] self).teamAPlayersData =
        self.teamAPlayersData.delete steamId ∧
      (applyUpdates [(playerPath "teamA" steamId, none)] self).teamBPlayersData =
        self.teamBPlayersData := by
  have h1 := (rosterKey?_eq_some_iff "teamA" _ steamId).mpr rfl
  obtain ⟨h3, h4⟩ := rosterKey?_teamA_teamB steamId
  simp [applyUpdates, applyRosterUpdates, applyRosterUpdate, h1, h4]

theorem applyUpdates_removeB (self : TeamPicker) (steamId : String) :
    (applyUpdates [(playerPath "teamB" steamId, none)] self).teamAPlayersData =
        self.teamAPlayersData ∧
      (applyUpdates [(playerPath "teamB" steamId, none)] self).teamBPlayersData =
        self.teamBPlayersData.delete steamId := by
  have h2 := (rosterKey?_eq_some_iff "teamB" _ steamId).mpr rfl
  obtain ⟨h3, h4⟩ := rosterKey?_teamA_teamB steamId
  simp [applyUpdates, applyRosterUpdates, applyRosterUpdate, h2, h3]

theorem assignUpdate_a (steamId : String) (playerData : Player) :
    JSObject.set (JSObject.set [] (playerPath "teamA" steamId) (some playerData))
        (playerPath "teamB" steamId) none =
      [(playerPath "teamA" steamId, some playerData), (playerPath "teamB" steamId, none)] := by
  simp [JSObject.set, playerPath_teamA_ne_teamB]

theorem assignUpdate_b (steamId : String) (playerData : Player) :
    JSObject.set (JSObject.set [] (playerPath "teamB" steamId) (some playerData))
        (playerPath "teamA" steamId) none =
      [(playerPath "teamB" steamId, some playerData), (playerPath "teamA" steamId, none)] := by
  have h : ¬ playerPath "teamB" steamId = playerPath "teamA" steamId :=
    fun h => playerPath_teamA_ne_teamB _ _ h.symm
  simp [JSObject.set, h]

theorem handleAvailableListClick_assign (self : TeamPicker) (steamId targetTeam : String)
    (playerData : Player) (hpool : self.availablePlayers.get steamId = some playerData)
    (hid : steamId ≠ "") (ht : targetTeam ≠ "") :
    handleAvailableListClick true (assignClick steamId targetTeam) self =
      some (if targetTeam = "a" then
          [(playerPath "teamA" steamId, some playerData), (playerPath "teamB" steamId, none)]
        else
          [(playerPath "teamB" steamId, some playerData),
            (playerPath "teamA" steamId, none)]) := by
  by_cases ha : targetTeam = "a"
  · simp [handleAvailableListClick, assignClick, truthy, hid, hpool, ht, ha, assignUpdate_a]
  · simp [handleAvailableListClick, assignClick, truthy, hid, hpool, ht, ha, assignUpdate_b]

theorem handleAvailableListClick_cases (dbRef : Bool) (event : AvailableListClick)
    (self : TeamPicker) (updates : JSObject (Option Player))
    (h : handleAvailableListClick dbRef event self = some updates) :
    ∃ steamId,
      (∃ playerData, updates =
          [(playerPath "teamA" steamId, some playerData), (playerPath "teamB" steamId, none)]) ∨
        (∃ playerData, updates =
          [(playerPath "teamB" steamId, some playerData), (playerPath "teamA" steamId, none)]) ∨
        updates = [(playerPath "teamA" steamId, none)] ∨
        updates = [(playerPath "teamB" steamId, none)] := by
  obtain ⟨sid, edit, assign, remove⟩ := event
  refine ⟨sid.getD "", ?_⟩
  by_cases h1 : truthy sid = true
  swap
  · simp [handleAvailableListClick, h1] at h
  cases edit
  swap
  · simp [handleAvailableListClick, h1] at h
  cases hp : self.availablePlayers.get (sid.getD "") with
  | none => simp [handleAvailableListClick, h1, hp] at h
  | some playerData =>
    cases dbRef
    · cases assign <;> cases remove <;> simp [handleAvailableListClick, h1, hp] at h
    · cases assign with
      | some targetTeam =>
        by_cases h2 : truthy targetTeam = true
        swap
        · simp [handleAvailableListClick, h1, hp, h2] at h
        by_cases ha : targetTeam = some "a"
        · subst ha
          simp only [handleAvailableListClick, h1, hp, h2, Bool.not_true, Bool.or_self,
            Bool.false_eq_true, ↓reduceIte, assignUpdate_a, Option.some.injEq] at h
          exact Or.inl ⟨playerData, h.symm⟩
        · simp only [handleAvailableListClick, h1, hp, h2, ha, Bool.not_true, Bool.or_self,
            Bool.false_eq_true, if_false, assignUpdate_b, Option.some.injEq] at h
          exact Or.inr (Or.inl ⟨playerData, h.symm⟩)
      | none =>
        cases remove with
        | none => simp [handleAvailableListClick, h1, hp] at h
        | some currentTeam =>
          by_cases h2 : truthy currentTeam = true
          swap
          · simp [handleAvailableListClick, h1, hp, h2] at h
          by_cases ha : currentTeam = some "a"
          · subst ha
            simp only [handleAvailableListClick, h1, hp, h2, Bool.not_true, Bool.or_self,
              Bool.false_eq_true, ↓reduceIte, JSObject.set, Option.some.injEq] at h
            exact Or.inr (Or.inr (Or.inl h.symm))
          · simp only [handleAvailableListClick, h1, hp, h2, ha, Bool.not_true, Bool.or_self,
              Bool.false_eq_true, if_false, JSObject.set, Option.some.injEq] at h
            exact Or.inr (Or.inr (Or.inr h.symm))

theorem handleTeamPlayerClick_cases (dbRef : Bool) (event : TeamPlayerClick) (teamId : String)
    (updates : JSObject (Option Player))
    (h : handleTeamPlayerClick dbRef event teamId = some updates) :
    ∃ steamId, updates = [(playerPath "teamA" steamId, none)] ∨
      updates = [(playerPath "teamB" steamId, none)] := by
  obtain ⟨button, row⟩ := event
  cases row with
  | none => simp [handleTeamPlayerClick] at h
  | some steamId =>
    refine ⟨steamId.getD "", ?_⟩
    cases button
    · simp [handleTeamPlayerClick] at h
    · by_cases h2 : truthy steamId = true
      swap
      · simp [handleTeamPlayerClick, h2] at h
      cases dbRef
      · simp [handleTeamPlayerClick, h2] at h
      · by_cases ha : teamId = "a"
        · simp only [handleTeamPlayerClick, h2, ha, Bool.not_true, Bool.or_self,
            Bool.false_eq_true, if_false, if_true, JSObject.set, Option.some.injEq] at h
          exact Or.inl h.symm
        · simp only [handleTeamPlayerClick, h2, ha, Bool.not_true, Bool.or_self,
            Bool.false_eq_true, if_false, JSObject.set, Option.some.injEq] at h
          exact Or.inr h.symm

theorem not_mem_keys_delete {α : Type} (o : JSObject α) (k : String) : k ∉ (o.delete k).keys :=
  fun h => ((JSObject.mem_keys_delete o k k).mp h).1 rfl

/-- C16: for a player in the available pool and a target team, the two-path
update built by the assign branch of `handleAvailableListClick`, once applied
to the rosters, leaves the player in the target roster with the pool's current
snapshot and absent from the other roster; hence after an assignment to A, an
assignment to B (from any state that has the rosters left by the first one and
still holds the player in the pool) ends with the player in roster B and not
in roster A. -/
theorem assign_moves_player (self : TeamPicker) (steamId targetTeam : String)
    (playerData : Player) (hpool : self.availablePlayers.get steamId = some playerData)
    (hid : steamId ≠ "") (ht : targetTeam = "a" ∨ targetTeam = "b") :
    ∃ updates, handleAvailableListClick true (assignClick steamId targetTeam) self =
        some updates ∧
      (targetTeam = "a" →
        (applyUpdates updates self).teamAPlayersData.get steamId = some playerData ∧
          steamId ∉ (applyUpdates updates self).teamBPlayersData.keys) ∧
      (targetTeam = "b" →
        (applyUpdates updates self).teamBPlayersData.get steamId = some playerData ∧
          steamId ∉ (applyUpdates updates self).teamAPlayersData.keys) ∧
      (targetTeam = "a" → ∀ (next : TeamPicker) (snapshot : Player),
        next.teamAPlayersData = (applyUpdates updates self).teamAPlayersData →
        next.teamBPlayersData = (applyUpdates updates self).teamBPlayersData →
        next.availablePlayers.get steamId = some snapshot →
        ∃ second, handleAvailableListClick true (assignClick steamId "b") next = some second ∧
          (applyUpdates second next).teamBPlayersData.get steamId = some snapshot ∧
          steamId ∉ (applyUpdates second next).teamAPlayersData.keys) := by
  have hb : ¬ ("b" = "a") := by decide
  have hne : targetTeam ≠ "" := by
    rcases ht with h | h <;> rw [h] <;> decide
  refine ⟨_, handleAvailableListClick_assign self steamId targetTeam playerData hpool hid hne,
    ?_, ?_, ?_⟩
  · intro ha
    obtain ⟨h1, h2⟩ := applyUpdates_assignA self steamId playerData
    rw [if_pos ha, h1, h2]
    exact ⟨JSObject.get_set_self _ _ _, not_mem_keys_delete _ _⟩
  · intro hb'
    obtain ⟨h1, h2⟩ := applyUpdates_assignB self steamId playerData
    rw [if_neg (by rw [hb']; exact hb), h1, h2]
    exact ⟨JSObject.get_set_self _ _ _, not_mem_keys_delete _ _⟩
  · intro _ next snapshot _ _ hnext
    refine ⟨_, handleAvailableListClick_assign next steamId "b" snapshot hnext hid
      (by decide), ?_⟩
    obtain ⟨h1, h2⟩ := applyUpdates_assignB next steamId snapshot
    rw [if_neg hb, h1, h2]
    exact ⟨JSObject.get_set_self _ _ _, not_mem_keys_delete _ _⟩

theorem assign_moves_player_witness :
    ∃ updates, handleAvailableListClick true (assignClick "p1" "b") reassignState =
        some updates ∧
      (applyUpdates updates reassignState).teamBPlayersData.get "p1" =
        some (scenarioPlayer "p1" .undefined) ∧
      "p1" ∉ (applyUpdates updates reassignState).teamAPlayersData.keys := by
  obtain ⟨updates, h1, -, h2, -⟩ := assign_moves_player reassignState "p1" "b"
    (scenarioPlayer "p1" .undefined) (by simp [reassignState, JSObject.get]) (by decide)
    (Or.inr rfl)
  exact ⟨updates, h1, h2 rfl⟩

theorem rostersDisjoint_of_subset (self next : TeamPicker) (hdis : rostersDisjoint self)
    (hA : ∀ k, k ∈ next.teamAPlayersData.keys → k ∈ self.teamAPlayersData.keys)
    (hB : ∀ k, k ∈ next.teamBPlayersData.keys → k ∈ self.teamBPlayersData.keys) :
    rostersDisjoint next :=
  fun k hk hk' => hdis k (hA k hk) (hB k hk')

/-- C17: roster disjointness is preserved by every roster-mutating operation:
if no id is a key of both rosters, the same holds after applying the update
built by a click on the available list (assignment or removal), by a click on
a team list (removal), or by an attendance-driven eviction batch. -/
theorem roster_disjointness_preserved (self : TeamPicker) (hdis : rostersDisjoint self) :
    (∀ dbRef event updates, handleAvailableListClick dbRef event self = some updates →
        rostersDisjoint (applyUpdates updates self)) ∧
      (∀ dbRef event teamId updates, handleTeamPlayerClick dbRef event teamId = some updates →
        rostersDisjoint (applyUpdates updates self)) ∧
      (∀ processed, rostersDisjoint (applyUpdates (attendanceEvictions processed self).1 self)) := by
  have hremA : ∀ steamId,
      rostersDisjoint (applyUpdates [(playerPath "teamA" steamId, none)] self) := by
    intro steamId
    obtain ⟨h1, h2⟩ := applyUpdates_removeA self steamId
    apply rostersDisjoint_of_subset self _ hdis
    · intro k hk
      rw [h1] at hk
      exact ((JSObject.mem_keys_delete _ _ _).mp hk).2
    · intro k hk
      rwa [h2] at hk
  have hremB : ∀ steamId,
      rostersDisjoint (applyUpdates [(playerPath "teamB" steamId, none)] self) := by
    intro steamId
    obtain ⟨h1, h2⟩ := applyUpdates_removeB self steamId
    apply rostersDisjoint_of_subset self _ hdis
    · intro k hk
      rwa [h1] at hk
    · intro k hk
      rw [h2] at hk
      exact ((JSObject.mem_keys_delete _ _ _).mp hk).2
  refine ⟨?_, ?_, ?_⟩
  · intro dbRef event updates h
    obtain ⟨steamId, ⟨pd, rfl⟩ | ⟨pd, rfl⟩ | rfl | rfl⟩ :=
      handleAvailableListClick_cases dbRef event self updates h
    · obtain ⟨h1, h2⟩ := applyUpdates_assignA self steamId pd
      intro k hk hk'
      rw [h1] at hk
      rw [h2] at hk'
      obtain ⟨hne, hkB⟩ := (JSObject.mem_keys_delete _ _ _).mp hk'
      rcases (JSObject.mem_keys_set _ _ _ _).mp hk with h' | h'
      · exact hne h'
      · exact hdis k h' hkB
    · obtain ⟨h1, h2⟩ := applyUpdates_assignB self steamId pd
      intro k hk hk'
      rw [h1] at hk
      rw [h2] at hk'
      obtain ⟨hne, hkA⟩ := (JSObject.mem_keys_delete _ _ _).mp hk
      rcases (JSObject.mem_keys_set _ _ _ _).mp hk' with h' | h'
      · exact hne h'
      · exact hdis k hkA h'
    · exact hremA steamId
    · exact hremB steamId
  · intro dbRef event teamId updates h
    obtain ⟨steamId, rfl | rfl⟩ := handleTeamPlayerClick_cases dbRef event teamId updates h
    · exact hremA steamId
    · exact hremB steamId
  · intro processed
    have hnone := attendanceEvictions_values_none processed self
    apply rostersDisjoint_of_subset self _ hdis
    · intro k hk
      exact ((applyRosterUpdates_keys_of_removals "teamA" k _ _ hnone).mp hk).1
    · intro k hk
      exact ((applyRosterUpdates_keys_of_removals "teamB" k _ _ hnone).mp hk).1

theorem roster_disjointness_preserved_witness :
    rostersDisjoint
      (applyUpdates (attendanceEvictions scenario4Attendance scenario4).1 scenario4) :=
  (roster_disjointness_preserved scenario4
    (by
      intro k hk
      simp only [scenario4, JSObject.keys, List.map_cons, List.map_nil, List.mem_cons,
        List.mem_singleton, List.not_mem_nil, or_false] at hk ⊢
      rcases hk with rfl | rfl <;> decide)).2.2 scenario4Attendance

/-- C18, counterexample: p1 is a key of roster A with a stored snapshot whose
`L10_HLTV2` is 2, the pool holds p1 without that stat; applying the update built
by assigning p1 to A replaces the stored snapshot, so roster A is not left as
it was. -/
theorem reassign_noop_counterexample :
    "p1" ∈ reassignState.teamAPlayersData.keys ∧
      ∃ updates, handleAvailableListClick true (assignClick "p1" "a") reassignState =
          some updates ∧
        (applyUpdates updates reassignState).teamAPlayersData =
          [("p1", scenarioPlayer "p1" .undefined)] ∧
        (applyUpdates updates reassignState).teamAPlayersData ≠
          reassignState.teamAPlayersData := by
  refine ⟨by simp [reassignState, JSObject.keys], _,
    handleAvailableListClick_assign reassignState "p1" "a" (scenarioPlayer "p1" .undefined)
      (by simp [reassignState, JSObject.get]) (by decide) (by decide), ?_⟩
  have h := (applyUpdates_assignA reassignState "p1" (scenarioPlayer "p1" .undefined)).1
  have hval : reassignState.teamAPlayersData.set "p1" (scenarioPlayer "p1" .undefined) =
      [("p1", scenarioPlayer "p1" .undefined)] := by
    simp [reassignState, JSObject.set]
  rw [if_pos rfl, h, hval]
  refine ⟨rfl, ?_⟩
  simp [reassignState, scenarioPlayer]

/-- C18, amended: when the player is a key of the target roster, applying the
update built by assigning the player to that roster keeps the keys of the
roster and every other entry, and replaces the player's stored snapshot by the
pool's current snapshot; the other roster loses the player's key if it had it
and is otherwise unchanged.  Both rosters are left exactly as they were when
the stored snapshot equals the pool's snapshot and the player is not on the
other roster. -/
theorem reassign_replaces_snapshot (self : TeamPicker) (steamId targetTeam : String)
    (playerData : Player) (hpool : self.availablePlayers.get steamId = some playerData)
    (hid : steamId ≠ "") (ht : targetTeam = "a" ∨ targetTeam = "b") :
    ∃ updates, handleAvailableListClick true (assignClick steamId targetTeam) self =
        some updates ∧
      (targetTeam = "a" → steamId ∈ self.teamAPlayersData.keys →
        (applyUpdates updates self).teamAPlayersData.keys = self.teamAPlayersData.keys ∧
          (applyUpdates updates self).teamAPlayersData.get steamId = some playerData ∧
          (∀ k, k ≠ steamId →
            (applyUpdates updates self).teamAPlayersData.get k = self.teamAPlayersData.get k) ∧
          (applyUpdates updates self).teamBPlayersData =
            self.teamBPlayersData.delete steamId ∧
          (steamId ∉ self.teamBPlayersData.keys →
            (applyUpdates updates self).teamBPlayersData = self.teamBPlayersData) ∧
          (self.teamAPlayersData.get steamId = some playerData →
            (applyUpdates updates self).teamAPlayersData = self.teamAPlayersData)) ∧
      (targetTeam = "b" → steamId ∈ self.teamBPlayersData.keys →
        (applyUpdates updates self).teamBPlayersData.keys = self.teamBPlayersData.keys ∧
          (applyUpdates updates self).teamBPlayersData.get steamId = some playerData ∧
          (∀ k, k ≠ steamId →
            (applyUpdates updates self).teamBPlayersData.get k = self.teamBPlayersData.get k) ∧
          (applyUpdates updates self).teamAPlayersData =
            self.teamAPlayersData.delete steamId ∧
          (steamId ∉ self.teamAPlayersData.keys →
            (applyUpdates updates self).teamAPlayersData = self.teamAPlayersData) ∧
          (self.teamBPlayersData.get steamId = some playerData →
            (applyUpdates updates self).teamBPlayersData = self.teamBPlayersData)) := by
  have hb : ¬ ("b" = "a") := by decide
  have hne : targetTeam ≠ "" := by
    rcases ht with h | h <;> rw [h] <;> decide
  refine ⟨_, handleAvailableListClick_assign self steamId targetTeam playerData hpool hid hne,
    ?_, ?_⟩
  · intro ha hmem
    obtain ⟨h1, h2⟩ := applyUpdates_assignA self steamId playerData
    rw [if_pos ha, h1, h2]
    exact ⟨JSObject.keys_set_of_mem _ _ _ hmem, JSObject.get_set_self _ _ _,
      fun k hk => JSObject.get_set_of_ne _ _ hk, rfl,
      fun h => JSObject.delete_of_not_mem _ _ h, fun h => JSObject.set_of_get _ _ _ h⟩
  · intro hb' hmem
    obtain ⟨h1, h2⟩ := applyUpdates_assignB self steamId playerData
    rw [if_neg (by rw [hb']; exact hb), h1, h2]
    exact ⟨JSObject.keys_set_of_mem _ _ _ hmem, JSObject.get_set_self _ _ _,
      fun k hk => JSObject.get_set_of_ne _ _ hk, rfl,
      fun h => JSObject.delete_of_not_mem _ _ h, fun h => JSObject.set_of_get _ _ _ h⟩

theorem reassign_replaces_snapshot_witness :
    ∃ updates, handleAvailableListClick true (assignClick "p1" "a") reassignState =
        some updates ∧
      (applyUpdates updates reassignState).teamAPlayersData.keys = ["p1"] ∧
      (applyUpdates updates reassignState).teamAPlayersData.get "p1" =
        some (scenarioPlayer "p1" .undefined) ∧
      (applyUpdates updates reassignState).teamBPlayersData = [] := by
  obtain ⟨updates, h1, h2, -⟩ := reassign_replaces_snapshot reassignState "p1" "a"
    (scenarioPlayer "p1" .undefined) (by simp [reassignState, JSObject.get]) (by decide)
    (Or.inl rfl)
  obtain ⟨hk, hg, -, -, hB, -⟩ := h2 rfl (by simp [reassignState, JSObject.keys])
  exact ⟨updates, h1, hk, hg, hB (by simp [reassignState, JSObject.keys])⟩

/-! ## Order of the available list -/

theorem orderedInsert_congr (r r' : Player → Player → Prop) [DecidableRel r]
    [DecidableRel r'] (a : Player) :
    ∀ l : List Player, (∀ b ∈ l, r a b ↔ r' a b) →
      l.orderedInsert r a = l.orderedInsert r' a := by
  intro l
  induction l with
  | nil => intro _; rfl
  | cons b l ih =>
    intro h
    have hb := h b (List.mem_cons_self _ _)
    have hl := ih (fun c hc => h c (List.mem_cons_of_mem _ hc))
    by_cases hr : r a b
    · simp [List.orderedInsert, hr, hb.mp hr]
    · have hr' : ¬ r' a b := fun h' => hr (hb.mpr h')
      simp [List.orderedInsert, hr, hr', hl]

theorem insertionSort_congr (r r' : Player → Player → Prop) [DecidableRel r]
    [DecidableRel r'] :
    ∀ l : List Player, (∀ a ∈ l, ∀ b ∈ l, r a b ↔ r' a b) →
      l.insertionSort r = l.insertionSort r' := by
  intro l
  induction l with
  | nil => intro _; rfl
  | cons a l ih =>
    intro h
    have hl := ih (fun x hx y hy => h x (List.mem_cons_of_mem _ hx) y (List.mem_cons_of_mem _ hy))
    show List.orderedInsert r a (l.insertionSort r) = List.orderedInsert r' a (l.insertionSort r')
    rw [← hl]
    exact orderedInsert_congr r r' a _ (fun b hb =>
      h a (List.mem_cons_self _ _) b (List.mem_cons_of_mem _ ((List.mem_insertionSort r).mp hb)))

theorem staysBefore_iff_rank (a b : Player) (ha : a.stat "L10_HLTV2" ≠ .nan)
    (hb : b.stat "L10_HLTV2" ≠ .nan) :
    staysBefore compareL10 a b ↔ l10Rank b ≤ l10Rank a := by
  unfold staysBefore compareL10 l10SortValue l10Rank
  cases hva : a.stat "L10_HLTV2" <;> cases hvb : b.stat "L10_HLTV2" <;>
    simp [SortValue.subSign, hva, hvb] at ha hb ⊢
  rename_i x y
  by_cases hlt : y < x
  · simp [hlt, hlt.le]
  · by_cases heq : y = x
    · simp [heq]
    · have : x < y := lt_of_le_of_ne (not_lt.mp hlt) (Ne.symm heq)
      simp [hlt, heq, not_le.mpr this]

/-- C19: the rows rendered by `renderAvailablePlayersTable` are a permutation
of the pool; when no `L10_HLTV2` in the pool is `NaN` (the pool is filled from
JSON numbers and from parsed edits, which are never `NaN`), the rows are
non-increasing in `L10_HLTV2`, and every player whose `L10_HLTV2` is `undefined`
or `null` comes after every player that has a value. -/
theorem render_order_sorted (self : TeamPicker)
    (hnan : ∀ p ∈ self.availablePlayers.values, p.stat "L10_HLTV2" ≠ .nan) :
    (renderAvailablePlayersTable true self).Perm self.availablePlayers.values ∧
      (renderAvailablePlayersTable true self).Pairwise (fun a b => l10Rank b ≤ l10Rank a) ∧
      (renderAvailablePlayersTable true self).Pairwise
        (fun a b =>
          (a.stat "L10_HLTV2" = .undefined ∨ a.stat "L10_HLTV2" = .null) →
            (b.stat "L10_HLTV2" = .undefined ∨ b.stat "L10_HLTV2" = .null)) := by
  have hrows : renderAvailablePlayersTable true self =
      arraySort compareL10 self.availablePlayers.values := by
    unfold renderAvailablePlayersTable
    by_cases hlen : (JSObject.keys self.availablePlayers).length = 0
    · have hnil : self.availablePlayers = [] := by
        simpa [JSObject.keys] using hlen
      simp [hnil, JSObject.keys, JSObject.values, arraySort]
    · simp [hlen]
  have hperm : (renderAvailablePlayersTable true self).Perm self.availablePlayers.values := by
    rw [hrows]
    exact List.perm_insertionSort _ _
  have hsorted : (renderAvailablePlayersTable true self).Pairwise
      (fun a b => l10Rank b ≤ l10Rank a) := by
    rw [hrows]
    unfold arraySort
    rw [insertionSort_congr (staysBefore compareL10) (fun a b => l10Rank b ≤ l10Rank a) _
      (fun a ha b hb => staysBefore_iff_rank a b (hnan a ha) (hnan b hb))]
    haveI : IsTotal Player (fun a b => l10Rank b ≤ l10Rank a) := ⟨fun a b => le_total _ _⟩
    haveI : IsTrans Player (fun a b => l10Rank b ≤ l10Rank a) :=
      ⟨fun a b c hab hbc => le_trans hbc hab⟩
    exact List.sorted_insertionSort _ _
  refine ⟨hperm, hsorted, ?_⟩
  refine List.Pairwise.imp_of_mem ?_ hsorted
  intro a b _ hb hle hlast
  have hb' := hnan b (hperm.subset hb)
  have hra : l10Rank a = ⊥ := by
    unfold l10Rank
    rcases hlast with h | h <;> rw [h]
  rw [hra, le_bot_iff] at hle
  unfold l10Rank at hle
  cases hvb : b.stat "L10_HLTV2" with
  | undefined => exact Or.inl rfl
  | null => exact Or.inr rfl
  | nan => exact absurd hvb hb'
  | num q => simp [hvb] at hle

theorem render_order_sorted_witness :
    (renderAvailablePlayersTable true scenarioPool).Perm scenarioPool.availablePlayers.values ∧
      (renderAvailablePlayersTable true scenarioPool).Pairwise
        (fun a b => l10Rank b ≤ l10Rank a) := by
  have h := render_order_sorted scenarioPool (by
    intro p hp
    simp only [scenarioPool, JSObject.values, List.map_cons, List.map_nil, List.mem_cons,
      List.mem_singleton, List.not_mem_nil, or_false] at hp
    rcases hp with rfl | rfl | rfl | rfl <;>
      simp [scenarioPlayer, Player.stat, PlayerStats.get])
  exact ⟨h.1, h.2.1⟩

/-! ## The final clamp of the normalisation -/

/-- C30: over exact arithmetic the final clamp of `normalizeStatWithFixedRange`
is redundant: for a number and a range with `min ≠ max`, the function equals
the variant without the final clamp when `min < max`, and it returns 0 for
every value when `min > max`. -/
theorem normalize_final_clamp_redundant (v : ℚ) (statKey : String)
    (fixedRanges : JSObject Range) (range : Range)
    (hr : fixedRanges.get statKey = some range) (hne : range.min ≠ range.max) :
    (range.min < range.max →
        normalizeStatWithFixedRange (.num v) statKey fixedRanges =
          normalizeWithoutFinalClamp v range) ∧
      (range.max < range.min →
        ∀ value : JSValue, normalizeStatWithFixedRange value statKey fixedRanges = 0) := by
  refine ⟨fun hlt => ?_, fun hgt value => ?_⟩
  · have hpos : 0 < range.max - range.min := sub_pos.mpr hlt
    have hlo : range.min ≤ max range.min (min range.max v) := le_max_left _ _
    have hhi : max range.min (min range.max v) ≤ range.max := max_le hlt.le (min_le_left _ _)
    have h0 : 0 ≤ (max range.min (min range.max v) - range.min) / (range.max - range.min) :=
      div_nonneg (sub_nonneg.mpr hlo) hpos.le
    have h1 : (max range.min (min range.max v) - range.min) / (range.max - range.min) ≤ 1 :=
      (div_le_one hpos).mpr (by linarith)
    rw [normalize_num_eq hr (Ne.symm hne)]
    unfold normalizeWithoutFinalClamp
    rw [min_eq_right (by linarith), max_eq_right (by positivity)]
  · cases value with
    | num w =>
      have hclamp : max range.min (min range.max w) = range.min :=
        max_eq_left ((min_le_left _ _).trans hgt.le)
      rw [normalize_num_eq hr (Ne.symm hne), hclamp]
      simp
    | _ => simp [normalizeStatWithFixedRange, hr, JSValue.typeofNumber]

theorem normalize_final_clamp_redundant_witness :
    normalizeStatWithFixedRange (.num 75) "S_ADR" TEAM_CHART_FIXED_RANGES =
        normalizeWithoutFinalClamp 75 { min := 50, max := 100 } ∧
      normalizeStatWithFixedRange (.num 75) "K" [("K", { min := 100, max := 50 })] = 0 :=
  ⟨(normalize_final_clamp_redundant 75 "S_ADR" TEAM_CHART_FIXED_RANGES { min := 50, max := 100 }
      (by simp [TEAM_CHART_FIXED_RANGES, JSObject.get]) (by norm_num)).1 (by norm_num),
    (normalize_final_clamp_redundant 75 "K" [("K", { min := 100, max := 50 })]
      { min := 100, max := 50 } (by simp [JSObject.get]) (by norm_num)).2 (by norm_num)
      (.num 75)⟩

/-! ## Match creation and map selects at the failing inputs -/

/-- C25, the code at the failing input: with the first slot empty and the
second holding `de_dust2` with CT side A, the payload has `maplist`
`['de_dust2']` and `map_sides` `['knife']`, the side of the first slot, while
the slot that supplied the map has the side `'team1_ct'`. -/
theorem createMatchFromUI_second_slot :
    createMatchFromUI secondSlotState =
        .ok
          { team1 := { name := "Team A", players := [("p1", "p1")] }
            team2 := { name := "Team B", players := [("p2", "p2")] }
            num_maps := 1
            maplist := ["de_dust2"]
            map_sides := ["knife"]
            players_per_team := 1 } ∧
      secondSlotState.mapSelections.map2.map sideOfSelection = some "team1_ct" := by
  constructor <;> rfl

/-- C27, the code at the failing input: for a roster whose only player has a
name but no `steamId`, `createTeamObjectForAPI` does not return `null`; it
returns a players object that maps the string `'undefined'` to the name. -/
theorem createTeamObjectForAPI_missing_id :
    createTeamObjectForAPI "a" missingIdState =
      some { name := "Team A", players := [("undefined", "Ali")] } := by
  decide

/-- C28, the code at the failing input: for a maps state whose first slot has
CT side B, `updateMapSelectsFromFirebase` sets the map and T selects but leaves
the CT select at its old value and adds a listener to it; the earlier version
of the function sets the CT select to `'B'`. -/
theorem updateMapSelectsFromFirebase_ct_unchanged :
    (updateMapSelectsFromFirebase firstSlotMaps (emptySelects, emptySelects, emptySelects)).1 =
        { mapSelect := some "de_dust2", tSelect := some "A", ctSelect := some "",
          ctChangeListeners := 1 } ∧
      updateSlotSelectsEarlier firstSlotMaps.map1 emptySelects =
        { mapSelect := some "de_dust2", tSelect := some "A", ctSelect := some "B" } := by
  decide

/-! ## Stat tables: the id-indexed look-up -/

theorem getLast?_cons_eq {α : Type} (a : α) (l : List α) :
    (a :: l).getLast? = match l.getLast? with
      | some b => some b
      | none => some a := by
  cases l with
  | nil => rfl
  | cons b rest =>
    rw [List.getLast?_cons_cons]
    cases h : (b :: rest).getLast? with
    | some c => rfl
    | none => simp at h

theorem truthy_some (s : String) : truthy (some s) = true ↔ s ≠ "" := by
  simp [truthy]

/-- The fold of `processStatsIntoMap` from any map: a non-empty id reads the
last record carrying it, or what the map held before. -/
theorem foldl_processStatsRecord_get (steamId : String) (hid : steamId ≠ "") :
    ∀ (records : List (Option StatRecord)) (statsMap : JSObject StatRecord),
      (records.foldl processStatsRecord statsMap).get steamId =
        match (recordsWithId records steamId).getLast? with
        | some record => some record
        | none => statsMap.get steamId := by
  intro records
  induction records with
  | nil => intro statsMap; rfl
  | cons player rest ih =>
    intro statsMap
    rw [List.foldl_cons, ih]
    cases player with
    | none => rfl
    | some record =>
      by_cases hrec : record.steam_id = some steamId
      · have hstep : processStatsRecord statsMap (some record) = statsMap.set steamId record := by
          simp [processStatsRecord, hrec, truthy, hid]
        have hcons : recordsWithId (some record :: rest) steamId =
            record :: recordsWithId rest steamId := by
          simp [recordsWithId, hrec]
        rw [hstep, hcons, getLast?_cons_eq, JSObject.get_set_self]
        cases (recordsWithId rest steamId).getLast? <;> rfl
      · have hcons : recordsWithId (some record :: rest) steamId =
            recordsWithId rest steamId := by
          simp [recordsWithId, hrec]
        rw [hcons]
        have hget : (processStatsRecord statsMap (some record)).get steamId =
            statsMap.get steamId := by
          unfold processStatsRecord
          dsimp only
          split_ifs with ht
          · cases hs : record.steam_id with
            | none => rw [hs] at ht; simp [truthy] at ht
            | some s =>
              rw [hs] at hrec
              have hne : steamId ≠ s := fun h => hrec (by rw [h])
              simpa using JSObject.get_set_of_ne statsMap record hne
          · rfl
        rw [hget]

/-- The fold of `processStatsIntoMap` never stores anything under the empty
string. -/
theorem foldl_processStatsRecord_get_empty :
    ∀ (records : List (Option StatRecord)) (statsMap : JSObject StatRecord),
      (records.foldl processStatsRecord statsMap).get "" = statsMap.get "" := by
  intro records
  induction records with
  | nil => intro statsMap; rfl
  | cons player rest ih =>
    intro statsMap
    rw [List.foldl_cons, ih]
    cases player with
    | none => rfl
    | some record =>
      unfold processStatsRecord
      dsimp only
      split_ifs with ht
      · cases hs : record.steam_id with
        | none => rw [hs] at ht; simp [truthy] at ht
        | some s =>
          rw [hs] at ht
          have hne : "" ≠ s := fun h => (truthy_some s).mp ht h.symm
          simpa using JSObject.get_set_of_ne statsMap record hne
      · rfl

/-- C23: the id-indexed look-up.  For a stats array, the map built by
`processStatsIntoMap` holds under a non-empty id the last record of the array
carrying that steam_id, and nothing when no record carries it (nothing is ever
stored under the empty string); data that is not an array gives the empty map.
The getters are total: before any load they return `null` for every id, a load
that fails (no table body, a failed fetch, a failed fill) leaves the maps as
they were, and a load that succeeds replaces the whole map by the one built
from the fetched data. -/
theorem statsLookup_last_record (records : List (Option StatRecord)) (steamId : String)
    (data : StatsData) (tbody filled : Bool) (fetched : Option StatsData) (t : StatsTables) :
    (processStatsIntoMap (.array records)).get steamId =
        (if steamId = "" then none else (recordsWithId records steamId).getLast?) ∧
      (recordsWithId records steamId = [] →
        (processStatsIntoMap (.array records)).get steamId = none) ∧
      (∀ record, (processStatsIntoMap (.array records)).get steamId = some record →
        some record ∈ records ∧ record.steam_id = some steamId) ∧
      (processStatsIntoMap .notArray).get steamId = none ∧
      StatsTables.initial.getSeasonStatsBySteamId steamId = none ∧
      StatsTables.initial.getLast10StatsBySteamId steamId = none ∧
      loadAndRenderSeasonAvgTable false fetched filled t = t ∧
      loadAndRenderSeasonAvgTable tbody none filled t = t ∧
      loadAndRenderSeasonAvgTable tbody fetched false t = t ∧
      loadAndRenderLast10Table false fetched filled t = t ∧
      loadAndRenderLast10Table tbody none filled t = t ∧
      loadAndRenderLast10Table tbody fetched false t = t ∧
      (loadAndRenderSeasonAvgTable true (some data) true t).getSeasonStatsBySteamId steamId =
        (processStatsIntoMap data).get steamId ∧
      (loadAndRenderLast10Table true (some data) true t).getLast10StatsBySteamId steamId =
        (processStatsIntoMap data).get steamId := by
  have hmain : (processStatsIntoMap (.array records)).get steamId =
      (if steamId = "" then none else (recordsWithId records steamId).getLast?) := by
    unfold processStatsIntoMap
    dsimp only
    by_cases hid : steamId = ""
    · rw [if_pos hid, hid, foldl_processStatsRecord_get_empty]
      rfl
    · rw [if_neg hid, foldl_processStatsRecord_get steamId hid]
      cases (recordsWithId records steamId).getLast? <;> rfl
  refine ⟨hmain, ?_, ?_, rfl, rfl, rfl, ?_, ?_, ?_, ?_, ?_, ?_, ?_, ?_⟩
  · intro hnil
    rw [hmain, hnil]
    simp
  · intro record hget
    rw [hmain] at hget
    by_cases hid : steamId = ""
    · rw [if_pos hid] at hget
      cases hget
    · rw [if_neg hid] at hget
      have hmem : record ∈ recordsWithId records steamId := List.mem_of_getLast?_eq_some hget
      unfold recordsWithId at hmem
      rw [List.mem_filterMap] at hmem
      obtain ⟨player, hp, hsome⟩ := hmem
      cases player with
      | none => simp at hsome
      | some r =>
        dsimp only at hsome
        split_ifs at hsome with hr
        cases hsome
        exact ⟨hp, hr⟩
  · simp [loadAndRenderSeasonAvgTable]
  · cases tbody <;> simp [loadAndRenderSeasonAvgTable]
  · cases tbody <;> cases fetched <;> simp [loadAndRenderSeasonAvgTable]
  · simp [loadAndRenderLast10Table]
  · cases tbody <;> simp [loadAndRenderLast10Table]
  · cases tbody <;> cases fetched <;> simp [loadAndRenderLast10Table]
  · simp [loadAndRenderSeasonAvgTable, StatsTables.getSeasonStatsBySteamId]
  · simp [loadAndRenderLast10Table, StatsTables.getLast10StatsBySteamId]

theorem statsLookup_last_record_witness :
    (processStatsIntoMap
        (.array [some scenarioRecord, none, some { scenarioRecord with adr := .num 90 },
          some { scenarioRecord with steam_id := some "p2" }])).get "p1" =
      some { scenarioRecord with adr := .num 90 } := by
  rw [(statsLookup_last_record
    [some scenarioRecord, none, some { scenarioRecord with adr := .num 90 },
      some { scenarioRecord with steam_id := some "p2" }] "p1" .notArray true true none
    StatsTables.initial).1]
  decide

/-! ## Session-only stat edits -/

theorem parseEditField_parseError_of_true (parseFloat : String → Option ℚ) (form : EditForm)
    (acc : ParsedEdits) (key : String) (h : acc.parseError = true) :
    (parseEditField parseFloat form acc key).parseError = true := by
  unfold parseEditField
  dsimp only
  split_ifs
  · exact h
  · split
    · rfl
    · exact h

theorem parseEditField_parseError_of_invalid (parseFloat : String → Option ℚ)
    (form : EditForm) (acc : ParsedEdits) (key : String) (hne : trim (form.get key) ≠ "")
    (hnan : parseFloat (trim (form.get key)) = none) :
    (parseEditField parseFloat form acc key).parseError = true := by
  unfold parseEditField
  dsimp only
  rw [if_neg hne, hnan]

theorem foldl_parseError_of_true (parseFloat : String → Option ℚ) (form : EditForm) :
    ∀ (keys : List String) (acc : ParsedEdits), acc.parseError = true →
      (keys.foldl (parseEditField parseFloat form) acc).parseError = true := by
  intro keys
  induction keys with
  | nil => intro acc h; exact h
  | cons k rest ih =>
    intro acc h
    exact ih _ (parseEditField_parseError_of_true parseFloat form acc k h)

theorem foldl_parseError_of_invalid (parseFloat : String → Option ℚ) (form : EditForm)
    (key : String) (hne : trim (form.get key) ≠ "")
    (hnan : parseFloat (trim (form.get key)) = none) :
    ∀ (keys : List String) (acc : ParsedEdits), key ∈ keys →
      (keys.foldl (parseEditField parseFloat form) acc).parseError = true := by
  intro keys
  induction keys with
  | nil => intro acc h; simp at h
  | cons k rest ih =>
    intro acc h
    rw [List.foldl_cons]
    rcases List.mem_cons.mp h with hk | hk
    · subst hk
      exact foldl_parseError_of_true parseFloat form rest _
        (parseEditField_parseError_of_invalid parseFloat form acc key hne hnan)
    · exact ih _ hk

/-- C21: if one of the six stat inputs is non-empty after trimming and does not
parse to a number, `savePlayerEdits` leaves the whole state as it was (pool and
both rosters included, also for the fields whose inputs were valid) and does
not end as saved. -/
theorem savePlayerEdits_rejects_invalid (parseFloat : String → Option ℚ) (form : EditForm)
    (teamContainer : Bool) (self : TeamPicker) (key : String) (hkey : key ∈ statsToEdit)
    (hne : trim (form.get key) ≠ "") (hnan : parseFloat (trim (form.get key)) = none) :
    (savePlayerEdits parseFloat form teamContainer self).state = self ∧
      ((savePlayerEdits parseFloat form teamContainer self).outcome = .rejected ∨
        (savePlayerEdits parseFloat form teamContainer self).outcome = .notFound) ∧
      (self.availablePlayers.get form.steamId ≠ none → form.steamId ≠ "" →
        (savePlayerEdits parseFloat form teamContainer self).outcome = .rejected) := by
  have herr : (parseEdits parseFloat form).parseError = true :=
    foldl_parseError_of_invalid parseFloat form key hne hnan statsToEdit _ hkey
  unfold savePlayerEdits
  dsimp only
  split_ifs with hid
  · exact ⟨rfl, Or.inr rfl, fun _ h => absurd hid h⟩
  · split
    · next hget => exact ⟨rfl, Or.inr rfl, fun h _ => absurd hget h⟩
    · exact ⟨rfl, Or.inl rfl, fun _ _ => rfl⟩

theorem savePlayerEdits_rejects_invalid_witness :
    (savePlayerEdits scenarioParseFloat invalidForm true scenarioPool).state = scenarioPool ∧
      (savePlayerEdits scenarioParseFloat invalidForm true scenarioPool).outcome = .rejected := by
  have h := savePlayerEdits_rejects_invalid scenarioParseFloat invalidForm true scenarioPool
    "L10_ADR" (by decide) (by decide) (by decide)
  exact ⟨h.1, h.2.2 (by decide) (by decide)⟩

theorem mem_keys_of_get {α : Type} (o : JSObject α) (k : String) (v : α)
    (h : o.get k = some v) : k ∈ o.keys := by
  induction o with
  | nil => simp [JSObject.get] at h
  | cons e rest ih =>
    obtain ⟨k0, v0⟩ := e
    by_cases h0 : k0 = k
    · simp [JSObject.keys, h0]
    · simp only [JSObject.get, h0, if_false] at h
      have := ih h
      simp only [JSObject.keys, List.map_cons, List.mem_cons]
      exact Or.inr this

theorem onlyStatsOf_refl (steamId : String) (o : JSObject Player) : onlyStatsOf steamId o o :=
  ⟨rfl, fun _ _ => rfl, fun player h => ⟨player, h, rfl, rfl, rfl⟩⟩

theorem onlyStatsOf_set (steamId : String) (o : JSObject Player) (player : Player)
    (stats : Option PlayerStats) (h : o.get steamId = some player) :
    onlyStatsOf steamId o (o.set steamId { player with stats := stats }) := by
  refine ⟨JSObject.keys_set_of_mem o steamId _ (mem_keys_of_get o steamId player h),
    fun other hne => JSObject.get_set_of_ne o _ hne, fun p hp => ?_⟩
  rw [h] at hp
  cases hp
  exact ⟨_, JSObject.get_set_self o steamId _, rfl, rfl, rfl⟩

theorem updatePlayerSlots_frame (container : Bool) (teamId : String) (self : TeamPicker) :
    (updatePlayerSlots container teamId self).availablePlayers = self.availablePlayers ∧
      (updatePlayerSlots container teamId self).teamAPlayersData = self.teamAPlayersData ∧
      (updatePlayerSlots container teamId self).teamBPlayersData = self.teamBPlayersData ∧
      (updatePlayerSlots container teamId self).currentAttendanceData =
        self.currentAttendanceData := by
  unfold updatePlayerSlots updateTeamStats
  dsimp only
  split_ifs <;> exact ⟨rfl, rfl, rfl, rfl⟩

/-- What `savePlayerEdits` leaves alone in the state, whatever its outcome. -/
theorem savePlayerEdits_state_frame (parseFloat : String → Option ℚ) (form : EditForm)
    (teamContainer : Bool) (self : TeamPicker) :
    onlyStatsOf form.steamId self.availablePlayers
        (savePlayerEdits parseFloat form teamContainer self).state.availablePlayers ∧
      onlyStatsOf form.steamId self.teamAPlayersData
        (savePlayerEdits parseFloat form teamContainer self).state.teamAPlayersData ∧
      onlyStatsOf form.steamId self.teamBPlayersData
        (savePlayerEdits parseFloat form teamContainer self).state.teamBPlayersData ∧
      (savePlayerEdits parseFloat form teamContainer self).state.currentAttendanceData =
        self.currentAttendanceData := by
  have hrefl := onlyStatsOf_refl form.steamId
  unfold savePlayerEdits
  dsimp only
  split_ifs with hid herr
  · exact ⟨hrefl _, hrefl _, hrefl _, rfl⟩
  · split
    · exact ⟨hrefl _, hrefl _, hrefl _, rfl⟩
    · exact ⟨hrefl _, hrefl _, hrefl _, rfl⟩
  · split
    · exact ⟨hrefl _, hrefl _, hrefl _, rfl⟩
    · next poolPlayer hpool =>
      have hpoolFrame := onlyStatsOf_set form.steamId self.availablePlayers poolPlayer
        (some (objectAssign (poolPlayer.stats.getD {}) (parseEdits parseFloat form).updatedStats))
        hpool
      split
      · next teamPlayer hA =>
        split
        · exact ⟨hpoolFrame, hrefl _, hrefl _, rfl⟩
        · next stats hstats =>
          obtain ⟨h1, h2, h3, h4⟩ := updatePlayerSlots_frame teamContainer "a"
            { self with
              availablePlayers := self.availablePlayers.set form.steamId
                { poolPlayer with
                  stats := some (objectAssign (poolPlayer.stats.getD {})
                    (parseEdits parseFloat form).updatedStats) }
              teamAPlayersData := self.teamAPlayersData.set form.steamId
                { teamPlayer with
                  stats := some (objectAssign stats (parseEdits parseFloat form).updatedStats) } }
          dsimp only at h1 h2 h3 h4 ⊢
          rw [h1, h2, h3, h4]
          exact ⟨hpoolFrame, onlyStatsOf_set form.steamId self.teamAPlayersData teamPlayer _ hA,
            hrefl _, rfl⟩
      · split
        · next teamPlayer hB =>
          split
          · exact ⟨hpoolFrame, hrefl _, hrefl _, rfl⟩
          · next stats hstats =>
            obtain ⟨h1, h2, h3, h4⟩ := updatePlayerSlots_frame teamContainer "b"
              { self with
                availablePlayers := self.availablePlayers.set form.steamId
                  { poolPlayer with
                    stats := some (objectAssign (poolPlayer.stats.getD {})
                      (parseEdits parseFloat form).updatedStats) }
                teamBPlayersData := self.teamBPlayersData.set form.steamId
                  { teamPlayer with
                    stats := some (objectAssign stats
                      (parseEdits parseFloat form).updatedStats) } }
            dsimp only at h1 h2 h3 h4 ⊢
            rw [h1, h2, h3, h4]
            exact ⟨hpoolFrame, hrefl _,
              onlyStatsOf_set form.steamId self.teamBPlayersData teamPlayer _ hB, rfl⟩
        · exact ⟨hpoolFrame, hrefl _, hrefl _, rfl⟩

/-- C22: `savePlayerEdits` changes session copies only.  Whatever the patch,
the stat tables of the session and their id-indexed look-ups are the same
afterwards, and the pool and both rosters keep their keys, every entry of
another player, and the name, id and status of the edited player. -/
theorem savePlayerEdits_session_only (parseFloat : String → Option ℚ) (form : EditForm)
    (teamContainer : Bool) (session : Session) (steamId : String) :
    (session.savePlayerEdits parseFloat form teamContainer).tables = session.tables ∧
      (session.savePlayerEdits parseFloat form teamContainer).tables.getSeasonStatsBySteamId
          steamId = session.tables.getSeasonStatsBySteamId steamId ∧
      (session.savePlayerEdits parseFloat form teamContainer).tables.getLast10StatsBySteamId
          steamId = session.tables.getLast10StatsBySteamId steamId ∧
      onlyStatsOf form.steamId session.picker.availablePlayers
        (session.savePlayerEdits parseFloat form teamContainer).picker.availablePlayers ∧
      onlyStatsOf form.steamId session.picker.teamAPlayersData
        (session.savePlayerEdits parseFloat form teamContainer).picker.teamAPlayersData ∧
      onlyStatsOf form.steamId session.picker.teamBPlayersData
        (session.savePlayerEdits parseFloat form teamContainer).picker.teamBPlayersData := by
  obtain ⟨hpool, hA, hB, -⟩ :=
    savePlayerEdits_state_frame parseFloat form teamContainer session.picker
  exact ⟨rfl, rfl, rfl, hpool, hA, hB⟩

theorem savePlayerEdits_session_only_witness :
    (savePlayerEdits scenarioParseFloat validForm true scenarioPool).outcome = .saved ∧
      (savePlayerEdits scenarioParseFloat validForm true scenarioPool).state.availablePlayers.get
          "p2" =
        some { name := some "p2", steamId := some "p2", status := some "coming",
               stats := some { L10_HLTV2 := .num (3 / 2), L10_ADR := .null, L10_KD := .null,
                               S_HLTV2 := .null, S_ADR := .null, S_KD := .null } } ∧
      (savePlayerEdits scenarioParseFloat validForm true scenarioPool).state.availablePlayers.get
          "p4" = scenarioPool.availablePlayers.get "p4" ∧
      (Session.savePlayerEdits scenarioParseFloat validForm true
          { picker := scenarioPool, tables := scenarioTables }).tables.getLast10StatsBySteamId
          "p1" = some scenarioRecord := by
  have h := savePlayerEdits_session_only scenarioParseFloat validForm true
    { picker := scenarioPool, tables := scenarioTables } "p1"
  refine ⟨by decide, by rfl, h.2.2.2.1.2.1 "p4" (by decide), ?_⟩
  rw [h.2.2.1]
  decide

/-! ## Pool rebuild -/

theorem foldl_pool_get_source (tables : StatsTables) (steamId : String) (player : Player) :
    ∀ (entries : JSObject AttendanceEntry) (pool : JSObject Player),
      (entries.foldl
          (fun pool entry =>
            if entry.2.status = "coming" then
              pool.set entry.1
                (mergePlayerWithStats tables
                  { name := some entry.2.name, steamId := some entry.1,
                    status := some entry.2.status, stats := none })
            else pool) pool).get steamId = some player →
        pool.get steamId = some player ∨
          ∃ entry, (steamId, entry) ∈ entries ∧ entry.status = "coming" ∧
            player = mergePlayerWithStats tables
              { name := some entry.name, steamId := some steamId,
                status := some entry.status, stats := none } := by
  intro entries
  induction entries with
  | nil => intro pool h; exact Or.inl h
  | cons e rest ih =>
    intro pool h
    rw [List.foldl_cons] at h
    rcases ih _ h with h1 | ⟨entry, hmem, hc, hp⟩
    · by_cases hc : e.2.status = "coming"
      · rw [if_pos hc] at h1
        by_cases hk : steamId = e.1
        · subst hk
          rw [JSObject.get_set_self] at h1
          exact Or.inr ⟨e.2, List.mem_cons_self _ _, hc, (Option.some.inj h1).symm⟩
        · rw [JSObject.get_set_of_ne _ _ hk] at h1
          exact Or.inl h1
      · rw [if_neg hc] at h1
        exact Or.inl h1
    · exact Or.inr ⟨entry, List.mem_cons_of_mem _ hmem, hc, hp⟩

/-- C29: session edits do not survive a pool rebuild.  For a non-empty
attendance map, the pool after `updateAvailablePlayerDisplay` is the one built
from the attendance and the source tables whatever the pool held before (in
particular after `savePlayerEdits`), and every entry of it is
`mergePlayerWithStats` of an attendance entry with status `'coming'`. -/
theorem pool_rebuild_discards_edits (tables : StatsTables) (self : TeamPicker)
    (edited : JSObject Player) (parseFloat : String → Option ℚ) (form : EditForm)
    (teamContainer : Bool) (hne : self.currentAttendanceData ≠ []) :
    (updateAvailablePlayerDisplay tables true
        { self with availablePlayers := edited }).availablePlayers =
        buildAvailablePlayers tables self.currentAttendanceData ∧
      (updateAvailablePlayerDisplay tables true
        (savePlayerEdits parseFloat form teamContainer self).state).availablePlayers =
        (updateAvailablePlayerDisplay tables true self).availablePlayers ∧
      (∀ steamId player,
        (updateAvailablePlayerDisplay tables true
          { self with availablePlayers := edited }).availablePlayers.get steamId = some player →
        ∃ entry, (steamId, entry) ∈ self.currentAttendanceData ∧ entry.status = "coming" ∧
          player = mergePlayerWithStats tables
            { name := some entry.name, steamId := some steamId,
              status := some entry.status, stats := none }) := by
  have hlen : ¬ (JSObject.keys self.currentAttendanceData).length = 0 := by
    simpa [JSObject.keys] using hne
  have hbuild : ∀ state : TeamPicker, state.currentAttendanceData = self.currentAttendanceData →
      (updateAvailablePlayerDisplay tables true state).availablePlayers =
        buildAvailablePlayers tables self.currentAttendanceData := by
    intro state hstate
    unfold updateAvailablePlayerDisplay
    rw [hstate]
    simp only [Bool.not_true, Bool.false_eq_true, ↓reduceIte, hlen]
  refine ⟨hbuild _ rfl, ?_, ?_⟩
  · rw [hbuild _ (savePlayerEdits_state_frame parseFloat form teamContainer self).2.2.2,
      hbuild self rfl]
  · intro steamId player hget
    rw [hbuild { self with availablePlayers := edited } rfl] at hget
    rcases foldl_pool_get_source tables steamId player self.currentAttendanceData [] hget with
      h | h
    · simp [JSObject.get] at h
    · exact h

theorem pool_rebuild_discards_edits_witness :
    (updateAvailablePlayerDisplay scenarioTables true
        { scenario1 with
          availablePlayers := [("p1", scenarioPlayer "p1" (.num 5))] }).availablePlayers =
      buildAvailablePlayers scenarioTables scenario1.currentAttendanceData :=
  (pool_rebuild_discards_edits scenarioTables scenario1 [("p1", scenarioPlayer "p1" (.num 5))]
    scenarioParseFloat validForm true (by simp [scenario1])).1

/-! ## Map sides -/

theorem sidePath_t_ne_ct (mapIndex : ℕ) : sidePath mapIndex "t" ≠ sidePath mapIndex "ct" := by
  intro h
  have := congrArg String.data h
  simp [sidePath, String.data_append] at this

/-- With both selects in the document and the select of the other side showing
the stored value, the update written by `handleSideChange` leaves the slot with
both sides empty or with two different teams. -/
theorem sides_differ_of_synced_select (mapIndex : ℕ) (side selected tSide ctSide : String)
    (slot : MapSelection) (hside : side = "t" ∨ side = "ct")
    (hsel : selected = "A" ∨ selected = "B" ∨ selected = "")
    (ht : slot.t_team = some tSide) (hct : slot.ct_team = some ctSide)
    (htv : tSide = "A" ∨ tSide = "B" ∨ tSide = "")
    (hctv : ctSide = "A" ∨ ctSide = "B" ∨ ctSide = "") :
    ∃ updates,
      handleSideChange true mapIndex side (some selected)
          (some (if side = "t" then ctSide else tSide)) = some updates ∧
        ∃ t ct, (applySideUpdates mapIndex updates slot).t_team = some t ∧
          (applySideUpdates mapIndex updates slot).ct_team = some ct ∧
          ((t = "" ∧ ct = "") ∨ (t ≠ "" ∧ ct ≠ "" ∧ t ≠ ct)) ∧
          (side = "t" → t = selected) ∧ (side = "ct" → ct = selected) := by
  have hne := sidePath_t_ne_ct mapIndex
  have hne' := hne.symm
  rcases hside with rfl | rfl <;> rcases hsel with rfl | rfl | rfl <;>
    rcases htv with rfl | rfl | rfl <;> rcases hctv with rfl | rfl | rfl <;>
    simp [handleSideChange, applySideUpdates, JSObject.set, JSObject.get, hne, hne', ht, hct]

/-- C26, the code at the failing input: on an empty slot, picking CT side A,
then T side A, then T side B leaves the store with team B on both sides, since
the CT select still shows `'A'` while the store holds `'B'`; with the select
refresh of the earlier version the same picks end with T side B and CT side
A. -/
theorem handleSideChange_stale_select :
    (sidePicks updateSlotSelects).stored =
        { mapName := some "", t_team := some "B", ct_team := some "B" } ∧
      (userSelectsSide updateSlotSelects 1 "t" "A"
          (userSelectsSide updateSlotSelects 1 "ct" "A" emptySlotView)) =
        { stored := { mapName := some "", t_team := some "A", ct_team := some "B" },
          selects := { mapSelect := some "", tSelect := some "A", ctSelect := some "A",
                       ctChangeListeners := 2 } } ∧
      (sidePicks updateSlotSelectsEarlier).stored =
        { mapName := some "", t_team := some "B", ct_team := some "A" } := by
  decide

/-! ## Debounced chart drawing -/

theorem callAt_draws (timers : ChartTimers) (call : ChartCall) :
    (callAt timers call).draws =
      timers.draws +
        (if call.timeoutsRan then
          (timers.pending.filter (fun timer => decide (timer.2 ≤ call.now))).length
        else 0) := by
  unfold callAt updateStatsDifferenceDisplay runTimers
  cases call.timeoutsRan <;> simp

theorem callAt_pending (timers : ChartTimers) (call : ChartCall)
    (h : timers.pending = [] ∨ ∃ handle due, timers.pending = [(handle, due)] ∧
      timers.chartRenderDebounceTimer = some handle) :
    (callAt timers call).pending = [(timers.nextHandle, call.now + CHART_DEBOUNCE_DELAY)] ∧
      (callAt timers call).chartRenderDebounceTimer = some timers.nextHandle := by
  unfold callAt updateStatsDifferenceDisplay runTimers
  rcases h with hp | ⟨handle, due, hp, ht⟩
  · cases call.timeoutsRan <;> cases hc : timers.chartRenderDebounceTimer <;>
      simp [clearTimeout, hp, hc]
  · cases call.timeoutsRan
    · simp [clearTimeout, hp, ht]
    · by_cases hdue : call.now < due <;> simp [clearTimeout, hp, ht, hdue]

/-- Calls each made within the quiet period of the previous one: whatever the
event loop did in between, the draw count does not move and one timeout stays
pending. -/
theorem callsAt_rapid :
    ∀ (rest : List ChartCall) (previous : ChartCall) (timers : ChartTimers) (handle : ℕ),
      timers.pending = [(handle, previous.now + CHART_DEBOUNCE_DELAY)] →
      timers.chartRenderDebounceTimer = some handle →
      List.Chain (fun a b => a.now ≤ b.now ∧ b.now < a.now + CHART_DEBOUNCE_DELAY)
        previous rest →
      (callsAt rest timers).pending.length = 1 ∧ (callsAt rest timers).draws = timers.draws := by
  intro rest
  induction rest with
  | nil =>
    intro previous timers handle hp _ _
    simp [callsAt, hp]
  | cons b rest ih =>
    intro previous timers handle hp ht hchain
    rw [List.chain_cons] at hchain
    obtain ⟨⟨-, hb⟩, hrest⟩ := hchain
    obtain ⟨h1, h2⟩ := callAt_pending timers b (Or.inr ⟨_, _, hp, ht⟩)
    have h3 : (callAt timers b).draws = timers.draws := by
      rw [callAt_draws, hp]
      have : ¬ previous.now + CHART_DEBOUNCE_DELAY ≤ b.now := not_le.mpr hb
      cases b.timeoutsRan <;> simp [this]
    have := ih b (callAt timers b) timers.nextHandle h1 h2 hrest
    rw [h3] at this
    exact this

/-- Calls each made more than the quiet period after the previous one, each
after the timeout of the previous call has run: the draw count grows by one per
call. -/
theorem callsAt_spaced :
    ∀ (rest : List ChartCall) (previous : ChartCall) (timers : ChartTimers) (handle : ℕ),
      timers.pending = [(handle, previous.now + CHART_DEBOUNCE_DELAY)] →
      timers.chartRenderDebounceTimer = some handle →
      List.Chain (fun a b => a.now + CHART_DEBOUNCE_DELAY < b.now) previous rest →
      (∀ call ∈ rest, call.timeoutsRan = true) →
      (callsAt rest timers).pending.length = 1 ∧
        (callsAt rest timers).draws = timers.draws + rest.length := by
  intro rest
  induction rest with
  | nil =>
    intro previous timers handle hp _ _ _
    simp [callsAt, hp]
  | cons b rest ih =>
    intro previous timers handle hp ht hchain hran
    rw [List.chain_cons] at hchain
    obtain ⟨hb, hrest⟩ := hchain
    obtain ⟨h1, h2⟩ := callAt_pending timers b (Or.inr ⟨_, _, hp, ht⟩)
    have h3 : (callAt timers b).draws = timers.draws + 1 := by
      rw [callAt_draws, hp, hran b (List.mem_cons_self _ _)]
      simp [hb.le]
    have := ih b (callAt timers b) timers.nextHandle h1 h2 hrest
      (fun call hc => hran call (List.mem_cons_of_mem _ hc))
    rw [h3] at this
    refine ⟨this.1, ?_⟩
    rw [List.length_cons]
    have h := this.2
    unfold callsAt at h ⊢
    rw [List.foldl_cons, h]
    ring

/-- After any calls, at most one timeout is pending, and it is the one whose
handle `chartRenderDebounceTimer` holds; draws and pending timeouts together
grow by at most one per call. -/
theorem callsAt_pending :
    ∀ (calls : List ChartCall) (timers : ChartTimers),
      (timers.pending = [] ∨ ∃ handle due, timers.pending = [(handle, due)] ∧
        timers.chartRenderDebounceTimer = some handle) →
      ((callsAt calls timers).pending = [] ∨ ∃ handle due,
        (callsAt calls timers).pending = [(handle, due)] ∧
          (callsAt calls timers).chartRenderDebounceTimer = some handle) ∧
        (callsAt calls timers).draws + (callsAt calls timers).pending.length ≤
          timers.draws + timers.pending.length + calls.length ∧
        (calls ≠ [] → (callsAt calls timers).pending.length = 1) := by
  intro calls
  induction calls with
  | nil => intro timers h; exact ⟨h, le_rfl, fun h => absurd rfl h⟩
  | cons call rest ih =>
    intro timers h
    obtain ⟨h1, h2⟩ := callAt_pending timers call h
    obtain ⟨i1, i2, i3⟩ := ih (callAt timers call) (Or.inr ⟨_, _, h1, h2⟩)
    have hfired : (callAt timers call).draws ≤ timers.draws + timers.pending.length := by
      rw [callAt_draws]
      split_ifs
      · exact Nat.add_le_add_left (List.length_filter_le _ _) _
      · exact Nat.le_add_right _ _
    have hstep : callsAt (call :: rest) timers = callsAt rest (callAt timers call) := rfl
    rw [hstep]
    refine ⟨i1, ?_, fun _ => ?_⟩
    · rw [h1] at i2
      simp only [List.length_cons, List.length_nil] at i2 ⊢
      omega
    · rcases i1 with hp | ⟨_, _, hp, -⟩
      · by_cases hrest : rest = []
        · subst hrest
          simp [callsAt, h1]
        · have := i3 hrest
          rw [hp] at this
          simp at this
      · simp [hp]

/-- C24, counterexample: three calls at 0, 101 and 202 ms, each more than the
quiet period after the previous one, produce one draw, not three, when each
call finds the timeout of the previous call due but not yet run. -/
theorem debounce_late_timeout_counterexample :
    List.Chain (fun a b : ChartCall => a.now + CHART_DEBOUNCE_DELAY < b.now)
        { now := 0, timeoutsRan := false }
        [{ now := 101, timeoutsRan := false }, { now := 202, timeoutsRan := false }] ∧
      (settle (callsAt lateTimeoutCalls ChartTimers.initial)).draws = 1 :=
  ⟨by simp [CHART_DEBOUNCE_DELAY], by decide⟩

/-- C24, amended: debounce coalescing of the comparison chart, with time in
whole milliseconds and the container in the document.  Calls each made less
than the quiet period after the previous one draw nothing while they last and
exactly once when input goes quiet, whatever the event loop does in between.
Calls each made more than the quiet period after the previous one draw once per
call when each call comes after the timeout of the previous call has run; in
every case `N ≥ 1` calls draw at least once and at most `N` times.  After any
calls, at any time, at most one timeout is pending. -/
theorem debounce_coalescing (first : ChartCall) (rest calls : List ChartCall) (now : ℕ) :
    (List.Chain (fun a b => a.now ≤ b.now ∧ b.now < a.now + CHART_DEBOUNCE_DELAY) first rest →
        (callsAt (first :: rest) ChartTimers.initial).draws = 0 ∧
          (settle (callsAt (first :: rest) ChartTimers.initial)).draws = 1) ∧
      (List.Chain (fun a b => a.now + CHART_DEBOUNCE_DELAY < b.now) first rest →
        (∀ call ∈ rest, call.timeoutsRan = true) →
        (settle (callsAt (first :: rest) ChartTimers.initial)).draws = (first :: rest).length) ∧
      (1 ≤ (settle (callsAt (first :: rest) ChartTimers.initial)).draws ∧
        (settle (callsAt (first :: rest) ChartTimers.initial)).draws ≤ (first :: rest).length) ∧
      (callsAt calls ChartTimers.initial).pending.length ≤ 1 ∧
      (runTimers now (callsAt calls ChartTimers.initial)).pending.length ≤ 1 := by
  obtain ⟨h1, h2⟩ := callAt_pending ChartTimers.initial first (Or.inl rfl)
  have h3 : (callAt ChartTimers.initial first).draws = 0 := by
    rw [callAt_draws]
    simp [ChartTimers.initial]
  have hstep : callsAt (first :: rest) ChartTimers.initial =
      callsAt rest (callAt ChartTimers.initial first) := rfl
  have hpending : (callsAt calls ChartTimers.initial).pending.length ≤ 1 := by
    rcases (callsAt_pending calls ChartTimers.initial (Or.inl rfl)).1 with h | ⟨_, _, h, -⟩ <;>
      simp [h]
  refine ⟨fun hchain => ?_, fun hchain hran => ?_, ?_, hpending, ?_⟩
  · obtain ⟨hlen, hdraws⟩ := callsAt_rapid rest first _ _ h1 h2 hchain
    rw [hstep, hdraws, h3]
    refine ⟨rfl, ?_⟩
    unfold settle
    dsimp only
    rw [hlen, hdraws, h3]
  · obtain ⟨hlen, hdraws⟩ := callsAt_spaced rest first _ _ h1 h2 hchain hran
    rw [hstep]
    unfold settle
    dsimp only
    rw [hlen, hdraws, h3, List.length_cons]
    omega
  · obtain ⟨-, hsum, hone⟩ := callsAt_pending (first :: rest) ChartTimers.initial (Or.inl rfl)
    have hlen := hone (List.cons_ne_nil _ _)
    unfold settle
    dsimp only
    rw [hlen] at hsum ⊢
    simp only [ChartTimers.initial, List.length_nil, List.length_cons] at hsum ⊢
    omega
  · unfold runTimers
    dsimp only
    exact (List.length_filter_le _ _).trans hpending

theorem debounce_coalescing_witness :
    (settle (callsAt rapidCalls ChartTimers.initial)).draws = 1 ∧
      (settle (callsAt promptTimeoutCalls ChartTimers.initial)).draws = 3 :=
  ⟨((debounce_coalescing { now := 0, timeoutsRan := true }
        [{ now := 50, timeoutsRan := true }, { now := 120, timeoutsRan := false }] [] 0).1
      (by simp [CHART_DEBOUNCE_DELAY])).2,
    (debounce_coalescing { now := 0, timeoutsRan := true }
        [{ now := 101, timeoutsRan := true }, { now := 202, timeoutsRan := true }] [] 0).2.1
      (by simp [CHART_DEBOUNCE_DELAY]) (by simp)⟩

end CSBatagi
